import Mathlib

/-!
# wcnss_filter: a shallow embedding of `src/src/main.c`

The program multiplexes Bluetooth and ANT packets over one UART.  The embedding
passes the process state explicitly (`World`): the three global descriptors,
`errno`, the behaviour of every descriptor the operating system hands to the
program (what `read`, `write`, `select` and `accept` will answer), the property
store, and a log of the externally visible actions the program performed.

Conventions.
* A byte (`unsigned char`) is a `Fin 256`; C `int` results are `Int`; sizes are `Nat`.
* The build flags `DEBUG_MIMIC_CMD_TOUT` and `IGNORE_HCI_RESET` are not defined in
  the file, so the two conditional blocks of `copy_bt_data_to_channel` are absent.
* Uninitialised memory (stack arrays, `malloc`) holds the bytes `World.junk`.
* `*((unsigned short*)&hdr[2])` is read on a little-endian host.
-/

namespace WcnssFilter

/-! ## Constants -/

abbrev Byte := Fin 256

def BT_SSR_TRIGGERED : Byte := 0xee
def BT_CMD_PACKET_TYPE : Byte := 0x01
def BT_ACL_PACKET_TYPE : Byte := 0x02
def BT_SCO_PACKET_TYPE : Byte := 0x03
def BT_EVT_PACKET_TYPE : Byte := 0x04
def ANT_CTL_PACKET_TYPE : Byte := 0x0c
def ANT_DATA_PACKET_TYPE : Byte := 0x0e

def MAX_BT_HDR_SIZE : Nat := 4
def BT_ACL_HDR_SIZE : Nat := 4
def BT_SCO_HDR_SIZE : Nat := 3
def BT_EVT_HDR_SIZE : Nat := 2
def BT_CMD_HDR_SIZE : Nat := 3
def BT_ACL_HDR_LEN_OFFSET : Nat := 2
def BT_SCO_HDR_LEN_OFFSET : Nat := 2
def BT_EVT_HDR_LEN_OFFSET : Nat := 1
def BT_CMD_HDR_LEN_OFFSET : Nat := 2
def ANT_CMD_HDR_SIZE : Nat := 2
def ANT_HDR_OFFSET_LEN : Nat := 1

def BLUETOOTH_UID : Int := 1002
def SYSTEM_UID : Int := 1000
def ROOT_UID : Int := 0
def AID_USER : Int := 100000
def AID_APP : Int := 10000

def HOST_TO_SOC : Int := 0
def SOC_TO_HOST : Int := 1

/-- Linux errno values consulted by the program. -/
def EPIPE : Int := 32
def EBADF : Int := 9

/-! ## The environment -/

/-- What one arrival on a descriptor's input side is: some bytes (an empty
chunk is the end of the stream) or a failing `read` with its errno. -/
inductive ReadEv where
  | data (bs : List Byte)
  | fail (errno : Int)
deriving DecidableEq, Repr

/-- Input side of a descriptor: bytes already received and not yet read, and
what will arrive afterwards. -/
structure RdState where
  queued : List Byte
  future : List ReadEv
deriving DecidableEq, Repr

/-- Scripted answer of one `write` call: it returns `k`, or fails with an errno. -/
inductive WriteEv where
  | wrote (k : Nat)
  | fail (errno : Int)
deriving DecidableEq, Repr

/-- The two rendezvous names, `BT_SOCK` ("bt_sock") and `ANT_SOCK` ("ant_sock"). -/
inductive SockName where
  | BT_SOCK
  | ANT_SOCK
deriving DecidableEq, Repr

/-- What the system calls of one `establish_remote_socket` run answer. -/
structure Conn where
  sock_id : Int
  bind_ret : Int
  listen_ret : Int
  accept_fd : Int
  getsockopt_ret : Int
  uid : Nat
deriving DecidableEq, Repr

/-- The four properties the program touches. -/
inductive PropKey where
  | hci_filter_status
  | ref_count
  | clean_up
  | start_hci
deriving DecidableEq, Repr

/-- Externally visible actions, in program order. `write fd offered ret` is one
`write` system call: the bytes offered and the value it returned. -/
inductive Event where
  | write (fd : Int) (offered : List Byte) (ret : Int)
  | close (fd : Int)
  | tcflush (fd : Int)
  | lock
  | unlock
  | property_set (key : PropKey) (val : String)
  | exit (code : Int)
deriving DecidableEq, Repr

structure World where
  remote_bt_fd : Int
  remote_ant_fd : Int
  fd_transport : Int
  errno : Int
  rd : Int → RdState
  wr : Int → List WriteEv
  sel : Int → List Int
  conns : SockName → List Conn
  props : PropKey → String
  junk : Nat → Byte
  oom : Bool
  log : List Event

def World.emit (w : World) (e : Event) : World :=
  { w with log := w.log ++ [e] }

def World.set_rd (w : World) (fd : Int) (s : RdState) : World :=
  { w with rd := fun x => if x = fd then s else w.rd x }

def World.set_wr (w : World) (fd : Int) (s : List WriteEv) : World :=
  { w with wr := fun x => if x = fd then s else w.wr x }

/-- Bytes a descriptor accepted in one logged action. -/
def Event.accepted (fd : Int) : Event → List Byte
  | Event.write fd1 offered ret =>
      if fd1 = fd ∧ 0 < ret then offered.take ret.toNat else []
  | _ => []

/-- All bytes descriptor `fd` accepted over a log, in order. -/
def written (fd : Int) : List Event → List Byte
  | [] => []
  | e :: es => e.accepted fd ++ written fd es

/-- The `write` calls issued on `fd` in a log: the bytes each one offered. -/
def write_calls (fd : Int) : List Event → List (List Byte)
  | [] => []
  | Event.write fd1 offered _ :: es =>
      if fd1 = fd then offered :: write_calls fd es else write_calls fd es
  | _ :: es => write_calls fd es

/-- Bytes a stream of arrivals delivers before its first end-of-stream or error. -/
def availF : List ReadEv → List Byte
  | [] => []
  | ReadEv.fail _ :: _ => []
  | ReadEv.data [] :: _ => []
  | ReadEv.data (b :: bs) :: rest => (b :: bs) ++ availF rest

/-- Bytes a descriptor delivers before its first end-of-stream or error. -/
def avail (s : RdState) : List Byte := s.queued ++ availF s.future

/-- Whether the deliverable bytes of a stream are followed by a failing read
(rather than by the end of the stream). -/
def endsInErrorF : List ReadEv → Bool
  | [] => false
  | ReadEv.fail _ :: _ => true
  | ReadEv.data [] :: _ => false
  | ReadEv.data (_ :: _) :: rest => endsInErrorF rest

def endsInError (s : RdState) : Bool := endsInErrorF s.future

/-! ## System calls -/

/-- The `read(fd, buf, count)` call: returns the result, the bytes stored at
`buf`, and the new state. A descriptor with nothing queued takes its next
arrival; with no arrival left it reports end of stream. -/
def read (w : World) (fd : Int) (count : Nat) : Int × List Byte × World :=
  match (w.rd fd).queued with
  | b :: q =>
      ((((b :: q).take count).length : Nat), (b :: q).take count,
        w.set_rd fd { queued := (b :: q).drop count, future := (w.rd fd).future })
  | [] =>
      match (w.rd fd).future with
      | [] => (0, [], w)
      | ReadEv.fail e :: rest =>
          (-1, [], { w.set_rd fd { queued := [], future := rest } with errno := e })
      | ReadEv.data bs :: rest =>
          (((bs.take count).length : Nat), bs.take count,
            w.set_rd fd { queued := bs.drop count, future := rest })

/-- The `write(fd, buf, count)` call on the bytes `offered`. A descriptor whose
script is exhausted accepts everything it is offered. -/
def write (w : World) (fd : Int) (offered : List Byte) : Int × World :=
  match w.wr fd with
  | [] => ((offered.length : Nat), w.emit (Event.write fd offered (offered.length : Nat)))
  | WriteEv.wrote k :: rest =>
      ((k : Nat), (w.set_wr fd rest).emit (Event.write fd offered (k : Nat)))
  | WriteEv.fail e :: rest =>
      (-1, { (w.set_wr fd rest).emit (Event.write fd offered (-1)) with errno := e })

/-- The `select` call on the single descriptor `fd`: its scripted result, or 1
(descriptor ready) once the script is exhausted. -/
def select (w : World) (fd : Int) : Int × World :=
  match w.sel fd with
  | [] => (1, w)
  | n :: rest => (n, { w with sel := fun x => if x = fd then rest else w.sel x })

/-- The `tcflush(fd, TCIFLUSH)` call: received and unread bytes are discarded. -/
def tcflush (w : World) (fd : Int) : World :=
  (w.set_rd fd { queued := [], future := (w.rd fd).future }).emit (Event.tcflush fd)

def close (w : World) (fd : Int) : World := w.emit (Event.close fd)

/-- Copy `src` into `buf` at offset `off` (a `memcpy` into an allocated region). -/
def blit (buf : List Byte) (off : Nat) (src : List Byte) : List Byte :=
  buf.take off ++ src ++ buf.drop (off + src.length)

/-- A fresh uninitialised object of `n` bytes. -/
def uninit (w : World) (n : Nat) : List Byte := (List.range n).map w.junk

/-! ## `do_write` and `do_read` -/

/-- The loop of `do_write`. Every further iteration has a strictly smaller
`write_len`, so `len + 1` rounds of fuel are never exhausted. -/
def do_write_loop (fd : Int) (buf : List Byte) (len : Nat) :
    Nat → World → Nat → Nat → Int × World
  | 0, w, _, _ => ((len : Nat), w)
  | fuel + 1, w, write_offset, write_len =>
    match write w fd ((buf.drop write_offset).take write_len) with
    | (ret, w1) =>
      if ret < 0 then (-1, w1)
      else if ret = 0 then (((len - write_len : Nat) : Int), w1)
      else if ret < (write_len : Int) then
        do_write_loop fd buf len fuel w1 ret.toNat (write_len - ret.toNat)
      else if ret > (write_len : Int) then ((len : Nat), w1)
      else ((len : Nat), w1)

/-- `do_write(fd, buf, len)`, lines 444-479. -/
def do_write (w : World) (fd : Int) (buf : List Byte) (len : Nat) : Int × World :=
  do_write_loop fd buf len (len + 1) w 0 len

/-- The loop of `do_read`, storing at `buf + base`. Every further iteration has
a strictly smaller `bytes_left`, so `len` rounds of fuel are never exhausted. -/
def do_read_loop (fd : Int) (base len : Nat) :
    Nat → World → List Byte → Nat → Nat → Int × List Byte × World
  | 0, w, buf, _, _ => ((len : Nat), buf, w)
  | fuel + 1, w, buf, bytes_left, read_offset =>
    match read w fd bytes_left with
    | (bytes_read, got, w1) =>
      if bytes_read < 0 then (-1, buf, w1)
      else if bytes_read = 0 then (((len - bytes_left : Nat) : Int), buf, w1)
      else if bytes_read < (bytes_left : Int) then
        do_read_loop fd base len fuel w1 (blit buf (base + read_offset) got)
          (bytes_left - bytes_read.toNat) (read_offset + bytes_read.toNat)
      else ((len : Nat), blit buf (base + read_offset) got, w1)

/-- `do_read(fd, buf + base, len)`, lines 481-514; `buf` is the whole object
the pointer points into. -/
def do_read (w : World) (fd : Int) (buf : List Byte) (base len : Nat) :
    Int × List Byte × World :=
  if len = 0 then (0, buf, w)
  else do_read_loop fd base len len w buf len 0

/-! ## Credentials -/

/-- Conversion of a `uid_t` (unsigned 32-bit) to `int`. -/
def to_int32 (u : Nat) : Int :=
  if u % 2 ^ 32 < 2 ^ 31 then ((u % 2 ^ 32 : Nat) : Int) else ((u % 2 ^ 32 : Nat) : Int) - 2 ^ 32

/-- `extract_uid`, lines 128-140 (C `%` truncates toward zero). -/
def extract_uid (uuid : Int) : Int :=
  let userid := Int.tmod uuid AID_USER
  if userid > BLUETOOTH_UID then Int.tmod userid AID_APP else userid

/-- `establish_remote_socket(name)`, lines 142-210. `none`: no peer ever
connects, the call stays in `accept`. -/
def establish_remote_socket (w : World) (name : SockName) : Option (Int × World) :=
  match w.conns name with
  | [] => none
  | c :: rest =>
    let w0 : World := { w with conns := fun x => if x = name then rest else w.conns x }
    if c.sock_id < 0 then some (-1, w0)
    else if c.bind_ret ≥ 0 then
      if c.listen_ret = 0 then
        if c.accept_fd > 0 then
          let w1 := close w0 c.sock_id
          if c.getsockopt_ret < 0 then some (-1, close w1 c.accept_fd)
          else
            let c_uid : Int := to_int32 c.uid
            let c_uid : Int := if c_uid > BLUETOOTH_UID then extract_uid (to_int32 c.uid) else c_uid
            if c_uid ≠ BLUETOOTH_UID ∧ c_uid ≠ SYSTEM_UID ∧ c_uid ≠ ROOT_UID then
              some (-1, close w1 c.accept_fd)
            else some (c.accept_fd, w1)
        else some (c.accept_fd, close w0 c.sock_id)
      else some (-1, close w0 c.sock_id)
    else some (-1, close w0 c.sock_id)

/-! ## Framers -/

/-- The code of `copy_bt_data_to_channel` after its `switch`, lines 618-670:
drop the frame when no client is there, else write `acl_len` bytes of `buf`
under the mutex. -/
def bt_deliver (w : World) (dest_fd : Int) (no_valid_client : Bool) (buf : List Byte)
    (acl_len : Nat) : Int × World :=
  if no_valid_client = true ∨ w.remote_bt_fd = 0 then (0, w)
  else
    match do_write (w.emit Event.lock) dest_fd buf acl_len with
    | (retval, w1) =>
      let w2 := w1.emit Event.unlock
      if retval < 0 then
        if w2.errno = EPIPE ∨ w2.errno = EBADF then (0, w2) else (-1, w2)
      else (retval, w2)

/-- One `case` of the `switch` in `copy_bt_data_to_channel`; the three cases
(lines 532-558, 560-586, 588-613) differ in the header size and in how the
length is decoded. `acl_len` is an `unsigned short`, so the final sum wraps at
`2 ^ 16`. -/
def bt_case (w : World) (src_fd dest_fd : Int) (protocol_byte : Byte) (no_valid_client : Bool)
    (hdr_size : Nat) (length_of : List Byte → Nat) : Int × World :=
  match do_read w src_fd (uninit w MAX_BT_HDR_SIZE) 0 hdr_size with
  | (retval, hdr, w1) =>
    if retval < 0 then (-1, w1)
    else
      let len : Nat := length_of hdr
      if w1.oom = true then (-2, w1)
      else
        let buf := List.replicate (len + hdr_size + 1) (0 : Byte)
        let buf := buf.set 0 protocol_byte
        let buf := blit buf 1 (hdr.take hdr_size)
        match do_read w1 src_fd buf (hdr_size + 1) len with
        | (retval, buf, w2) =>
          if retval < 0 then (-1, w2)
          else
            let acl_len : Nat := (len + hdr_size + 1) % 2 ^ 16
            bt_deliver w2 dest_fd no_valid_client buf acl_len

/-- The `unsigned short` stored at `hdr[BT_ACL_HDR_LEN_OFFSET]`. -/
def acl_length (hdr : List Byte) : Nat :=
  (hdr.getD BT_ACL_HDR_LEN_OFFSET 0).val + 256 * (hdr.getD (BT_ACL_HDR_LEN_OFFSET + 1) 0).val

/-- `copy_bt_data_to_channel`, lines 516-671. -/
def copy_bt_data_to_channel (w : World) (src_fd dest_fd : Int) (protocol_byte : Byte)
    (_direction : Int) : Int × World :=
  let no_valid_client : Bool := decide (dest_fd = 0)
  if protocol_byte = BT_ACL_PACKET_TYPE then
    bt_case w src_fd dest_fd protocol_byte no_valid_client BT_ACL_HDR_SIZE acl_length
  else if protocol_byte = BT_SCO_PACKET_TYPE ∨ protocol_byte = BT_CMD_PACKET_TYPE then
    bt_case w src_fd dest_fd protocol_byte no_valid_client BT_SCO_HDR_SIZE
      (fun hdr => (hdr.getD BT_SCO_HDR_LEN_OFFSET 0).val)
  else if protocol_byte = BT_EVT_PACKET_TYPE then
    bt_case w src_fd dest_fd protocol_byte no_valid_client BT_EVT_HDR_SIZE
      (fun hdr => (hdr.getD BT_EVT_HDR_LEN_OFFSET 0).val)
  else (-3, w)

/-- `copy_ant_host_data_to_soc`, lines 674-730. `no_valid_client` is set and
never consulted there. -/
def copy_ant_host_data_to_soc (w : World) (src_fd dest_fd : Int) (protocol_byte : Byte) :
    Int × World :=
  match do_read w src_fd (uninit w ANT_CMD_HDR_SIZE) ANT_HDR_OFFSET_LEN ANT_HDR_OFFSET_LEN with
  | (retval, hdr, w1) =>
    if retval < 0 then (-1, w1)
    else
      let len : Nat := (hdr.getD ANT_HDR_OFFSET_LEN 0).val
      let hdr := hdr.set 0 protocol_byte
      if w1.oom = true then (-1, w1)
      else
        match do_read w1 src_fd (uninit w1 (len + ANT_CMD_HDR_SIZE)) ANT_CMD_HDR_SIZE len with
        | (retval, ant_pl, w2) =>
          if retval < 0 then (-1, w2)
          else
            let ant_pl := blit ant_pl 0 (hdr.take ANT_CMD_HDR_SIZE)
            match do_write (w2.emit Event.lock) dest_fd ant_pl (len + ANT_CMD_HDR_SIZE) with
            | (retval, w3) =>
              let w4 := w3.emit Event.unlock
              if retval < 0 then (-1, w4) else (retval, w4)

/-- `copy_ant_data_to_channel`, lines 732-801. -/
def copy_ant_data_to_channel (w : World) (src_fd dest_fd : Int) (protocol_byte : Byte) :
    Int × World :=
  match read w src_fd 1 with
  | (ret, got, w1) =>
    if ret < 0 then (-1, w1)
    else
      let len : Byte := got.headD (w.junk 0)
      if w1.oom = true then (-1, w1)
      else
        match do_read w1 src_fd (uninit w1 (len.val + 2)) 2 len.val with
        | (ret, ant_pl, w2) =>
          if ret < 0 then (-1, w2)
          else if w2.remote_ant_fd = 0 then (0, w2)
          else
            let ant_pl := ant_pl.set 0 protocol_byte
            let ant_pl := ant_pl.set 1 len
            match do_write (w2.emit Event.lock) dest_fd (ant_pl.drop 1) (ret.toNat + 1) with
            | (ret, w3) =>
              let w4 := w3.emit Event.unlock
              if ret < 0 then
                if w4.errno = EPIPE ∨ w4.errno = EBADF then (0, w4) else (-1, w4)
              else (0, w4)

/-! ## Dispatchers -/

/-- `handle_command_writes(fd)`, lines 247-289. Every branch of the `switch`
assigns `retval`; the function then ends in `return 0`. -/
def handle_command_writes (w : World) (fd : Int) : Int × World :=
  match read w fd 1 with
  | (retval, got, w1) =>
    if retval < 0 then (-1, w1)
    else if retval = 0 then (-99, w1)
    else
      let first_byte : Byte := got.headD (w.junk 0)
      if first_byte = ANT_CTL_PACKET_TYPE ∨ first_byte = ANT_DATA_PACKET_TYPE then
        match copy_ant_host_data_to_soc w1 fd w1.fd_transport first_byte with
        | (_retval, w2) => (0, w2)
      else if first_byte = BT_EVT_PACKET_TYPE ∨ first_byte = BT_ACL_PACKET_TYPE
          ∨ first_byte = BT_CMD_PACKET_TYPE then
        match copy_bt_data_to_channel w1 fd w1.fd_transport first_byte HOST_TO_SOC with
        | (_retval, w2) => (0, w2)
      else if first_byte = BT_SSR_TRIGGERED then (0, w1)
      else
        let _retval : Int := -1
        (0, w1)

/-- `handle_soc_events(fd_transport)`, lines 803-837. A zero result of the
first `read` leaves `first_byte` uninitialised. -/
def handle_soc_events (w : World) (fd_transport : Int) : Int × World :=
  match read w fd_transport 1 with
  | (retval, got, w1) =>
    if retval < 0 then (-1, w1)
    else
      let first_byte : Byte := got.headD (w.junk 0)
      if first_byte = ANT_CTL_PACKET_TYPE ∨ first_byte = ANT_DATA_PACKET_TYPE then
        copy_ant_data_to_channel w1 fd_transport w1.remote_ant_fd first_byte
      else if first_byte = BT_EVT_PACKET_TYPE ∨ first_byte = BT_ACL_PACKET_TYPE then
        copy_bt_data_to_channel w1 fd_transport w1.remote_bt_fd first_byte SOC_TO_HOST
      else (0, tcflush w1 fd_transport)

/-! ## Cleanup and the endpoint threads -/

/-- `property_get(key, value, default)`: an unset (empty) property reads as the default. -/
def property_get (w : World) (key : PropKey) (dflt : String) : String :=
  if w.props key = "" then dflt else w.props key

def property_set (w : World) (key : PropKey) (val : String) : World :=
  { w with props := fun k => if k = key then val else w.props k,
           log := w.log ++ [Event.property_set key val] }

/-- Digits of `atoi`: the longest run of decimal digits. -/
def atoi_digits : List Char → Nat → Nat
  | [], acc => acc
  | c :: cs, acc =>
      if 48 ≤ c.toNat ∧ c.toNat ≤ 57 then atoi_digits cs (acc * 10 + (c.toNat - 48)) else acc

/-- `atoi`: leading white space, an optional sign, then digits (values within `int`). -/
def atoi (s : String) : Int :=
  match s.toList.dropWhile (fun c => c.toNat = 32 ∨ (9 ≤ c.toNat ∧ c.toNat ≤ 13)) with
  | [] => 0
  | c :: cs =>
      if c.toNat = 45 then - (atoi_digits cs 0 : Int)
      else if c.toNat = 43 then (atoi_digits cs 0 : Int)
      else (atoi_digits (c :: cs) 0 : Int)

/-- `snprintf(buf, size, "%d", v)`: the decimal text of `v`, cut to `size - 1` characters. -/
def snprintf_d (size : Nat) (v : Int) : String :=
  String.mk ((toString v).toList.take (size - 1))

/-- `handle_cleanup`, lines 938-975. The flag is true when the process called `exit(0)`. -/
def handle_cleanup (w : World) : World × Bool :=
  let clean : Int := atoi (property_get w PropKey.clean_up "0")
  let ref_val : Int := atoi (property_get w PropKey.ref_count "0")
  let w1 : World :=
    if clean = 0 then
      if ref_val > 0 then property_set w PropKey.ref_count (snprintf_d 3 (ref_val - 1))
      else w
    else w
  if w1.remote_bt_fd = 0 ∧ w1.remote_ant_fd = 0 then
    if property_get w1 PropKey.hci_filter_status "0" = "0" then (w1, false)
    else
      let w2 := property_set w1 PropKey.hci_filter_status "0"
      let w3 := property_set w2 PropKey.start_hci "false"
      (w3.emit (Event.exit 0), true)
  else (w1, false)

/-- How a thread function ended within the given number of loop rounds. -/
inductive Outcome where
  | returned (v : Int)
  | exited (code : Int)
  | blocked
  | out_of_fuel
deriving DecidableEq, Repr

/-- The inner `do ... while(1)` of an endpoint thread (lines 307-326 and
352-371) on the peer descriptor `fd`; `none` when the rounds are used up. -/
def serve_loop (fd : Int) : Nat → World → Option World
  | 0, _ => none
  | fuel + 1, w =>
    match select w fd with
    | (n, w1) =>
      if n < 0 then some w1
      else if n > 0 then
        match handle_command_writes w1 fd with
        | (retval, w2) => if retval < 0 then some w2 else serve_loop fd fuel w2
      else serve_loop fd fuel w1

/-- `bt_thread`, lines 291-336: at most `fuel` rounds of the outer loop, each
with at most `fuel` rounds of the inner one. -/
def bt_thread : Nat → World → Outcome × World
  | 0, w => (Outcome.out_of_fuel, w)
  | fuel + 1, w =>
    match establish_remote_socket w SockName.BT_SOCK with
    | none => (Outcome.blocked, w)
    | some (fd, w0) =>
      let w1 : World := { w0 with remote_bt_fd := fd }
      if w1.remote_bt_fd < 0 then (Outcome.returned (-1), w1)
      else
        match serve_loop w1.remote_bt_fd (fuel + 1) w1 with
        | none => (Outcome.out_of_fuel, w1)
        | some w2 =>
          let w3 : World := { close w2 w2.remote_bt_fd with remote_bt_fd := 0 }
          match handle_cleanup w3 with
          | (w4, true) => (Outcome.exited 0, w4)
          | (w4, false) => bt_thread fuel w4

/-- `ant_thread`, lines 338-381. -/
def ant_thread : Nat → World → Outcome × World
  | 0, w => (Outcome.out_of_fuel, w)
  | fuel + 1, w =>
    match establish_remote_socket w SockName.ANT_SOCK with
    | none => (Outcome.blocked, w)
    | some (fd, w0) =>
      let w1 : World := { w0 with remote_ant_fd := fd }
      if w1.remote_ant_fd < 0 then (Outcome.returned (-1), w1)
      else
        match serve_loop w1.remote_ant_fd (fuel + 1) w1 with
        | none => (Outcome.out_of_fuel, w1)
        | some w2 =>
          let w3 : World := { close w2 w2.remote_ant_fd with remote_ant_fd := 0 }
          match handle_cleanup w3 with
          | (w4, true) => (Outcome.exited 0, w4)
          | (w4, false) => ant_thread fuel w4

/-- A world in which nothing has happened yet: no peer, nothing to read,
every write accepted, no property set. -/
def World.idle : World :=
  { remote_bt_fd := 0, remote_ant_fd := 0, fd_transport := 3, errno := 0,
    rd := fun _ => { queued := [], future := [] }, wr := fun _ => [], sel := fun _ => [],
    conns := fun _ => [], props := fun _ => "", junk := fun _ => 0, oom := false, log := [] }

/-- The state after a `read` on `fd`: only that descriptor's input side and
`errno` can have changed. -/
def World.after_read (w : World) (fd : Int) (s : RdState) (e : Int) : World :=
  { w.set_rd fd s with errno := e }

/-- The first `write` on `fd` accepts all `n` bytes it is offered. -/
def write_completes (w : World) (fd : Int) (n : Nat) : Bool :=
  match w.wr fd with
  | [] => true
  | WriteEv.wrote k :: _ => k == n
  | WriteEv.fail _ :: _ => false

/-- The effective uid in the words of the specification (section 4.3): the uid
itself when it is at most 1002, else the uid modulo 100000, reduced modulo
10000 when that still exceeds 1002. -/
def spec_effective_uid (uid : Nat) : Nat :=
  if uid ≤ 1002 then uid
  else if uid % 100000 > 1002 then (uid % 100000) % 10000 else uid % 100000

/-- Admission in the words of the specification: the effective uid is one of
1002, 1000 and 0. -/
def spec_admits (uid : Nat) : Bool :=
  spec_effective_uid uid = 1002 ∨ spec_effective_uid uid = 1000 ∨ spec_effective_uid uid = 0

/-- One connection attempt on which every system call succeeds, from a peer
with the given uid, accepted as descriptor 5 on listening socket 4. -/
def peer_conn (uid : Nat) : Conn :=
  { sock_id := 4, bind_ret := 0, listen_ret := 0, accept_fd := 5, getsockopt_ret := 0, uid := uid }

/-- The idle world with one peer of the given uid about to connect to each socket. -/
def world_with_peer (uid : Nat) : World :=
  { World.idle with conns := fun _ => [peer_conn uid] }

/-- The value `c_uid` that `establish_remote_socket` compares with the three
admitted uids (lines 189-191). -/
def c_uid_of (uid : Nat) : Int :=
  if to_int32 uid > BLUETOOTH_UID then extract_uid (to_int32 uid) else to_int32 uid

/-- The endpoint thread serving a rendezvous name: `bt_thread` for "bt_sock",
`ant_thread` for "ant_sock". -/
def endpoint_thread : SockName → Nat → World → Outcome × World
  | SockName.BT_SOCK => bt_thread
  | SockName.ANT_SOCK => ant_thread

/-- The idle world in which a peer with uid 10020 and then a peer with uid 1002
are about to connect to each socket. -/
def world_two_peers : World :=
  { World.idle with conns := fun _ => [peer_conn 10020, peer_conn 1002] }

/-- The idle world with a BT client connected as descriptor 5 (the transport is
descriptor 3) whose socket delivers the given arrivals. -/
def world_bt_client (stream : List ReadEv) : World :=
  { World.idle with
    remote_bt_fd := 5,
    rd := fun x => if x = 5 then { queued := [], future := stream }
      else { queued := [], future := [] } }

/-- The largest ACL payload: 65535 bytes, all aa. -/
def acl_max_payload : List Byte := List.replicate 65535 0xaa

/-- The idle world with a BT client connected as descriptor 5 while the
transport (descriptor 3) delivers the given arrivals. -/
def world_transport (stream : List ReadEv) : World :=
  { World.idle with
    remote_bt_fd := 5,
    rd := fun x => if x = 3 then { queued := [], future := stream }
      else { queued := [], future := [] } }

/-- The idle world with an ANT client connected as descriptor 6 whose socket
delivers the given arrivals (the transport is descriptor 3). -/
def world_ant_client (stream : List ReadEv) : World :=
  { World.idle with
    remote_ant_fd := 6,
    rd := fun x => if x = 6 then { queued := [], future := stream }
      else { queued := [], future := [] } }

/-- The idle world with an ANT client connected as descriptor 6 while the
transport (descriptor 3) delivers the given arrivals. -/
def world_transport_ant (stream : List ReadEv) : World :=
  { World.idle with
    remote_ant_fd := 6,
    rd := fun x => if x = 3 then { queued := [], future := stream }
      else { queued := [], future := [] } }

/-- The size of a frame after its type byte in the words of the specification
(section 3), given the bytes `bs` that follow the type byte: the header size of
the family while the header is incomplete, else header size plus the length the
header declares. Unknown type bytes have no frame. -/
def spec_frame_tail_size (pb : Byte) (bs : List Byte) : Nat :=
  if pb = BT_ACL_PACKET_TYPE then
    if bs.length < 4 then 4 else 4 + ((bs.getD 2 0).val + 256 * (bs.getD 3 0).val)
  else if pb = BT_SCO_PACKET_TYPE ∨ pb = BT_CMD_PACKET_TYPE then
    if bs.length < 3 then 3 else 3 + (bs.getD 2 0).val
  else if pb = BT_EVT_PACKET_TYPE then
    if bs.length < 2 then 2 else 2 + (bs.getD 1 0).val
  else if pb = ANT_CTL_PACKET_TYPE ∨ pb = ANT_DATA_PACKET_TYPE then
    if bs.length < 1 then 1 else 1 + (bs.getD 0 0).val
  else 0

/-- The idle world in which a peer with uid 1002 is about to connect to
bt_sock and, once accepted as descriptor 5, sends the given arrivals. -/
def world_bt_session (stream : List ReadEv) : World :=
  { World.idle with
    conns := fun _ => [peer_conn 1002],
    rd := fun x => if x = 5 then { queued := [], future := stream }
      else { queued := [], future := [] } }

/-- The idle world whose transport (descriptor 3) accepts two bytes in each of
its next three `write` calls. -/
def world_slow_transport : World :=
  { World.idle with
    wr := fun x => if x = 3 then [WriteEv.wrote 2, WriteEv.wrote 2, WriteEv.wrote 2] else [] }

/-! ## The transport reader -/

/-- What the system calls of `init_transport` answer, in program order: `open`,
then `tcflush`, `tcgetattr`, `tcsetattr`, `tcflush`, `tcsetattr`, `tcflush`
(the last `tcsetattr`, after the baud rate is set, is not checked). -/
structure TtyEnv where
  open_ret : Int
  tcflush1 : Int
  tcgetattr_ret : Int
  tcsetattr1 : Int
  tcflush2 : Int
  tcsetattr2 : Int
  tcflush3 : Int
deriving DecidableEq, Repr

/-- `init_transport`, lines 383-442. A successful `tcflush(fd, TCIOFLUSH)`
discards the queued input like `tcflush(fd, TCIFLUSH)` does; the line settings
themselves are not part of the state. -/
def init_transport (env : TtyEnv) (w : World) : Int × World :=
  let w0 : World := { w with fd_transport := env.open_ret }
  if w0.fd_transport = -1 then (-1, w0)
  else if env.tcflush1 < 0 then (-1, close w0 w0.fd_transport)
  else
    let w1 := tcflush w0 w0.fd_transport
    if env.tcgetattr_ret < 0 then (-1, close w1 w1.fd_transport)
    else if env.tcsetattr1 < 0 then (-1, close w1 w1.fd_transport)
    else if env.tcflush2 < 0 then (-1, close w1 w1.fd_transport)
    else
      let w2 := tcflush w1 w1.fd_transport
      if env.tcsetattr2 < 0 then (-1, close w2 w2.fd_transport)
      else if env.tcflush3 < 0 then (-1, close w2 w2.fd_transport)
      else
        let w3 := tcflush w2 w2.fd_transport
        (w3.fd_transport, w3)

/-- The `do ... while(1)` of `start_reader_thread`, lines 855-880, returning
`retval`; `none` when the rounds are used up. -/
def reader_loop : Nat → World → Option (Int × World)
  | 0, _ => none
  | fuel + 1, w =>
    match select w w.fd_transport with
    | (n, w1) =>
      if n < 0 then some (-1, w1)
      else if w1.fd_transport < 0 then some (-1, w1)
      else if n > 0 then
        match handle_soc_events w1 w1.fd_transport with
        | (retval, w2) => if retval < 0 then some (-1, w2) else reader_loop fuel w2
      else reader_loop fuel w1

/-- `start_reader_thread`, lines 839-886, with at most `fuel` rounds of its loop. -/
def start_reader_thread (env : TtyEnv) (fuel : Nat) (w : World) : Outcome × World :=
  match init_transport env w with
  | (fd, w0) =>
    let w1 : World := { w0 with fd_transport := fd }
    if w1.fd_transport = -1 then (Outcome.returned (-1), w1)
    else
      let w2 := property_set w1 PropKey.hci_filter_status "1"
      match reader_loop fuel w2 with
      | none => (Outcome.out_of_fuel, w2)
      | some (retval, w3) =>
        (Outcome.returned retval, { close w3 w3.fd_transport with fd_transport := 0 })

/-- The first part of `handle_cleanup`, lines 945-957: the reference count is
decremented when `clean_up` reads 0 and the count is positive. -/
def ref_count_update (w : World) : World :=
  let clean : Int := atoi (property_get w PropKey.clean_up "0")
  let ref_val : Int := atoi (property_get w PropKey.ref_count "0")
  if clean = 0 then
    if ref_val > 0 then property_set w PropKey.ref_count (snprintf_d 3 (ref_val - 1))
    else w
  else w

/-- The idle world with both peers connected (BT as descriptor 5, ANT as
descriptor 6) while the transport (descriptor 3) delivers the given arrivals. -/
def world_both_peers (stream : List ReadEv) : World :=
  { World.idle with
    remote_bt_fd := 5,
    remote_ant_fd := 6,
    rd := fun x => if x = 3 then { queued := [], future := stream }
      else { queued := [], future := [] } }
/-- The state `w` after input and output: the read and write sides of the
descriptors and `errno` replaced, the actions `evs` appended to the log. -/
def World.with_io (w : World) (rd1 : Int → RdState) (wr1 : Int → List WriteEv) (e : Int)
    (evs : List Event) : World :=
  { w with rd := rd1, wr := wr1, errno := e, log := w.log ++ evs }

/-- An action a framer may perform when its destination is `dest`: taking or
releasing the mutex, or a `write` on `dest`. -/
def Event.on_dest (dest : Int) : Event → Bool
  | Event.lock => true
  | Event.unlock => true
  | Event.write fd _ _ => decide (fd = dest)
  | _ => false

/-- From `w` to `w1` only descriptors were read and written, and every action
logged is a mutex operation or a `write` on `dest`. -/
def io_step (dest : Int) (w w1 : World) : Prop :=
  ∃ rd1 wr1 e evs, w1 = w.with_io rd1 wr1 e evs ∧ ∀ ev ∈ evs, ev.on_dest dest = true

/-- An `io_step` that read nothing. -/
def wr_step (dest : Int) (w w1 : World) : Prop :=
  ∃ wr1 e evs, w1 = w.with_io w.rd wr1 e evs ∧ ∀ ev ∈ evs, ev.on_dest dest = true

/-- The idle world with both clients connected (BT as descriptor 5, ANT as
descriptor 6), each sending the given arrivals, and a transport (descriptor 3)
whose next `write` calls answer as scripted. -/
def world_clients (bt_stream ant_stream : List ReadEv) (transport_writes : List WriteEv) :
    World :=
  { World.idle with
    remote_bt_fd := 5,
    remote_ant_fd := 6,
    rd := fun x => if x = 5 then { queued := [], future := bt_stream }
      else if x = 6 then { queued := [], future := ant_stream }
      else { queued := [], future := [] },
    wr := fun x => if x = 3 then transport_writes else [] }

/-- A complete downlink frame after its type byte `pb`: an EVT frame (2-byte
header, length byte at offset 1), an ACL frame (4-byte header, 16-bit length at
offset 2) or an ANT frame (one length byte), with a payload of the declared
length. -/
def downlink_frame (pb : Byte) (hdr payload : List Byte) : Prop :=
  (pb = BT_EVT_PACKET_TYPE ∧ hdr.length = BT_EVT_HDR_SIZE
      ∧ (hdr.getD BT_EVT_HDR_LEN_OFFSET 0).val = payload.length)
  ∨ (pb = BT_ACL_PACKET_TYPE ∧ hdr.length = BT_ACL_HDR_SIZE ∧ acl_length hdr = payload.length)
  ∨ ((pb = ANT_CTL_PACKET_TYPE ∨ pb = ANT_DATA_PACKET_TYPE) ∧ hdr.length = 1
      ∧ (hdr.getD 0 0).val = payload.length)

/-- The peer handle an endpoint thread publishes: `remote_bt_fd` for "bt_sock",
`remote_ant_fd` for "ant_sock". -/
def peer_handle (name : SockName) (w : World) : Int :=
  match name with
  | SockName.BT_SOCK => w.remote_bt_fd
  | SockName.ANT_SOCK => w.remote_ant_fd

/-- The idle world in which a peer with uid 10020 is about to connect to each
socket and, as descriptor 5, has the command 01 03 0c 00 ready to be read. -/
def world_rejected_peer : World :=
  { World.idle with
    conns := fun _ => [peer_conn 10020],
    rd := fun x => if x = 5 then { queued := [], future := [ReadEv.data [0x01, 0x03, 0x0c, 0x00]] }
      else { queued := [], future := [] } }

/-- The values written to the property `key` over a log, in order. -/
def property_writes (key : PropKey) : List Event → List String
  | [] => []
  | Event.property_set k v :: es =>
      if k = key then v :: property_writes key es else property_writes key es
  | _ :: es => property_writes key es

/-- The `exit` calls of a log: their status codes. -/
def exit_calls : List Event → List Int
  | [] => []
  | Event.exit code :: es => code :: exit_calls es
  | _ :: es => exit_calls es

/-- The idle world with the given values of the properties `ref_count`,
`clean_up` and `hci_filter_status`, and the given peer handles. -/
def world_props (ref_count clean_up status : String) (bt ant : Int) : World :=
  { World.idle with
    remote_bt_fd := bt,
    remote_ant_fd := ant,
    props := fun k =>
      match k with
      | PropKey.ref_count => ref_count
      | PropKey.clean_up => clean_up
      | PropKey.hci_filter_status => status
      | PropKey.start_hci => "" }

/-- Publishing the value `fd` as the peer handle of an endpoint thread. -/
def set_peer_handle (name : SockName) (w : World) (fd : Int) : World :=
  match name with
  | SockName.BT_SOCK => { w with remote_bt_fd := fd }
  | SockName.ANT_SOCK => { w with remote_ant_fd := fd }

/-- The state in which an endpoint thread calls `handle_cleanup` once its
handler loop was left in state `w2` (lines 328-331 and 373-376): the peer is
closed, then the peer handle is set to 0. -/
def after_session (name : SockName) (w2 : World) : World :=
  set_peer_handle name (close w2 (peer_handle name w2)) 0

/-- The idle world, with hci_filter_status as given, in which two peers with
uid 1002 are about to connect to bt_sock, one after the other, and the first
one, accepted as descriptor 5, closes its end without sending anything. -/
def world_two_sessions (status : String) : World :=
  { World.idle with
    conns := fun _ => [peer_conn 1002, peer_conn 1002],
    props := fun k => if k = PropKey.hci_filter_status then status else "" }

/-- The state of `world_two_sessions ""` once the first peer was accepted on
bt_sock: the listening socket 4 is closed, one connection attempt is left. -/
def session_accepted : World :=
  close { world_two_sessions "" with
    conns := fun x => if x = SockName.BT_SOCK then [peer_conn 1002]
      else (world_two_sessions "").conns x } 4

/-- The state in which the handler loop of that session is entered. -/
def session_serving : World := set_peer_handle SockName.BT_SOCK session_accepted 5

/-- The state in which the handler loop of that session is left. -/
def session_left : World := (handle_command_writes session_serving 5).2

/-- A `write` call on `dest`. -/
def Event.is_write_on (dest : Int) : Event → Bool
  | Event.write fd _ _ => decide (fd = dest)
  | _ => false

/-- From `w` to `w1` the log grew by nothing, or by exactly one critical
section of `signal_mutex`: `pthread_mutex_lock`, then only `write` calls on
`dest`, then `pthread_mutex_unlock`. -/
def one_section (dest : Int) (w w1 : World) : Prop :=
  w1.log = w.log
  ∨ ∃ ws, w1.log = w.log ++ Event.lock :: (ws ++ [Event.unlock])
      ∧ ∀ e ∈ ws, e.is_write_on dest = true

/-! ## Theorems: system calls, `do_read` -/

@[simp] theorem after_read_log (w : World) (fd : Int) (s : RdState) (e : Int) :
    (w.after_read fd s e).log = w.log := rfl
@[simp] theorem after_read_rd_same (w : World) (fd : Int) (s : RdState) (e : Int) :
    (w.after_read fd s e).rd fd = s := by simp [World.after_read, World.set_rd]
@[simp] theorem after_read_errno (w : World) (fd : Int) (s : RdState) (e : Int) :
    (w.after_read fd s e).errno = e := rfl
@[simp] theorem after_read_wr (w : World) (fd : Int) (s : RdState) (e : Int) :
    (w.after_read fd s e).wr = w.wr := rfl
@[simp] theorem after_read_oom (w : World) (fd : Int) (s : RdState) (e : Int) :
    (w.after_read fd s e).oom = w.oom := rfl
@[simp] theorem after_read_junk (w : World) (fd : Int) (s : RdState) (e : Int) :
    (w.after_read fd s e).junk = w.junk := rfl
@[simp] theorem after_read_bt (w : World) (fd : Int) (s : RdState) (e : Int) :
    (w.after_read fd s e).remote_bt_fd = w.remote_bt_fd := rfl
@[simp] theorem after_read_ant (w : World) (fd : Int) (s : RdState) (e : Int) :
    (w.after_read fd s e).remote_ant_fd = w.remote_ant_fd := rfl
@[simp] theorem after_read_transport (w : World) (fd : Int) (s : RdState) (e : Int) :
    (w.after_read fd s e).fd_transport = w.fd_transport := rfl

@[simp] theorem after_read_after_read (w : World) (fd : Int) (s s1 : RdState) (e e1 : Int) :
    (w.after_read fd s e).after_read fd s1 e1 = w.after_read fd s1 e1 := by
  simp only [World.after_read, World.set_rd]
  congr 1
  funext x
  by_cases hx : x = fd <;> simp [hx]

theorem after_read_self (w : World) (fd : Int) :
    w.after_read fd (w.rd fd) w.errno = w := by
  cases w
  simp only [World.after_read, World.set_rd]
  congr 1
  funext x
  by_cases hx : x = fd <;> simp [hx]

theorem read_data (w : World) (fd : Int) (n : Nat) (hn : 1 ≤ n)
    (h : avail (w.rd fd) ≠ []) :
    ∃ k s1, read w fd n = (((k : Nat) : Int), (avail (w.rd fd)).take k, w.after_read fd s1 w.errno)
      ∧ 1 ≤ k ∧ k ≤ n ∧ k ≤ (avail (w.rd fd)).length
      ∧ avail s1 = (avail (w.rd fd)).drop k ∧ endsInError s1 = endsInError (w.rd fd) := by
  unfold read
  rcases hq : (w.rd fd).queued with _ | ⟨b, q⟩
  · rcases hf : (w.rd fd).future with _ | ⟨ev, rest⟩
    · exfalso; apply h; simp [avail, hq, hf, availF]
    · cases ev with
      | fail e => exfalso; apply h; simp [avail, hq, hf, availF]
      | data bs =>
        cases bs with
        | nil => exfalso; apply h; simp [avail, hq, hf, availF]
        | cons c cs =>
          refine ⟨((c :: cs).take n).length, { queued := (c :: cs).drop n, future := rest }, ?_, ?_, ?_, ?_, ?_, ?_⟩
          · simp only [avail, hq, hf, availF, List.nil_append]
            have : List.take (List.take n (c :: cs)).length (c :: cs ++ availF rest) = List.take n (c :: cs) := by
              rw [List.take_append_of_le_length (by simp)]
              simp [List.take_take]
            rw [this]; rfl
          · simp; omega
          · simp
          · simp [avail, hq, hf, availF]
          · simp only [avail, hq, hf, availF, List.nil_append]
            rw [List.drop_append_of_le_length (by simp)]
            congr 1
            simp only [List.length_take]
            by_cases hc : n ≤ (c :: cs).length
            · rw [Nat.min_eq_left hc]
            · rw [Nat.min_eq_right (by omega)]
              simp [List.drop_of_length_le (Nat.le_of_lt (Nat.lt_of_not_le hc))]
          · simp [endsInError, hf, endsInErrorF]
  · refine ⟨((b :: q).take n).length, { queued := (b :: q).drop n, future := (w.rd fd).future }, ?_, ?_, ?_, ?_, ?_, ?_⟩
    · simp only [avail, hq]
      have : List.take (List.take n (b :: q)).length (b :: q ++ availF (w.rd fd).future) = List.take n (b :: q) := by
        rw [List.take_append_of_le_length (by simp)]
        simp [List.take_take]
      rw [this]; rfl
    · simp; omega
    · simp
    · simp [avail, hq]
    · simp only [avail, hq]
      rw [List.drop_append_of_le_length (by simp)]
      congr 1
      simp only [List.length_take]
      by_cases hc : n ≤ (b :: q).length
      · rw [Nat.min_eq_left hc]
      · rw [Nat.min_eq_right (by omega)]
        simp [List.drop_of_length_le (Nat.le_of_lt (Nat.lt_of_not_le hc))]
    · simp [endsInError]

theorem read_eof (w : World) (fd : Int) (n : Nat)
    (h : avail (w.rd fd) = []) (he : endsInError (w.rd fd) = false) :
    ∃ s1, read w fd n = (0, [], w.after_read fd s1 w.errno) := by
  unfold read
  simp only [avail, List.append_eq_nil] at h
  obtain ⟨hq, hf⟩ := h
  rw [hq]
  rcases hfu : (w.rd fd).future with _ | ⟨ev, rest⟩
  · exact ⟨w.rd fd, by simp [after_read_self]⟩
  · cases ev with
    | fail e => simp [endsInError, hfu, endsInErrorF] at he
    | data bs =>
      cases bs with
      | nil => exact ⟨{ queued := [], future := rest }, by simp; rfl⟩
      | cons c cs => simp [hfu, availF] at hf

theorem read_err (w : World) (fd : Int) (n : Nat)
    (h : avail (w.rd fd) = []) (he : endsInError (w.rd fd) = true) :
    ∃ s1 e, read w fd n = (-1, [], w.after_read fd s1 e) := by
  unfold read
  simp only [avail, List.append_eq_nil] at h
  obtain ⟨hq, hf⟩ := h
  rw [hq]
  rcases hfu : (w.rd fd).future with _ | ⟨ev, rest⟩
  · simp [endsInError, hfu, endsInErrorF] at he
  · cases ev with
    | fail e => exact ⟨{ queued := [], future := rest }, e, rfl⟩
    | data bs =>
      cases bs with
      | nil => simp [endsInError, hfu, endsInErrorF] at he
      | cons c cs => simp [hfu, availF] at hf

theorem blit_nil (buf : List Byte) (off : Nat) : blit buf off [] = buf := by
  simp [blit]

theorem blit_length (buf : List Byte) (off : Nat) (src : List Byte)
    (h : off + src.length ≤ buf.length) : (blit buf off src).length = buf.length := by
  simp [blit]; omega

theorem blit_aux (p r b : List Byte) (n : Nat) (hn : n = p.length) :
    List.take n (p ++ r) ++ b ++ List.drop (n + b.length) (p ++ r)
      = p ++ b ++ List.drop b.length r := by
  subst hn
  simp [List.drop_append]

theorem blit_blit (buf : List Byte) (off : Nat) (a b : List Byte)
    (h : off + a.length ≤ buf.length) :
    blit (blit buf off a) (off + a.length) b = blit buf off (a ++ b) := by
  unfold blit
  have h1 : off + a.length = (List.take off buf ++ a).length := by simp; omega
  rw [blit_aux _ _ _ _ h1, List.drop_drop]
  have h2 : off + a.length + b.length = off + (a ++ b).length := by
    rw [List.length_append]; omega
  rw [h2]
  simp only [List.append_assoc]

theorem do_read_loop_spec (fd : Int) (base len : Nat) :
    ∀ (fuel : Nat) (w : World) (buf : List Byte) (bytes_left off : Nat),
      1 ≤ bytes_left → bytes_left ≤ fuel → off + bytes_left = len → base + len ≤ buf.length →
      ∃ s1 e, do_read_loop fd base len fuel w buf bytes_left off
          = (if bytes_left ≤ (avail (w.rd fd)).length then ((len : Nat) : Int)
             else if endsInError (w.rd fd) = true then -1
             else ((off + (avail (w.rd fd)).length : Nat) : Int),
             blit buf (base + off) ((avail (w.rd fd)).take bytes_left),
             w.after_read fd s1 e)
        ∧ (bytes_left ≤ (avail (w.rd fd)).length →
            avail s1 = (avail (w.rd fd)).drop bytes_left ∧ e = w.errno
              ∧ endsInError s1 = endsInError (w.rd fd))
        ∧ (endsInError (w.rd fd) = false → e = w.errno) := by
  intro fuel
  induction fuel with
  | zero => intro w buf bytes_left off h1 h2; omega
  | succ fuel ih =>
    intro w buf bytes_left off h1 h2 h3 h4
    unfold do_read_loop
    by_cases hbs : avail (w.rd fd) = []
    · cases he : endsInError (w.rd fd) with
      | true =>
        obtain ⟨s1, e, hr⟩ := read_err w fd bytes_left hbs he
        refine ⟨s1, e, ?_, ?_, ?_⟩
        · rw [hr, hbs]
          have : ¬ bytes_left ≤ 0 := by omega
          simp [blit_nil, this]
        · intro hle; rw [hbs] at hle; simp at hle; omega
        · intro hc; cases hc
      | false =>
        obtain ⟨s1, hr⟩ := read_eof w fd bytes_left hbs he
        refine ⟨s1, w.errno, ?_, ?_, ?_⟩
        · rw [hr, hbs]
          have : ¬ bytes_left ≤ 0 := by omega
          simp [blit_nil, this]
          omega
        · intro hle; rw [hbs] at hle; simp at hle; omega
        · intro _; rfl
    · obtain ⟨k, s1, hr, hk1, hk2, hk3, hav, hee⟩ := read_data w fd bytes_left h1 hbs
      rw [hr]
      have hneg : ¬ ((k : Int) < 0) := by omega
      have hz : ¬ ((k : Int) = 0) := by omega
      simp only [hneg, hz, if_false, Int.toNat_ofNat]
      by_cases hlt : k < bytes_left
      · have hlt2 : (k : Int) < (bytes_left : Int) := by omega
        simp only [hlt2, if_true]
        obtain ⟨s2, e2, hrec, hfull, hnoerr⟩ :=
          ih (w.after_read fd s1 w.errno) (blit buf (base + off) ((avail (w.rd fd)).take k))
            (bytes_left - k) (off + k) (by omega) (by omega) (by omega)
            (by rw [blit_length]; exact h4; simp; omega)
        refine ⟨s2, e2, ?_, ?_, ?_⟩
        · rw [hrec]
          simp only [after_read_rd_same, hav, hee, after_read_after_read, List.length_drop]
          have hb : blit (blit buf (base + off) (List.take k (avail (w.rd fd)))) (base + (off + k))
              (List.take (bytes_left - k) (List.drop k (avail (w.rd fd))))
              = blit buf (base + off) (List.take bytes_left (avail (w.rd fd))) := by
            have hl : (List.take k (avail (w.rd fd))).length = k := by simp; omega
            have := blit_blit buf (base + off) (List.take k (avail (w.rd fd)))
              (List.take (bytes_left - k) (List.drop k (avail (w.rd fd)))) (by rw [hl]; omega)
            rw [hl] at this
            rw [show base + (off + k) = base + off + k by omega, this]
            congr 1
            have h5 : bytes_left = k + (bytes_left - k) := by omega
            conv_rhs => rw [h5, List.take_add]
          rw [hb]
          congr 1
          by_cases hc : bytes_left ≤ (avail (w.rd fd)).length
          · have : bytes_left - k ≤ (avail (w.rd fd)).length - k := by omega
            simp [hc, this]
          · have : ¬ bytes_left - k ≤ (avail (w.rd fd)).length - k := by omega
            simp only [hc, this, if_false]
            split
            · rfl
            · congr 1; omega
        · intro hle
          simp only [after_read_rd_same, hav, hee, after_read_errno, List.length_drop] at hfull
          obtain ⟨ha, hb, hc⟩ := hfull (by omega)
          refine ⟨?_, hb, hc⟩
          rw [ha, List.drop_drop]
          congr 1; omega
        · intro hf
          simp only [after_read_rd_same, hee, after_read_errno] at hnoerr
          exact hnoerr hf
      · have hlt2 : ¬ (k : Int) < (bytes_left : Int) := by omega
        have hkb : k = bytes_left := by omega
        simp only [hlt2, if_false]
        refine ⟨s1, w.errno, ?_, ?_, ?_⟩
        · subst hkb
          simp [hk3]
        · intro _
          subst hkb
          exact ⟨hav, rfl, hee⟩
        · intro _; rfl

/-! ## Theorems: `do_read`, `do_write` and the BT framer on complete frames -/

theorem do_read_full (w : World) (fd : Int) (buf : List Byte) (base len : Nat)
    (hlen : len ≤ (avail (w.rd fd)).length) (hbuf : base + len ≤ buf.length) :
    ∃ s1, do_read w fd buf base len
        = (((len : Nat) : Int), blit buf base ((avail (w.rd fd)).take len),
            w.after_read fd s1 w.errno)
      ∧ avail s1 = (avail (w.rd fd)).drop len
      ∧ endsInError s1 = endsInError (w.rd fd) := by
  unfold do_read
  by_cases h0 : len = 0
  · subst h0
    exact ⟨w.rd fd, by simp [blit_nil, after_read_self], by simp, rfl⟩
  · obtain ⟨s1, e, hr, hfull, _⟩ :=
      do_read_loop_spec fd base len len w buf len 0 (by omega) (by omega) (by omega) hbuf
    obtain ⟨ha, he, hee⟩ := hfull hlen
    subst he
    refine ⟨s1, ?_, ha, hee⟩
    simp only [h0, if_false, hr, hlen, if_true, Nat.add_zero]

theorem do_read_short (w : World) (fd : Int) (buf : List Byte) (base len : Nat)
    (hlen : (avail (w.rd fd)).length < len) (hbuf : base + len ≤ buf.length)
    (hend : endsInError (w.rd fd) = false) :
    ∃ s1, do_read w fd buf base len
        = ((((avail (w.rd fd)).length : Nat) : Int), blit buf base (avail (w.rd fd)),
            w.after_read fd s1 w.errno) := by
  unfold do_read
  have h0 : len ≠ 0 := by omega
  obtain ⟨s1, e, hr, _, hne⟩ :=
    do_read_loop_spec fd base len len w buf len 0 (by omega) (by omega) (by omega) hbuf
  have he := hne hend
  subst he
  refine ⟨s1, ?_⟩
  have h1 : ¬ len ≤ (avail (w.rd fd)).length := by omega
  simp only [h0, if_false, hr, h1, hend, Nat.add_zero, Nat.zero_add]
  rw [List.take_of_length_le (by omega)]
  simp

theorem do_read_error (w : World) (fd : Int) (buf : List Byte) (base len : Nat)
    (hlen : (avail (w.rd fd)).length < len) (hbuf : base + len ≤ buf.length)
    (hend : endsInError (w.rd fd) = true) :
    ∃ s1 e, do_read w fd buf base len
        = (-1, blit buf base (avail (w.rd fd)), w.after_read fd s1 e) := by
  unfold do_read
  have h0 : len ≠ 0 := by omega
  obtain ⟨s1, e, hr, _, _⟩ :=
    do_read_loop_spec fd base len len w buf len 0 (by omega) (by omega) (by omega) hbuf
  refine ⟨s1, e, ?_⟩
  have h1 : ¬ len ≤ (avail (w.rd fd)).length := by omega
  simp only [h0, if_false, hr, h1, hend, if_true, Nat.add_zero]
  rw [List.take_of_length_le (by omega)]

theorem set_wr_self (w : World) (fd : Int) : w.set_wr fd (w.wr fd) = w := by
  cases w
  simp only [World.set_wr]
  congr 1
  funext x
  by_cases hx : x = fd <;> simp [hx]

theorem do_write_complete (w : World) (fd : Int) (buf : List Byte) (len : Nat)
    (hbuf : len ≤ buf.length) (hw : write_completes w fd len = true) :
    ∃ s1, do_write w fd buf len
        = (((len : Nat) : Int),
            (w.set_wr fd s1).emit (Event.write fd (buf.take len) ((len : Nat) : Int))) := by
  unfold do_write do_write_loop write
  unfold write_completes at hw
  have hl : (List.take len buf).length = len := by simp; omega
  rcases hwr : w.wr fd with _ | ⟨ev, rest⟩
  · refine ⟨w.wr fd, ?_⟩
    rw [set_wr_self]
    simp only [List.drop_zero, hl]
    by_cases h0 : len = 0
    · subst h0; simp
    · have h1 : ¬ ((len : Int) < 0) := by omega
      have h2 : ¬ ((len : Int) = 0) := by omega
      simp [h1, h2]
  · rw [hwr] at hw
    cases ev with
    | fail e => simp at hw
    | wrote k =>
      simp at hw
      subst hw
      refine ⟨rest, ?_⟩
      simp only [List.drop_zero]
      by_cases h0 : k = 0
      · subst h0; simp
      · have h1 : ¬ ((k : Int) < 0) := by omega
        have h2 : ¬ ((k : Int) = 0) := by omega
        simp [h1, h2]

@[simp] theorem uninit_length (w : World) (n : Nat) : (uninit w n).length = n := by
  simp [uninit]

@[simp] theorem after_read_uninit (w : World) (fd : Int) (s : RdState) (e : Int) (n : Nat) :
    uninit (w.after_read fd s e) n = uninit w n := rfl

@[simp] theorem emit_log (w : World) (e : Event) : (w.emit e).log = w.log ++ [e] := rfl
@[simp] theorem emit_rd (w : World) (e : Event) : (w.emit e).rd = w.rd := rfl
@[simp] theorem emit_wr (w : World) (e : Event) : (w.emit e).wr = w.wr := rfl
@[simp] theorem emit_errno (w : World) (e : Event) : (w.emit e).errno = w.errno := rfl
@[simp] theorem emit_bt (w : World) (e : Event) : (w.emit e).remote_bt_fd = w.remote_bt_fd := rfl
@[simp] theorem emit_ant (w : World) (e : Event) : (w.emit e).remote_ant_fd = w.remote_ant_fd := rfl
@[simp] theorem set_wr_log (w : World) (fd : Int) (s : List WriteEv) :
    (w.set_wr fd s).log = w.log := rfl
@[simp] theorem set_wr_rd (w : World) (fd : Int) (s : List WriteEv) :
    (w.set_wr fd s).rd = w.rd := rfl
@[simp] theorem set_wr_errno (w : World) (fd : Int) (s : List WriteEv) :
    (w.set_wr fd s).errno = w.errno := rfl
@[simp] theorem set_wr_bt (w : World) (fd : Int) (s : List WriteEv) :
    (w.set_wr fd s).remote_bt_fd = w.remote_bt_fd := rfl
@[simp] theorem set_wr_ant (w : World) (fd : Int) (s : List WriteEv) :
    (w.set_wr fd s).remote_ant_fd = w.remote_ant_fd := rfl

theorem write_completes_congr (w w1 : World) (fd : Int) (n : Nat) (h : w1.wr = w.wr) :
    write_completes w1 fd n = write_completes w fd n := by
  unfold write_completes; rw [h]

theorem blit_zero_take (buf src : List Byte) : (blit buf 0 src).take src.length = src := by
  simp [blit]

/-- The buffer a BT frame is assembled in: type byte, header, payload. -/
theorem frame_buffer (pb : Byte) (hdr payload : List Byte) :
    blit (blit ((List.replicate (payload.length + hdr.length + 1) (0 : Byte)).set 0 pb) 1 hdr)
        (hdr.length + 1) payload
      = pb :: (hdr ++ payload) := by
  have hX : (List.replicate (payload.length + hdr.length + 1) (0 : Byte)).set 0 pb
      = pb :: List.replicate (payload.length + hdr.length) 0 := by
    simp [List.replicate_succ]
  rw [hX, show hdr.length + 1 = 1 + hdr.length by omega, blit_blit _ _ _ _ (by simp only [List.length_cons, List.length_replicate]; omega)]
  simp [blit]
  omega

theorem bt_case_complete (w : World) (src_fd dest_fd : Int) (pb : Byte) (hs : Nat)
    (length_of : List Byte → Nat) (hdr payload more : List Byte)
    (hhs : hs ≤ MAX_BT_HDR_SIZE) (hh : hdr.length = hs)
    (hav : avail (w.rd src_fd) = hdr ++ payload ++ more)
    (hL : length_of (blit (uninit w MAX_BT_HDR_SIZE) 0 hdr) = payload.length)
    (hoom : w.oom = false) (hbt : w.remote_bt_fd ≠ 0)
    (hw : write_completes w dest_fd ((payload.length + hs + 1) % 2 ^ 16) = true) :
    ∃ w1, bt_case w src_fd dest_fd pb false hs length_of
        = ((((payload.length + hs + 1) % 2 ^ 16 : Nat) : Int), w1)
      ∧ w1.log = w.log ++ [Event.lock,
          Event.write dest_fd ((pb :: (hdr ++ payload)).take ((payload.length + hs + 1) % 2 ^ 16))
            (((payload.length + hs + 1) % 2 ^ 16 : Nat) : Int),
          Event.unlock]
      ∧ avail (w1.rd src_fd) = more := by
  unfold bt_case
  obtain ⟨s1, hr1, ha1, _⟩ := do_read_full w src_fd (uninit w MAX_BT_HDR_SIZE) 0 hs
    (by rw [hav]; simp; omega) (by simp; omega)
  have htk : (avail (w.rd src_fd)).take hs = hdr := by
    rw [hav, List.append_assoc]; exact List.take_left' hh
  have hdp : (avail (w.rd src_fd)).drop hs = payload ++ more := by
    rw [hav, List.append_assoc]; exact List.drop_left' hh
  rw [htk] at hr1
  rw [hdp] at ha1
  rw [hr1]
  have hn1 : ¬ (((hs : Nat) : Int) < 0) := by omega
  simp only [hn1, if_false, after_read_oom, hoom, Bool.false_eq_true, hL]
  have htake : (blit (uninit w MAX_BT_HDR_SIZE) 0 hdr).take hs = hdr := by
    rw [← hh]; exact blit_zero_take _ _
  rw [htake]
  obtain ⟨s2, hr2, ha2, _⟩ := do_read_full (w.after_read src_fd s1 w.errno) src_fd
    (blit ((List.replicate (payload.length + hs + 1) (0 : Byte)).set 0 pb) 1 hdr) (hs + 1)
    payload.length (by simp [ha1]) (by rw [blit_length] <;> simp <;> omega)
  simp only [after_read_rd_same, ha1, List.take_left', List.drop_left', after_read_errno,
    after_read_after_read] at hr2 ha2
  rw [hr2]
  have hn2 : ¬ (((payload.length : Nat) : Int) < 0) := by omega
  simp only [hn2, if_false]
  have hfb := frame_buffer pb hdr payload
  rw [hh] at hfb
  rw [hfb]
  unfold bt_deliver
  have hc : ¬ (false = true ∨ (w.after_read src_fd s2 w.errno).remote_bt_fd = 0) := by
    simp [hbt]
  rw [if_neg hc]
  obtain ⟨s3, hr3⟩ := do_write_complete ((w.after_read src_fd s2 w.errno).emit Event.lock) dest_fd
    (pb :: (hdr ++ payload)) ((payload.length + hs + 1) % 2 ^ 16)
    (by simp [hh]; exact Nat.le_trans (Nat.mod_le _ _) (by omega))
    ((write_completes_congr w _ dest_fd _ rfl).trans hw)
  rw [hr3]
  have hn3 : ¬ ((((payload.length + hs + 1) % 2 ^ 16 : Nat) : Int) < 0) := by omega
  simp only [hn3, if_false]
  exact ⟨_, rfl, by simp, by simp [ha2]⟩

/-! ## The loops of `do_read` and `do_write` never run out of rounds -/

/-- The fuel of `do_read_loop` is never used up: with at least `bytes_left`
rounds the result does not depend on the number of rounds. -/
theorem do_read_loop_fuel (fd : Int) (base len : Nat) :
    ∀ (fuel fuel1 : Nat) (w : World) (buf : List Byte) (bytes_left off : Nat),
      1 ≤ bytes_left → bytes_left ≤ fuel → bytes_left ≤ fuel1 →
      do_read_loop fd base len fuel w buf bytes_left off
        = do_read_loop fd base len fuel1 w buf bytes_left off := by
  intro fuel
  induction fuel with
  | zero => intro fuel1 w buf bytes_left off h1 h2; omega
  | succ fuel ih =>
    intro fuel1 w buf bytes_left off h1 h2 h3
    cases fuel1 with
    | zero => omega
    | succ fuel1 =>
      unfold do_read_loop
      rcases hr : read w fd bytes_left with ⟨r, got, w1⟩
      simp only []
      by_cases hneg : r < 0
      · simp [hneg]
      · by_cases hz : r = 0
        · simp [hz]
        · by_cases hlt : r < (bytes_left : Int)
          · simp only [hneg, hz, hlt, if_false, if_true]
            exact ih fuel1 w1 _ _ _ (by omega) (by omega) (by omega)
          · simp [hneg, hz, hlt]

/-- The fuel of `do_write_loop` is never used up: with more than `write_len`
rounds the result does not depend on the number of rounds. -/
theorem do_write_loop_fuel (fd : Int) (buf : List Byte) (len : Nat) :
    ∀ (fuel fuel1 : Nat) (w : World) (off write_len : Nat),
      write_len < fuel → write_len < fuel1 →
      do_write_loop fd buf len fuel w off write_len
        = do_write_loop fd buf len fuel1 w off write_len := by
  intro fuel
  induction fuel with
  | zero => intro fuel1 w off write_len h1; omega
  | succ fuel ih =>
    intro fuel1 w off write_len h1 h2
    cases fuel1 with
    | zero => omega
    | succ fuel1 =>
      unfold do_write_loop
      rcases hr : write w fd (List.take write_len (List.drop off buf)) with ⟨r, w1⟩
      simp only []
      by_cases hneg : r < 0
      · simp [hneg]
      · by_cases hz : r = 0
        · simp [hz]
        · by_cases hlt : r < (write_len : Int)
          · simp only [hneg, hz, hlt, if_false, if_true]
            exact ih fuel1 w1 _ _ (by omega) (by omega)
          · simp [hneg, hz, hlt]

/-! ## C1: the credential gate -/

theorem extract_uid_nat (u : Nat) :
    extract_uid (u : Int)
      = ((if u % 100000 > 1002 then (u % 100000) % 10000 else u % 100000 : Nat) : Int) := by
  unfold extract_uid AID_USER AID_APP BLUETOOTH_UID
  have h1 : Int.tmod (u : Int) 100000 = ((u % 100000 : Nat) : Int) := (Int.ofNat_tmod u 100000).symm
  simp only [h1]
  by_cases h : u % 100000 > 1002
  · have h2 : ((u % 100000 : Nat) : Int) > 1002 := by omega
    have h3 : Int.tmod ((u % 100000 : Nat) : Int) 10000 = ((u % 100000 % 10000 : Nat) : Int) :=
      (Int.ofNat_tmod (u % 100000) 10000).symm
    simp only [h2, if_true, h, h3]
  · have h2 : ¬ ((u % 100000 : Nat) : Int) > 1002 := by omega
    simp only [h2, if_false, h]

theorem to_int32_large (u : Nat) (h1 : 2 ^ 31 ≤ u) (h2 : u < 2 ^ 32) : to_int32 u < 0 := by
  unfold to_int32
  have h3 : u % 2 ^ 32 = u := Nat.mod_eq_of_lt h2
  rw [h3]
  have h4 : ¬ u < 2 ^ 31 := by omega
  simp only [h4, if_false]
  omega

theorem to_int32_small (u : Nat) (h : u < 2 ^ 31) : to_int32 u = (u : Int) := by
  unfold to_int32
  have h1 : u % 2 ^ 32 = u := Nat.mod_eq_of_lt (by omega)
  rw [h1, if_pos h]

/-- The whole result of `establish_remote_socket` when socket, bind, listen,
accept and getsockopt succeed. -/
theorem establish_remote_socket_eq (w : World) (name : SockName) (c : Conn)
    (rest : List Conn) (hc : w.conns name = c :: rest) (hsock : 0 ≤ c.sock_id)
    (hbind : 0 ≤ c.bind_ret) (hlisten : c.listen_ret = 0) (hacc : 0 < c.accept_fd)
    (hopt : 0 ≤ c.getsockopt_ret) :
    establish_remote_socket w name
      = some (if c_uid_of c.uid ≠ BLUETOOTH_UID ∧ c_uid_of c.uid ≠ SYSTEM_UID
            ∧ c_uid_of c.uid ≠ ROOT_UID
          then (-1, close (close { w with conns := fun x => if x = name then rest else w.conns x }
            c.sock_id) c.accept_fd)
          else (c.accept_fd,
            close { w with conns := fun x => if x = name then rest else w.conns x } c.sock_id)) := by
  have hs : ¬ c.sock_id < 0 := by omega
  have ho : ¬ c.getsockopt_ret < 0 := by omega
  unfold establish_remote_socket
  rw [hc]
  simp only [hs, if_false, ge_iff_le, hbind, if_true, hlisten, gt_iff_lt, hacc, ho]
  unfold c_uid_of
  split_ifs <;> rfl

/-- The comparison of lines 192-193 rejects exactly the uids that are 2^31 or
more, or that the specification's rule does not admit. -/
theorem c_uid_rejected_iff (uid : Nat) (huid : uid < 2 ^ 32) :
    (c_uid_of uid ≠ BLUETOOTH_UID ∧ c_uid_of uid ≠ SYSTEM_UID ∧ c_uid_of uid ≠ ROOT_UID)
      ↔ ¬ (uid < 2 ^ 31 ∧ spec_admits uid = true) := by
  unfold c_uid_of
  by_cases hsmall : uid < 2 ^ 31
  · rw [to_int32_small uid hsmall]
    unfold spec_admits spec_effective_uid BLUETOOTH_UID SYSTEM_UID ROOT_UID
    by_cases hu : uid ≤ 1002
    · have h1 : ¬ ((uid : Int) > 1002) := by omega
      simp only [h1, if_false, hu, if_true, hsmall, true_and, decide_eq_true_eq]
      omega
    · have h1 : (uid : Int) > 1002 := by omega
      simp only [h1, if_true, hu, if_false, extract_uid_nat, hsmall, true_and,
        decide_eq_true_eq]
      generalize (if uid % 100000 > 1002 then uid % 100000 % 10000 else uid % 100000) = e
      omega
  · have hneg := to_int32_large uid (by omega) huid
    have h1 : ¬ (to_int32 uid > BLUETOOTH_UID) := by unfold BLUETOOTH_UID; omega
    have h2 : to_int32 uid ≠ BLUETOOTH_UID ∧ to_int32 uid ≠ SYSTEM_UID
        ∧ to_int32 uid ≠ ROOT_UID := by
      unfold BLUETOOTH_UID SYSTEM_UID ROOT_UID; omega
    simp only [h1, if_false]
    exact ⟨fun _ h => hsmall h.1, fun _ => h2⟩

/-- C1, as amended: when socket, bind, listen, accept and getsockopt succeed,
then for every 32-bit peer uid establish_remote_socket returns the peer's
descriptor exactly when the uid is below 2^31 and the effective uid of the
specification is 1002, 1000 or 0; in every other case (a uid from 2^31 on is
negative once stored in the `int` c_uid) it returns -1. -/
theorem establish_remote_socket_admits_iff (w : World) (name : SockName) (c : Conn)
    (rest : List Conn) (hc : w.conns name = c :: rest) (hsock : 0 ≤ c.sock_id)
    (hbind : 0 ≤ c.bind_ret) (hlisten : c.listen_ret = 0) (hacc : 0 < c.accept_fd)
    (hopt : 0 ≤ c.getsockopt_ret) (huid : c.uid < 2 ^ 32) :
    (establish_remote_socket w name).map Prod.fst
        = some (if c.uid < 2 ^ 31 ∧ spec_admits c.uid = true then c.accept_fd else -1)
    ∧ ((establish_remote_socket w name).map Prod.fst = some c.accept_fd
        ↔ (c.uid < 2 ^ 31 ∧ spec_admits c.uid = true)) := by
  have heq := establish_remote_socket_eq w name c rest hc hsock hbind hlisten hacc hopt
  have hiff := c_uid_rejected_iff c.uid huid
  have key : (establish_remote_socket w name).map Prod.fst
      = some (if c.uid < 2 ^ 31 ∧ spec_admits c.uid = true then c.accept_fd else -1) := by
    rw [heq]
    by_cases hB : c.uid < 2 ^ 31 ∧ spec_admits c.uid = true
    · rw [if_neg (fun h => hiff.mp h hB), if_pos hB]; rfl
    · rw [if_pos (hiff.mpr hB), if_neg hB]; rfl
  refine ⟨key, ?_⟩
  rw [key]
  by_cases hB : c.uid < 2 ^ 31 ∧ spec_admits c.uid = true
  · simp only [hB, and_self, if_true]
  · rw [if_neg hB]
    simp only [Option.some.injEq, hB, iff_false]
    omega

/-- C1, witness: a peer with uid 11002 (effective uid 1002) is admitted as descriptor 5. -/
theorem establish_remote_socket_admits_iff_witness :
    (establish_remote_socket (world_with_peer 11002) SockName.BT_SOCK).map Prod.fst
        = some (if (peer_conn 11002).uid < 2 ^ 31 ∧ spec_admits (peer_conn 11002).uid = true
            then (peer_conn 11002).accept_fd else -1)
    ∧ ((establish_remote_socket (world_with_peer 11002) SockName.BT_SOCK).map Prod.fst
          = some (peer_conn 11002).accept_fd
        ↔ ((peer_conn 11002).uid < 2 ^ 31 ∧ spec_admits (peer_conn 11002).uid = true)) :=
  establish_remote_socket_admits_iff (world_with_peer 11002) SockName.BT_SOCK (peer_conn 11002) []
    rfl (by decide) (by decide) rfl (by decide) (by decide) (by decide)

/-- C1, counterexample: the uid 2147500000 is a 32-bit uid whose effective uid
by the specification's rule is 0 (admitted), yet establish_remote_socket rejects
the peer and returns -1 instead of the descriptor 5. -/
theorem establish_remote_socket_rejects_uid_2147500000 :
    (2147500000 : Nat) < 2 ^ 32
    ∧ spec_effective_uid 2147500000 = 0
    ∧ spec_admits 2147500000 = true
    ∧ (establish_remote_socket (world_with_peer 2147500000) SockName.BT_SOCK).map Prod.fst
        = some (-1)
    ∧ ¬ ((establish_remote_socket (world_with_peer 2147500000) SockName.BT_SOCK).map Prod.fst
          = some (peer_conn 2147500000).accept_fd
        ↔ spec_admits 2147500000 = true) := by
  decide

/-! ## C2: a rejected peer ends the endpoint thread -/

/-- C2, as amended: when a connecting peer is rejected by the credential check,
establish_remote_socket closes the listening socket and that peer and returns
-1, and the endpoint thread (bt_thread / ant_thread) then returns -1: its serve
loop ends, no further socket is established and no further peer is accepted. -/
theorem endpoint_thread_returns_on_rejected_peer (name : SockName) (fuel : Nat) (w : World)
    (c : Conn) (rest : List Conn) (hc : w.conns name = c :: rest) (hsock : 0 ≤ c.sock_id)
    (hbind : 0 ≤ c.bind_ret) (hlisten : c.listen_ret = 0) (hacc : 0 < c.accept_fd)
    (hopt : 0 ≤ c.getsockopt_ret) (huid : c.uid < 2 ^ 32)
    (hrej : ¬ (c.uid < 2 ^ 31 ∧ spec_admits c.uid = true)) :
    (endpoint_thread name (fuel + 1) w).1 = Outcome.returned (-1)
    ∧ (endpoint_thread name (fuel + 1) w).2.log
        = w.log ++ [Event.close c.sock_id, Event.close c.accept_fd]
    ∧ (endpoint_thread name (fuel + 1) w).2.conns name = rest := by
  have heq := establish_remote_socket_eq w name c rest hc hsock hbind hlisten hacc hopt
  rw [if_pos ((c_uid_rejected_iff c.uid huid).mpr hrej)] at heq
  cases name with
  | BT_SOCK =>
    simp only [endpoint_thread, bt_thread, heq]
    simp [close, World.emit]
  | ANT_SOCK =>
    simp only [endpoint_thread, ant_thread, heq]
    simp [close, World.emit]

/-- C2, witness: a peer with uid 10020 on bt_sock ends bt_thread. -/
theorem endpoint_thread_returns_on_rejected_peer_witness :
    (endpoint_thread SockName.BT_SOCK (7 + 1) world_two_peers).1 = Outcome.returned (-1)
    ∧ (endpoint_thread SockName.BT_SOCK (7 + 1) world_two_peers).2.log
        = world_two_peers.log
          ++ [Event.close (peer_conn 10020).sock_id, Event.close (peer_conn 10020).accept_fd]
    ∧ (endpoint_thread SockName.BT_SOCK (7 + 1) world_two_peers).2.conns SockName.BT_SOCK
        = [peer_conn 1002] :=
  endpoint_thread_returns_on_rejected_peer SockName.BT_SOCK 7 world_two_peers (peer_conn 10020)
    [peer_conn 1002] rfl (by decide) (by decide) rfl (by decide) (by decide) (by decide)
    (by decide)

/-- C2, counterexample: a peer with uid 10020 (rejected) and then a peer with
uid 1002 (admissible) connect to bt_sock. bt_thread, and likewise ant_thread,
returns -1 after closing the first peer; it does not go back to listening: the
second peer is never accepted (here with eight rounds of fuel; the general
statement holds for every positive number of rounds). -/
theorem bt_thread_stops_after_uid_10020 :
    (bt_thread 8 world_two_peers).1 = Outcome.returned (-1)
    ∧ (bt_thread 8 world_two_peers).2.log = [Event.close 4, Event.close 5]
    ∧ (bt_thread 8 world_two_peers).2.conns SockName.BT_SOCK = [peer_conn 1002]
    ∧ (ant_thread 8 world_two_peers).1 = Outcome.returned (-1)
    ∧ (ant_thread 8 world_two_peers).2.conns SockName.ANT_SOCK = [peer_conn 1002] := by
  refine ⟨?_, ?_, ?_, ?_, ?_⟩ <;> decide

/-! ## C3: uplink routing of BT type bytes -/

/-- C3, failing input: a connected BT client sends the well-formed SCO frame
03 2a 00 02 11 22 (type 0x03, 3-byte header, 2 payload bytes).
handle_command_writes has no `case BT_SCO_PACKET_TYPE`: it takes the default
branch, writes nothing to the transport and consumes the type byte only, while
copy_bt_data_to_channel, had it been called, forwards the six bytes. The same
frame with type byte 0x01 is forwarded. -/
theorem handle_command_writes_drops_sco_frame :
    (handle_command_writes (world_bt_client [ReadEv.data [0x03, 0x2a, 0x00, 0x02, 0x11, 0x22]]) 5).1
        = 0
    ∧ (handle_command_writes
          (world_bt_client [ReadEv.data [0x03, 0x2a, 0x00, 0x02, 0x11, 0x22]]) 5).2.log = []
    ∧ ((handle_command_writes
          (world_bt_client [ReadEv.data [0x03, 0x2a, 0x00, 0x02, 0x11, 0x22]]) 5).2.rd 5).queued
        = [0x2a, 0x00, 0x02, 0x11, 0x22]
    ∧ written 3 (copy_bt_data_to_channel
          (world_bt_client [ReadEv.data [0x2a, 0x00, 0x02, 0x11, 0x22]]) 5 3
            BT_SCO_PACKET_TYPE HOST_TO_SOC).2.log
        = [0x03, 0x2a, 0x00, 0x02, 0x11, 0x22]
    ∧ written 3 (handle_command_writes
          (world_bt_client [ReadEv.data [0x01, 0x2a, 0x00, 0x02, 0x11, 0x22]]) 5).2.log
        = [0x01, 0x2a, 0x00, 0x02, 0x11, 0x22] := by
  refine ⟨?_, ?_, ?_, ?_, ?_⟩ <;> decide

/-! ## C4: the ACL length field -/

theorem written_append (fd : Int) (l1 l2 : List Event) :
    written fd (l1 ++ l2) = written fd l1 ++ written fd l2 := by
  induction l1 with
  | nil => rfl
  | cons e es ih => simp [written, ih]

/-- An ACL frame that declares 65535 payload bytes: `acl_len` wraps to 4. -/
theorem acl_wrap (payload : List Byte) (hlen : payload.length = 65535) :
    (BT_ACL_PACKET_TYPE :: ([0x00, 0x00, 0xff, 0xff] ++ payload)).length = 65540
    ∧ (copy_bt_data_to_channel
          (world_bt_client [ReadEv.data ([0x00, 0x00, 0xff, 0xff] ++ payload)]) 5 3
          BT_ACL_PACKET_TYPE HOST_TO_SOC).1 = 4
    ∧ written 3 (copy_bt_data_to_channel
          (world_bt_client [ReadEv.data ([0x00, 0x00, 0xff, 0xff] ++ payload)]) 5 3
          BT_ACL_PACKET_TYPE HOST_TO_SOC).2.log = [0x02, 0x00, 0x00, 0xff]
    ∧ avail ((copy_bt_data_to_channel
          (world_bt_client [ReadEv.data ([0x00, 0x00, 0xff, 0xff] ++ payload)]) 5 3
          BT_ACL_PACKET_TYPE HOST_TO_SOC).2.rd 5) = [] := by
  obtain ⟨w1, hr, hlog, hav⟩ := bt_case_complete
    (world_bt_client [ReadEv.data ([0x00, 0x00, 0xff, 0xff] ++ payload)]) 5 3 BT_ACL_PACKET_TYPE
    BT_ACL_HDR_SIZE acl_length [0x00, 0x00, 0xff, 0xff] payload [] (by decide) rfl
    (by simp [world_bt_client, avail, availF])
    (by rw [hlen]; simp [acl_length, blit, BT_ACL_HDR_LEN_OFFSET]; decide) rfl
    (by simp [world_bt_client]) (by rw [hlen]; rfl)
  have hcopy : copy_bt_data_to_channel
      (world_bt_client [ReadEv.data ([0x00, 0x00, 0xff, 0xff] ++ payload)]) 5 3
      BT_ACL_PACKET_TYPE HOST_TO_SOC
      = bt_case (world_bt_client [ReadEv.data ([0x00, 0x00, 0xff, 0xff] ++ payload)]) 5 3
          BT_ACL_PACKET_TYPE false BT_ACL_HDR_SIZE acl_length := by
    simp [copy_bt_data_to_channel]
  rw [hcopy, hr]
  rw [hlen] at hlog
  refine ⟨by simp [hlen], by simp [BT_ACL_HDR_SIZE, hlen], ?_, hav⟩
  simp only [hlog]
  simp [world_bt_client, World.idle, BT_ACL_HDR_SIZE, written, Event.accepted, BT_ACL_PACKET_TYPE]

/-- C4, failing input: the ACL frame 02 00 00 ff ff followed by 65535 payload
bytes (declared length L = 65535, 65540 bytes in all) arrives from a connected
BT client. copy_bt_data_to_channel reads all of it, then stores L + 5 in the
`unsigned short` acl_len, which wraps to 4: it writes only the four bytes
02 00 00 ff to the transport and returns 4. -/
theorem copy_bt_data_to_channel_acl_length_wraps :
    (BT_ACL_PACKET_TYPE :: ([0x00, 0x00, 0xff, 0xff] ++ acl_max_payload)).length = 65540
    ∧ (copy_bt_data_to_channel
          (world_bt_client [ReadEv.data ([0x00, 0x00, 0xff, 0xff] ++ acl_max_payload)]) 5 3
          BT_ACL_PACKET_TYPE HOST_TO_SOC).1 = 4
    ∧ written 3 (copy_bt_data_to_channel
          (world_bt_client [ReadEv.data ([0x00, 0x00, 0xff, 0xff] ++ acl_max_payload)]) 5 3
          BT_ACL_PACKET_TYPE HOST_TO_SOC).2.log = [0x02, 0x00, 0x00, 0xff]
    ∧ avail ((copy_bt_data_to_channel
          (world_bt_client [ReadEv.data ([0x00, 0x00, 0xff, 0xff] ++ acl_max_payload)]) 5 3
          BT_ACL_PACKET_TYPE HOST_TO_SOC).2.rd 5) = [] :=
  acl_wrap acl_max_payload (List.length_replicate _ _)

/-! ## C5: framing of CMD and EVT frames -/

theorem blit_zero_getD (buf src : List Byte) (n : Nat) (h : n < src.length) :
    (blit buf 0 src).getD n 0 = src.getD n 0 := by
  simp only [blit, List.take_zero, List.nil_append, List.append_assoc]
  exact List.getD_append _ _ _ _ h

theorem written_log_frame (fd : Int) (log : List Event) (bs : List Byte) (n : Nat)
    (hn : n = bs.length) :
    written fd (log ++ [Event.lock, Event.write fd bs (n : Int), Event.unlock])
      = written fd log ++ bs := by
  subst hn
  rw [written_append]
  congr 1
  by_cases h0 : bs.length = 0
  · have : bs = [] := List.length_eq_zero.mp h0
    subst this
    simp [written, Event.accepted]
  · have : (0 : Int) < (bs.length : Int) := by omega
    simp [written, Event.accepted, this]

/-- C5: for a CMD frame (type 0x01, 3-byte header, length byte at offset 2) and
an EVT frame (type 0x04, 2-byte header, length byte at offset 1) with any
declared length L (a byte, 0..255): when the source supplies the header and the
L payload bytes (in whatever chunks), the destination descriptor is not 0, a BT
peer is recorded, allocation succeeds and the write completes,
copy_bt_data_to_channel issues one write of exactly type byte ++ header ++
payload (1 + header size + L bytes), so the destination receives these bytes
in order, returns that size, and has consumed exactly the frame. -/
theorem copy_bt_data_to_channel_one_byte_length (w : World) (src_fd dest_fd direction : Int)
    (pb : Byte) (hdr payload more : List Byte)
    (hfam : (pb = BT_CMD_PACKET_TYPE ∧ hdr.length = BT_CMD_HDR_SIZE
              ∧ (hdr.getD BT_CMD_HDR_LEN_OFFSET 0).val = payload.length)
          ∨ (pb = BT_EVT_PACKET_TYPE ∧ hdr.length = BT_EVT_HDR_SIZE
              ∧ (hdr.getD BT_EVT_HDR_LEN_OFFSET 0).val = payload.length))
    (hav : avail (w.rd src_fd) = hdr ++ payload ++ more)
    (hoom : w.oom = false) (hdest : dest_fd ≠ 0) (hbt : w.remote_bt_fd ≠ 0)
    (hw : write_completes w dest_fd (1 + hdr.length + payload.length) = true) :
    payload.length ≤ 255
    ∧ (copy_bt_data_to_channel w src_fd dest_fd pb direction).1
        = ((1 + hdr.length + payload.length : Nat) : Int)
    ∧ (copy_bt_data_to_channel w src_fd dest_fd pb direction).2.log
        = w.log ++ [Event.lock,
            Event.write dest_fd (pb :: (hdr ++ payload))
              ((1 + hdr.length + payload.length : Nat) : Int),
            Event.unlock]
    ∧ written dest_fd (copy_bt_data_to_channel w src_fd dest_fd pb direction).2.log
        = written dest_fd w.log ++ (pb :: (hdr ++ payload))
    ∧ avail ((copy_bt_data_to_channel w src_fd dest_fd pb direction).2.rd src_fd) = more := by
  have hnv : decide (dest_fd = 0) = false := by simp [hdest]
  have hL : payload.length ≤ 255 := by
    rcases hfam with ⟨_, _, h⟩ | ⟨_, _, h⟩ <;> rw [← h] <;> omega
  have hmod : (payload.length + hdr.length + 1) % 2 ^ 16 = 1 + hdr.length + payload.length := by
    have : hdr.length ≤ 3 := by
      rcases hfam with ⟨_, h, _⟩ | ⟨_, h, _⟩ <;> rw [h] <;> decide
    rw [Nat.mod_eq_of_lt (by omega)]; omega
  have hcase : ∃ length_of : List Byte → Nat,
      copy_bt_data_to_channel w src_fd dest_fd pb direction
        = bt_case w src_fd dest_fd pb false hdr.length length_of
      ∧ length_of (blit (uninit w MAX_BT_HDR_SIZE) 0 hdr) = payload.length
      ∧ hdr.length ≤ MAX_BT_HDR_SIZE := by
    rcases hfam with ⟨hp, hh, hlen⟩ | ⟨hp, hh, hlen⟩
    · refine ⟨fun hdr => (hdr.getD BT_SCO_HDR_LEN_OFFSET 0).val, ?_, ?_, ?_⟩
      · subst hp
        unfold copy_bt_data_to_channel
        rw [hnv, hh, if_neg (by decide), if_pos (by decide)]
        rfl
      · simp only []
        rw [blit_zero_getD _ _ _ (by rw [hh]; decide)]
        exact hlen
      · rw [hh]; decide
    · refine ⟨fun hdr => (hdr.getD BT_EVT_HDR_LEN_OFFSET 0).val, ?_, ?_, ?_⟩
      · subst hp
        unfold copy_bt_data_to_channel
        rw [hnv, hh, if_neg (by decide), if_neg (by decide), if_pos rfl]
      · simp only []
        rw [blit_zero_getD _ _ _ (by rw [hh]; decide)]
        exact hlen
      · rw [hh]; decide
  obtain ⟨length_of, hcopy, hlen, hsz⟩ := hcase
  obtain ⟨w1, hr, hlog, hrest⟩ := bt_case_complete w src_fd dest_fd pb hdr.length length_of
    hdr payload more hsz rfl hav hlen hoom hbt (by rw [hmod]; exact hw)
  rw [hmod] at hr hlog
  have htake : List.take (1 + hdr.length + payload.length) (pb :: (hdr ++ payload))
      = pb :: (hdr ++ payload) :=
    List.take_of_length_le (by simp; omega)
  rw [htake] at hlog
  rw [hcopy, hr]
  refine ⟨hL, rfl, hlog, ?_, hrest⟩
  simp only [hlog]
  exact written_log_frame dest_fd w.log _ _ (by simp; omega)

/-- C5, witness: the header-only command 01 03 0c 00 sent by the BT client
(descriptor 5) reaches the transport (descriptor 3) unchanged. -/
theorem copy_bt_data_to_channel_one_byte_length_witness :
    ([] : List Byte).length ≤ 255
    ∧ (copy_bt_data_to_channel (world_bt_client [ReadEv.data [0x03, 0x0c, 0x00]]) 5 3
          BT_CMD_PACKET_TYPE HOST_TO_SOC).1
        = ((1 + [(0x03 : Byte), 0x0c, 0x00].length + ([] : List Byte).length : Nat) : Int)
    ∧ (copy_bt_data_to_channel (world_bt_client [ReadEv.data [0x03, 0x0c, 0x00]]) 5 3
          BT_CMD_PACKET_TYPE HOST_TO_SOC).2.log
        = (world_bt_client [ReadEv.data [0x03, 0x0c, 0x00]]).log ++ [Event.lock,
            Event.write 3 (BT_CMD_PACKET_TYPE :: ([0x03, 0x0c, 0x00] ++ []))
              ((1 + [(0x03 : Byte), 0x0c, 0x00].length + ([] : List Byte).length : Nat) : Int),
            Event.unlock]
    ∧ written 3 (copy_bt_data_to_channel (world_bt_client [ReadEv.data [0x03, 0x0c, 0x00]]) 5 3
          BT_CMD_PACKET_TYPE HOST_TO_SOC).2.log
        = written 3 (world_bt_client [ReadEv.data [0x03, 0x0c, 0x00]]).log
          ++ (BT_CMD_PACKET_TYPE :: ([0x03, 0x0c, 0x00] ++ []))
    ∧ avail ((copy_bt_data_to_channel (world_bt_client [ReadEv.data [0x03, 0x0c, 0x00]]) 5 3
          BT_CMD_PACKET_TYPE HOST_TO_SOC).2.rd 5) = [] :=
  copy_bt_data_to_channel_one_byte_length (world_bt_client [ReadEv.data [0x03, 0x0c, 0x00]]) 5 3
    HOST_TO_SOC BT_CMD_PACKET_TYPE [0x03, 0x0c, 0x00] [] []
    (Or.inl ⟨rfl, rfl, by decide⟩) (by decide) rfl (by decide) (by decide) (by decide)

/-- Scenarios S1 and S3 through the dispatchers: the client's 01 03 0c 00
reaches the transport, the transport's 04 0e 04 01 03 0c 00 reaches the BT peer,
both unchanged. -/
theorem scenarios_S1_S3 :
    written 3 (handle_command_writes
        (world_bt_client [ReadEv.data [0x01, 0x03, 0x0c, 0x00]]) 5).2.log
      = [0x01, 0x03, 0x0c, 0x00]
    ∧ written 5 (handle_soc_events
        (world_transport [ReadEv.data [0x04, 0x0e, 0x04, 0x01, 0x03, 0x0c, 0x00]]) 3).2.log
      = [0x04, 0x0e, 0x04, 0x01, 0x03, 0x0c, 0x00] := by
  constructor <;> decide

/-! ## C6: ANT frames towards the ANT peer -/

/-- C6, failing input: the transport emits the ANT frame 0e 02 11 22 while the
ANT peer (descriptor 6) is present. copy_ant_data_to_channel stores the type
byte in ant_pl[0] but calls do_write(dest_fd, ant_pl+1, ret+1): the peer
receives 02 11 22, three bytes instead of the four of the frame, without the
type byte. The uplink direction forwards the same frame whole. -/
theorem copy_ant_data_to_channel_omits_type_byte :
    (handle_soc_events (world_transport_ant [ReadEv.data [0x0e, 0x02, 0x11, 0x22]]) 3).1 = 0
    ∧ written 6 (handle_soc_events
          (world_transport_ant [ReadEv.data [0x0e, 0x02, 0x11, 0x22]]) 3).2.log
        = [0x02, 0x11, 0x22]
    ∧ write_calls 6 (copy_ant_data_to_channel
          (world_transport_ant [ReadEv.data [0x02, 0x11, 0x22]]) 3 6 ANT_DATA_PACKET_TYPE).2.log
        = [[0x02, 0x11, 0x22]]
    ∧ written 3 (handle_command_writes
          (world_ant_client [ReadEv.data [0x0e, 0x02, 0x11, 0x22]]) 6).2.log
        = [0x0e, 0x02, 0x11, 0x22] := by
  refine ⟨?_, ?_, ?_, ?_⟩ <;> decide

/-! ## C7: ANT frames towards the transport -/

theorem uninit_two (w : World) : uninit w 2 = [w.junk 0, w.junk 1] := by
  simp [uninit, List.range_succ]

/-- The buffer an uplink ANT frame is assembled in: type byte, length byte, payload. -/
theorem ant_frame_buffer (u payload : List Byte) (a b : Byte)
    (hu : u.length = payload.length + 2) :
    blit (blit u 2 payload) 0 [a, b] = a :: b :: payload := by
  unfold blit
  have h1 : (List.take 2 u).length = 2 := by simp; omega
  have h2 : List.drop (2 + payload.length) u = [] := List.drop_of_length_le (by omega)
  rw [h2]
  simp only [List.take_zero, List.nil_append, List.append_nil, List.length_cons,
    List.length_nil, Nat.zero_add, List.cons_append]
  have h3 : List.drop (0 + 1 + 1) (List.take 2 u ++ payload) = payload := by
    have : (0 + 1 + 1 : Nat) = (List.take 2 u).length := by omega
    rw [this, List.drop_left]
  rw [h3]

/-- C7, when the transport takes the frame in one `write`: for an uplink ANT
frame (any type byte handed over, in particular 0x0c and 0x0e; one length byte
L in 0..255; L payload bytes), when the client supplies the length byte and the
L payload bytes (in whatever chunks), allocation succeeds and the first `write`
accepts all it is offered, copy_ant_host_data_to_soc issues one write of
exactly type byte, length byte, payload (L + 2 bytes), so the transport
receives these bytes in order, returns L + 2, and has consumed exactly the
frame. -/
theorem copy_ant_host_data_to_soc_frame (w : World) (src_fd dest_fd : Int) (pb len : Byte)
    (payload more : List Byte) (hlen : payload.length = len.val)
    (hav : avail (w.rd src_fd) = len :: (payload ++ more))
    (hoom : w.oom = false)
    (hw : write_completes w dest_fd (len.val + ANT_CMD_HDR_SIZE) = true) :
    payload.length ≤ 255
    ∧ (copy_ant_host_data_to_soc w src_fd dest_fd pb).1 = ((payload.length + 2 : Nat) : Int)
    ∧ (copy_ant_host_data_to_soc w src_fd dest_fd pb).2.log
        = w.log ++ [Event.lock,
            Event.write dest_fd (pb :: len :: payload) ((payload.length + 2 : Nat) : Int),
            Event.unlock]
    ∧ written dest_fd (copy_ant_host_data_to_soc w src_fd dest_fd pb).2.log
        = written dest_fd w.log ++ (pb :: len :: payload)
    ∧ avail ((copy_ant_host_data_to_soc w src_fd dest_fd pb).2.rd src_fd) = more := by
  have hL : payload.length ≤ 255 := by rw [hlen]; omega
  unfold copy_ant_host_data_to_soc
  obtain ⟨s1, hr1, ha1, _⟩ := do_read_full w src_fd (uninit w ANT_CMD_HDR_SIZE)
    ANT_HDR_OFFSET_LEN ANT_HDR_OFFSET_LEN (by rw [hav]; simp [ANT_HDR_OFFSET_LEN])
    (by simp [ANT_HDR_OFFSET_LEN, ANT_CMD_HDR_SIZE])
  have hhdr : blit (uninit w ANT_CMD_HDR_SIZE) ANT_HDR_OFFSET_LEN
      (List.take ANT_HDR_OFFSET_LEN (avail (w.rd src_fd))) = [w.junk 0, len] := by
    rw [hav]
    simp [ANT_CMD_HDR_SIZE, ANT_HDR_OFFSET_LEN, uninit_two, blit]
  have hdp : List.drop ANT_HDR_OFFSET_LEN (avail (w.rd src_fd)) = payload ++ more := by
    rw [hav]; simp [ANT_HDR_OFFSET_LEN]
  rw [hhdr] at hr1
  rw [hdp] at ha1
  rw [hr1]
  have hn1 : ¬ (((ANT_HDR_OFFSET_LEN : Nat) : Int) < 0) := by omega
  have hget : ([w.junk 0, len].getD ANT_HDR_OFFSET_LEN 0).val = payload.length := by
    rw [hlen]; rfl
  simp only [hn1, if_false, after_read_oom, hoom, Bool.false_eq_true, hget]
  obtain ⟨s2, hr2, ha2, _⟩ := do_read_full (w.after_read src_fd s1 w.errno) src_fd
    (uninit (w.after_read src_fd s1 w.errno) (payload.length + ANT_CMD_HDR_SIZE))
    ANT_CMD_HDR_SIZE payload.length (by simp [ha1]) (by simp; omega)
  simp only [after_read_rd_same, ha1, List.take_left', List.drop_left', after_read_errno,
    after_read_after_read] at hr2 ha2
  rw [hr2]
  have hn2 : ¬ (((payload.length : Nat) : Int) < 0) := by omega
  simp only [hn2, if_false]
  have hbuf : blit (blit (uninit (w.after_read src_fd s1 w.errno)
      (payload.length + ANT_CMD_HDR_SIZE)) ANT_CMD_HDR_SIZE payload) 0
      (List.take ANT_CMD_HDR_SIZE ([w.junk 0, len].set 0 pb)) = pb :: len :: payload := by
    have := ant_frame_buffer (uninit (w.after_read src_fd s1 w.errno) (payload.length + 2))
      payload pb len (by simp)
    simpa [ANT_CMD_HDR_SIZE] using this
  rw [hbuf]
  obtain ⟨s3, hr3⟩ := do_write_complete ((w.after_read src_fd s2 w.errno).emit Event.lock)
    dest_fd (pb :: len :: payload) (payload.length + ANT_CMD_HDR_SIZE)
    (by simp [ANT_CMD_HDR_SIZE])
    ((write_completes_congr w _ dest_fd _ rfl).trans (by rw [hlen]; exact hw))
  rw [hr3]
  have hn3 : ¬ (((payload.length + ANT_CMD_HDR_SIZE : Nat) : Int) < 0) := by omega
  have htake : List.take (payload.length + ANT_CMD_HDR_SIZE) (pb :: len :: payload)
      = pb :: len :: payload := List.take_of_length_le (by simp [ANT_CMD_HDR_SIZE])
  simp only [hn3, if_false, htake]
  refine ⟨hL, rfl, by simp [ANT_CMD_HDR_SIZE], ?_, by simp [ha2]⟩
  simp only [emit_log, set_wr_log, after_read_log, List.append_assoc, List.singleton_append]
  exact written_log_frame dest_fd w.log _ _ (by simp [ANT_CMD_HDR_SIZE])

/-- An instance: the client's frame 0e 03 11 22 33 reaches the transport
(descriptor 3) as 0e 03 11 22 33 when the transport takes it in one `write`. -/
theorem copy_ant_host_data_to_soc_frame_witness :
    [(0x11 : Byte), 0x22, 0x33].length ≤ 255
    ∧ (copy_ant_host_data_to_soc (world_ant_client [ReadEv.data [0x03, 0x11, 0x22, 0x33]]) 6 3
          ANT_DATA_PACKET_TYPE).1 = (([(0x11 : Byte), 0x22, 0x33].length + 2 : Nat) : Int)
    ∧ (copy_ant_host_data_to_soc (world_ant_client [ReadEv.data [0x03, 0x11, 0x22, 0x33]]) 6 3
          ANT_DATA_PACKET_TYPE).2.log
        = (world_ant_client [ReadEv.data [0x03, 0x11, 0x22, 0x33]]).log ++ [Event.lock,
            Event.write 3 (ANT_DATA_PACKET_TYPE :: 0x03 :: [0x11, 0x22, 0x33])
              (([(0x11 : Byte), 0x22, 0x33].length + 2 : Nat) : Int),
            Event.unlock]
    ∧ written 3 (copy_ant_host_data_to_soc
          (world_ant_client [ReadEv.data [0x03, 0x11, 0x22, 0x33]]) 6 3
          ANT_DATA_PACKET_TYPE).2.log
        = written 3 (world_ant_client [ReadEv.data [0x03, 0x11, 0x22, 0x33]]).log
          ++ (ANT_DATA_PACKET_TYPE :: 0x03 :: [0x11, 0x22, 0x33])
    ∧ avail ((copy_ant_host_data_to_soc
          (world_ant_client [ReadEv.data [0x03, 0x11, 0x22, 0x33]]) 6 3
          ANT_DATA_PACKET_TYPE).2.rd 6) = [] :=
  copy_ant_host_data_to_soc_frame (world_ant_client [ReadEv.data [0x03, 0x11, 0x22, 0x33]]) 6 3
    ANT_DATA_PACKET_TYPE 0x03 [0x11, 0x22, 0x33] [] (by decide) (by decide) rfl (by decide)

/-- Scenario S4 through the dispatcher: the ANT client's 0e 03 11 22 33, also
when it arrives byte by byte, reaches the transport unchanged. -/
theorem scenario_S4 :
    written 3 (handle_command_writes
        (world_ant_client [ReadEv.data [0x0e, 0x03, 0x11, 0x22, 0x33]]) 6).2.log
      = [0x0e, 0x03, 0x11, 0x22, 0x33]
    ∧ written 3 (handle_command_writes
        (world_ant_client [ReadEv.data [0x0e], ReadEv.data [0x03], ReadEv.data [0x11],
          ReadEv.data [0x22], ReadEv.data [0x33]]) 6).2.log
      = [0x0e, 0x03, 0x11, 0x22, 0x33] := by
  constructor <;> decide

/-- C7, failing input: the ANT client (descriptor 6) supplies the whole frame
0e 03 11 22 33 and the transport (descriptor 3) accepts it in three `write`
calls of 2, 2 and 1 bytes. After the second short write do_write sets
`write_offset = ret` instead of adding `ret`, so its third call offers the
byte at offset 2 again: the transport receives 0e 03 11 22 11, not the frame,
while copy_ant_host_data_to_soc returns 5 and the whole frame was consumed.
The same through handle_command_writes. -/
theorem copy_ant_host_data_to_soc_reissues_offset :
    avail ((world_clients [] [ReadEv.data [0x03, 0x11, 0x22, 0x33]]
        [WriteEv.wrote 2, WriteEv.wrote 2, WriteEv.wrote 1]).rd 6) = [0x03, 0x11, 0x22, 0x33]
    ∧ (copy_ant_host_data_to_soc (world_clients [] [ReadEv.data [0x03, 0x11, 0x22, 0x33]]
        [WriteEv.wrote 2, WriteEv.wrote 2, WriteEv.wrote 1]) 6 3 ANT_DATA_PACKET_TYPE).1 = 5
    ∧ (copy_ant_host_data_to_soc (world_clients [] [ReadEv.data [0x03, 0x11, 0x22, 0x33]]
        [WriteEv.wrote 2, WriteEv.wrote 2, WriteEv.wrote 1]) 6 3 ANT_DATA_PACKET_TYPE).2.log
        = [Event.lock, Event.write 3 [0x0e, 0x03, 0x11, 0x22, 0x33] 2,
            Event.write 3 [0x11, 0x22, 0x33] 2, Event.write 3 [0x11] 1, Event.unlock]
    ∧ written 3 (copy_ant_host_data_to_soc
        (world_clients [] [ReadEv.data [0x03, 0x11, 0x22, 0x33]]
          [WriteEv.wrote 2, WriteEv.wrote 2, WriteEv.wrote 1]) 6 3
        ANT_DATA_PACKET_TYPE).2.log = [0x0e, 0x03, 0x11, 0x22, 0x11]
    ∧ avail ((copy_ant_host_data_to_soc
        (world_clients [] [ReadEv.data [0x03, 0x11, 0x22, 0x33]]
          [WriteEv.wrote 2, WriteEv.wrote 2, WriteEv.wrote 1]) 6 3
        ANT_DATA_PACKET_TYPE).2.rd 6) = []
    ∧ written 3 (handle_command_writes
        (world_clients [] [ReadEv.data [0x0e, 0x03, 0x11, 0x22, 0x33]]
          [WriteEv.wrote 2, WriteEv.wrote 2, WriteEv.wrote 1]) 6).2.log
        = [0x0e, 0x03, 0x11, 0x22, 0x11] := by
  refine ⟨?_, ?_, ?_, ?_, ?_, ?_⟩ <;> decide

/-! ## C8: reads that fail or end inside a frame -/

/-- A failing read before the header or the payload of a BT frame is complete:
`bt_case` returns a negative value and performs no action. -/
theorem bt_case_read_error (w : World) (src_fd dest_fd : Int) (pb : Byte) (nvc : Bool)
    (hs : Nat) (length_of : List Byte → Nat) (hhs : hs ≤ MAX_BT_HDR_SIZE)
    (hend : endsInError (w.rd src_fd) = true)
    (hshort : (avail (w.rd src_fd)).length < hs
      ∨ (hs ≤ (avail (w.rd src_fd)).length
          ∧ (avail (w.rd src_fd)).length
              < hs + length_of (blit (uninit w MAX_BT_HDR_SIZE) 0
                  ((avail (w.rd src_fd)).take hs)))) :
    (bt_case w src_fd dest_fd pb nvc hs length_of).1 < 0
    ∧ (bt_case w src_fd dest_fd pb nvc hs length_of).2.log = w.log := by
  unfold bt_case
  rcases hshort with h | ⟨h1, h2⟩
  · obtain ⟨s1, e, hr⟩ := do_read_error w src_fd (uninit w MAX_BT_HDR_SIZE) 0 hs h
      (by simp; omega) hend
    rw [hr]
    simp
  · obtain ⟨s1, hr1, ha1, he1⟩ := do_read_full w src_fd (uninit w MAX_BT_HDR_SIZE) 0 hs h1
      (by simp; omega)
    rw [hr1]
    have hn1 : ¬ (((hs : Nat) : Int) < 0) := by omega
    simp only [hn1, if_false, after_read_oom]
    by_cases hoom : w.oom = true
    · simp [hoom]
    · simp only [hoom, if_false]
      obtain ⟨s2, e2, hr2⟩ := do_read_error (w.after_read src_fd s1 w.errno) src_fd
        (blit ((List.replicate (length_of (blit (uninit w MAX_BT_HDR_SIZE) 0
          ((avail (w.rd src_fd)).take hs)) + hs + 1) (0 : Byte)).set 0 pb) 1
          ((blit (uninit w MAX_BT_HDR_SIZE) 0 ((avail (w.rd src_fd)).take hs)).take hs))
        (hs + 1)
        (length_of (blit (uninit w MAX_BT_HDR_SIZE) 0 ((avail (w.rd src_fd)).take hs)))
        (by simp only [after_read_rd_same, ha1, List.length_drop]; omega)
        (by
          have hl : ((blit (uninit w MAX_BT_HDR_SIZE) 0 ((avail (w.rd src_fd)).take hs)).take
              hs).length ≤ hs := by simp
          rw [blit_length] <;> simp <;> omega)
        (by simp only [after_read_rd_same, he1, hend])
      rw [hr2]
      simp
theorem getD_take_lt (l : List Byte) (n k : Nat) (h : k < n) :
    (l.take n).getD k 0 = l.getD k 0 := by
  simp [List.getD_eq_getElem?_getD, List.getElem?_take, h]

theorem header_getD (w : World) (bs : List Byte) (hs k : Nat) (hk : k < hs)
    (hlen : hs ≤ bs.length) :
    (blit (uninit w MAX_BT_HDR_SIZE) 0 (bs.take hs)).getD k 0 = bs.getD k 0 := by
  rw [blit_zero_getD _ _ _ (by simp; omega), getD_take_lt _ _ _ hk]

/-- A failing read before the length byte or the payload of an uplink ANT frame
is complete: `copy_ant_host_data_to_soc` returns -1 and performs no action. -/
theorem copy_ant_host_read_error (w : World) (src_fd dest_fd : Int) (pb : Byte)
    (hend : endsInError (w.rd src_fd) = true)
    (hshort : (avail (w.rd src_fd)).length < 1
      ∨ (1 ≤ (avail (w.rd src_fd)).length
          ∧ (avail (w.rd src_fd)).length < 1 + ((avail (w.rd src_fd)).getD 0 0).val)) :
    (copy_ant_host_data_to_soc w src_fd dest_fd pb).1 = -1
    ∧ (copy_ant_host_data_to_soc w src_fd dest_fd pb).2.log = w.log := by
  unfold copy_ant_host_data_to_soc
  rcases hshort with h | ⟨h1, h2⟩
  · obtain ⟨s1, e, hr⟩ := do_read_error w src_fd (uninit w ANT_CMD_HDR_SIZE) ANT_HDR_OFFSET_LEN
      ANT_HDR_OFFSET_LEN (by simpa [ANT_HDR_OFFSET_LEN] using h)
      (by simp [ANT_HDR_OFFSET_LEN, ANT_CMD_HDR_SIZE]) hend
    rw [hr]
    simp
  · obtain ⟨a, rest, hav⟩ : ∃ a rest, avail (w.rd src_fd) = a :: rest := by
      cases hq : avail (w.rd src_fd) with
      | nil => rw [hq] at h1; simp at h1
      | cons a rest => exact ⟨a, rest, rfl⟩
    rw [hav] at h2
    obtain ⟨s1, hr1, ha1, he1⟩ := do_read_full w src_fd (uninit w ANT_CMD_HDR_SIZE)
      ANT_HDR_OFFSET_LEN ANT_HDR_OFFSET_LEN (by rw [hav]; simp [ANT_HDR_OFFSET_LEN])
      (by simp [ANT_HDR_OFFSET_LEN, ANT_CMD_HDR_SIZE])
    have hhdr : blit (uninit w ANT_CMD_HDR_SIZE) ANT_HDR_OFFSET_LEN
        (List.take ANT_HDR_OFFSET_LEN (avail (w.rd src_fd))) = [w.junk 0, a] := by
      rw [hav]
      simp [ANT_CMD_HDR_SIZE, ANT_HDR_OFFSET_LEN, uninit_two, blit]
    rw [hhdr] at hr1
    rw [hav] at ha1
    rw [hr1]
    have hn1 : ¬ (((ANT_HDR_OFFSET_LEN : Nat) : Int) < 0) := by omega
    have hget : ([w.junk 0, a].getD ANT_HDR_OFFSET_LEN 0).val = a.val := rfl
    simp only [hn1, if_false, after_read_oom, hget]
    by_cases hoom : w.oom = true
    · simp [hoom]
    · simp only [hoom, if_false]
      obtain ⟨s2, e2, hr2⟩ := do_read_error (w.after_read src_fd s1 w.errno) src_fd
        (uninit (w.after_read src_fd s1 w.errno) (a.val + ANT_CMD_HDR_SIZE))
        ANT_CMD_HDR_SIZE a.val
        (by
          simp only [after_read_rd_same, ha1, ANT_HDR_OFFSET_LEN]
          simp only [List.getD_cons_zero, List.length_cons] at h2
          simp only [List.drop_succ_cons, List.drop_zero]
          omega)
        (by simp; omega)
        (by simp only [after_read_rd_same, he1, hend])
      rw [hr2]
      simp

/-- A failing read before the length byte or the payload of a downlink ANT
frame is complete: `copy_ant_data_to_channel` returns -1 and performs no action. -/
theorem copy_ant_channel_read_error (w : World) (src_fd dest_fd : Int) (pb : Byte)
    (hend : endsInError (w.rd src_fd) = true)
    (hshort : (avail (w.rd src_fd)).length < 1
      ∨ (1 ≤ (avail (w.rd src_fd)).length
          ∧ (avail (w.rd src_fd)).length < 1 + ((avail (w.rd src_fd)).getD 0 0).val)) :
    (copy_ant_data_to_channel w src_fd dest_fd pb).1 = -1
    ∧ (copy_ant_data_to_channel w src_fd dest_fd pb).2.log = w.log := by
  unfold copy_ant_data_to_channel
  rcases hshort with h | ⟨h1, h2⟩
  · have hnil : avail (w.rd src_fd) = [] := List.length_eq_zero.mp (by omega)
    obtain ⟨s1, e, hr⟩ := read_err w src_fd 1 hnil hend
    rw [hr]
    simp
  · obtain ⟨a, rest, hav⟩ : ∃ a rest, avail (w.rd src_fd) = a :: rest := by
      cases hq : avail (w.rd src_fd) with
      | nil => rw [hq] at h1; simp at h1
      | cons a rest => exact ⟨a, rest, rfl⟩
    obtain ⟨k, s1, hr1, hk1, hk2, _, ha1, he1⟩ := read_data w src_fd 1 (by omega)
      (by rw [hav]; simp)
    have hk : k = 1 := by omega
    subst hk
    rw [hav] at hr1 ha1 h2
    simp only [List.take_succ_cons, List.take_zero, List.drop_succ_cons, List.drop_zero]
      at hr1 ha1
    rw [hr1]
    have hn1 : ¬ (((1 : Nat) : Int) < 0) := by omega
    simp only [hn1, if_false, after_read_oom, List.headD_cons]
    by_cases hoom : w.oom = true
    · simp [hoom]
    · simp only [hoom, if_false]
      obtain ⟨s2, e2, hr2⟩ := do_read_error (w.after_read src_fd s1 w.errno) src_fd
        (uninit (w.after_read src_fd s1 w.errno) (a.val + 2)) 2 a.val
        (by
          simp only [after_read_rd_same, ha1]
          simp only [List.getD_cons_zero, List.length_cons] at h2
          omega)
        (by simp; omega)
        (by simp only [after_read_rd_same, he1, hend])
      rw [hr2]
      simp
/-- The framers on a failing read (a `read` that returns a negative value):
whenever the source delivers fewer bytes than the header, or fewer than the
header and the payload it declares, and the next read fails,
copy_bt_data_to_channel (BT type bytes) returns a negative value,
copy_ant_host_data_to_soc and copy_ant_data_to_channel (ANT type bytes) return
-1, and nothing is written: the log of actions is unchanged. -/
theorem framers_read_error (w : World) (src_fd dest_fd direction : Int)
    (pb : Byte) (hend : endsInError (w.rd src_fd) = true)
    (hshort : (avail (w.rd src_fd)).length < spec_frame_tail_size pb (avail (w.rd src_fd))) :
    ((pb = BT_ACL_PACKET_TYPE ∨ pb = BT_SCO_PACKET_TYPE ∨ pb = BT_CMD_PACKET_TYPE
        ∨ pb = BT_EVT_PACKET_TYPE)
      ∧ (copy_bt_data_to_channel w src_fd dest_fd pb direction).1 < 0
      ∧ (copy_bt_data_to_channel w src_fd dest_fd pb direction).2.log = w.log)
    ∨ ((pb = ANT_CTL_PACKET_TYPE ∨ pb = ANT_DATA_PACKET_TYPE)
      ∧ (copy_ant_host_data_to_soc w src_fd dest_fd pb).1 = -1
      ∧ (copy_ant_host_data_to_soc w src_fd dest_fd pb).2.log = w.log
      ∧ (copy_ant_data_to_channel w src_fd dest_fd pb).1 = -1
      ∧ (copy_ant_data_to_channel w src_fd dest_fd pb).2.log = w.log) := by
  unfold spec_frame_tail_size at hshort
  by_cases hacl : pb = BT_ACL_PACKET_TYPE
  · left
    rw [if_pos hacl] at hshort
    have hcopy : copy_bt_data_to_channel w src_fd dest_fd pb direction
        = bt_case w src_fd dest_fd pb (decide (dest_fd = 0)) BT_ACL_HDR_SIZE acl_length := by
      unfold copy_bt_data_to_channel; rw [if_pos hacl]
    rw [hcopy]
    refine ⟨Or.inl hacl, ?_⟩
    apply bt_case_read_error _ _ _ _ _ _ _ (by decide) hend
    by_cases hl : (avail (w.rd src_fd)).length < 4
    · exact Or.inl hl
    · rw [if_neg hl] at hshort
      refine Or.inr ⟨by unfold BT_ACL_HDR_SIZE; omega, ?_⟩
      unfold acl_length BT_ACL_HDR_LEN_OFFSET BT_ACL_HDR_SIZE
      rw [header_getD w _ 4 2 (by omega) (by omega), header_getD w _ 4 (2 + 1) (by omega) (by omega)]
      exact hshort
  · rw [if_neg hacl] at hshort
    by_cases hsco : pb = BT_SCO_PACKET_TYPE ∨ pb = BT_CMD_PACKET_TYPE
    · left
      rw [if_pos hsco] at hshort
      have hcopy : copy_bt_data_to_channel w src_fd dest_fd pb direction
          = bt_case w src_fd dest_fd pb (decide (dest_fd = 0)) BT_SCO_HDR_SIZE
              (fun hdr => (hdr.getD BT_SCO_HDR_LEN_OFFSET 0).val) := by
        unfold copy_bt_data_to_channel; rw [if_neg hacl, if_pos hsco]
      rw [hcopy]
      refine ⟨Or.inr (by tauto), ?_⟩
      apply bt_case_read_error _ _ _ _ _ _ _ (by decide) hend
      by_cases hl : (avail (w.rd src_fd)).length < 3
      · exact Or.inl hl
      · rw [if_neg hl] at hshort
        refine Or.inr ⟨by unfold BT_SCO_HDR_SIZE; omega, ?_⟩
        simp only [BT_SCO_HDR_LEN_OFFSET, BT_SCO_HDR_SIZE]
        rw [header_getD w _ 3 2 (by omega) (by omega)]
        exact hshort
    · rw [if_neg hsco] at hshort
      by_cases hevt : pb = BT_EVT_PACKET_TYPE
      · left
        rw [if_pos hevt] at hshort
        have hcopy : copy_bt_data_to_channel w src_fd dest_fd pb direction
            = bt_case w src_fd dest_fd pb (decide (dest_fd = 0)) BT_EVT_HDR_SIZE
                (fun hdr => (hdr.getD BT_EVT_HDR_LEN_OFFSET 0).val) := by
          unfold copy_bt_data_to_channel; rw [if_neg hacl, if_neg hsco, if_pos hevt]
        rw [hcopy]
        refine ⟨Or.inr (Or.inr (Or.inr hevt)), ?_⟩
        apply bt_case_read_error _ _ _ _ _ _ _ (by decide) hend
        by_cases hl : (avail (w.rd src_fd)).length < 2
        · exact Or.inl hl
        · rw [if_neg hl] at hshort
          refine Or.inr ⟨by unfold BT_EVT_HDR_SIZE; omega, ?_⟩
          simp only [BT_EVT_HDR_LEN_OFFSET, BT_EVT_HDR_SIZE]
          rw [header_getD w _ 2 1 (by omega) (by omega)]
          exact hshort
      · rw [if_neg hevt] at hshort
        by_cases hant : pb = ANT_CTL_PACKET_TYPE ∨ pb = ANT_DATA_PACKET_TYPE
        · right
          rw [if_pos hant] at hshort
          have hs : (avail (w.rd src_fd)).length < 1
              ∨ (1 ≤ (avail (w.rd src_fd)).length
                ∧ (avail (w.rd src_fd)).length < 1 + ((avail (w.rd src_fd)).getD 0 0).val) := by
            by_cases hl : (avail (w.rd src_fd)).length < 1
            · exact Or.inl hl
            · rw [if_neg hl] at hshort
              exact Or.inr ⟨by omega, hshort⟩
          obtain ⟨h1, h2⟩ := copy_ant_host_read_error w src_fd dest_fd pb hend hs
          obtain ⟨h3, h4⟩ := copy_ant_channel_read_error w src_fd dest_fd pb hend hs
          exact ⟨hant, h1, h2, h3, h4⟩
        · rw [if_neg hant] at hshort
          omega

/-- An instance: the command 01 03 0c 02 aa declares two payload bytes, one
arrives and the next read fails with errno 5: -1 and nothing written. -/
theorem framers_read_error_example :
    ((BT_CMD_PACKET_TYPE = BT_ACL_PACKET_TYPE ∨ BT_CMD_PACKET_TYPE = BT_SCO_PACKET_TYPE
        ∨ BT_CMD_PACKET_TYPE = BT_CMD_PACKET_TYPE ∨ BT_CMD_PACKET_TYPE = BT_EVT_PACKET_TYPE)
      ∧ (copy_bt_data_to_channel
          (world_bt_client [ReadEv.data [0x03, 0x0c, 0x02, 0xaa], ReadEv.fail 5]) 5 3
          BT_CMD_PACKET_TYPE HOST_TO_SOC).1 < 0
      ∧ (copy_bt_data_to_channel
          (world_bt_client [ReadEv.data [0x03, 0x0c, 0x02, 0xaa], ReadEv.fail 5]) 5 3
          BT_CMD_PACKET_TYPE HOST_TO_SOC).2.log
        = (world_bt_client [ReadEv.data [0x03, 0x0c, 0x02, 0xaa], ReadEv.fail 5]).log)
    ∨ ((BT_CMD_PACKET_TYPE = ANT_CTL_PACKET_TYPE ∨ BT_CMD_PACKET_TYPE = ANT_DATA_PACKET_TYPE)
      ∧ (copy_ant_host_data_to_soc
          (world_bt_client [ReadEv.data [0x03, 0x0c, 0x02, 0xaa], ReadEv.fail 5]) 5 3
          BT_CMD_PACKET_TYPE).1 = -1
      ∧ (copy_ant_host_data_to_soc
          (world_bt_client [ReadEv.data [0x03, 0x0c, 0x02, 0xaa], ReadEv.fail 5]) 5 3
          BT_CMD_PACKET_TYPE).2.log
        = (world_bt_client [ReadEv.data [0x03, 0x0c, 0x02, 0xaa], ReadEv.fail 5]).log
      ∧ (copy_ant_data_to_channel
          (world_bt_client [ReadEv.data [0x03, 0x0c, 0x02, 0xaa], ReadEv.fail 5]) 5 3
          BT_CMD_PACKET_TYPE).1 = -1
      ∧ (copy_ant_data_to_channel
          (world_bt_client [ReadEv.data [0x03, 0x0c, 0x02, 0xaa], ReadEv.fail 5]) 5 3
          BT_CMD_PACKET_TYPE).2.log
        = (world_bt_client [ReadEv.data [0x03, 0x0c, 0x02, 0xaa], ReadEv.fail 5]).log) :=
  framers_read_error
    (world_bt_client [ReadEv.data [0x03, 0x0c, 0x02, 0xaa], ReadEv.fail 5]) 5 3 HOST_TO_SOC
    BT_CMD_PACKET_TYPE (by decide) (by decide)

/-- C9, failing input: a connected BT client (descriptor 5) sends the byte 77,
which is no known type and not the sentinel ee. handle_command_writes sets
retval to -1 in its default branch and then ends in `return 0`: the result is
0, not negative. In bt_thread the handler loop therefore goes on: with the
stream 77 01 03 0c 00 the command after the unknown byte is still forwarded to
the transport, and the peer is closed only at end of stream. -/
theorem handle_command_writes_unknown_type_returns_zero :
    (handle_command_writes (world_bt_client [ReadEv.data [0x77]]) 5).1 = 0
    ∧ (handle_command_writes (world_bt_client [ReadEv.data [0x77]]) 5).2.log = []
    ∧ (bt_thread 9 (world_bt_session [ReadEv.data [0x77, 0x01, 0x03, 0x0c, 0x00]])).2.log
        = [Event.close 4, Event.lock, Event.write 3 [0x01, 0x03, 0x0c, 0x00] 4, Event.unlock,
            Event.close 5]
    ∧ (bt_thread 9 (world_bt_session [ReadEv.data [0x77, 0x01, 0x03, 0x0c, 0x00]])).1
        = Outcome.blocked := by
  refine ⟨?_, ?_, ?_, ?_⟩ <;> decide

/-- C10, failing input: a buffer of six bytes 00 .. 05 and a descriptor that
accepts two bytes per call (write results 2, 2, 2). do_write sets
`write_offset = ret` instead of adding `ret`: the third call is issued at
offset 2 again, not at offset 4. The calls offer 00..05, 02..05 and 02 03; the
descriptor accepts 00 01 02 03 02 03, which is not the buffer, and do_write
returns 6. -/
theorem do_write_third_call_repeats_offset :
    (do_write world_slow_transport 3 [0x00, 0x01, 0x02, 0x03, 0x04, 0x05] 6).1 = 6
    ∧ write_calls 3 (do_write world_slow_transport 3 [0x00, 0x01, 0x02, 0x03, 0x04, 0x05] 6).2.log
        = [[0x00, 0x01, 0x02, 0x03, 0x04, 0x05], [0x02, 0x03, 0x04, 0x05], [0x02, 0x03]]
    ∧ written 3 (do_write world_slow_transport 3 [0x00, 0x01, 0x02, 0x03, 0x04, 0x05] 6).2.log
        = [0x00, 0x01, 0x02, 0x03, 0x02, 0x03]
    ∧ written 3 (do_write world_slow_transport 3 [0x00, 0x01, 0x02, 0x03, 0x04, 0x05] 6).2.log
        ≠ [0x00, 0x01, 0x02, 0x03, 0x04, 0x05] := by
  refine ⟨?_, ?_, ?_, ?_⟩ <;> decide

/-! ## What reads, writes and the framers can change -/

theorem with_io_self (w : World) : w.with_io w.rd w.wr w.errno [] = w := by
  cases w; simp [World.with_io]

theorem with_io_with_io (w : World) (r1 r2 : Int → RdState) (s1 s2 : Int → List WriteEv)
    (e1 e2 : Int) (l1 l2 : List Event) :
    (w.with_io r1 s1 e1 l1).with_io r2 s2 e2 l2 = w.with_io r2 s2 e2 (l1 ++ l2) := by
  simp [World.with_io]

theorem io_step_refl (dest : Int) (w : World) : io_step dest w w :=
  ⟨w.rd, w.wr, w.errno, [], (with_io_self w).symm, by simp⟩

theorem io_step_trans (dest : Int) (w w1 w2 : World) (h1 : io_step dest w w1)
    (h2 : io_step dest w1 w2) : io_step dest w w2 := by
  obtain ⟨r1, s1, e1, l1, hw1, hl1⟩ := h1
  obtain ⟨r2, s2, e2, l2, hw2, hl2⟩ := h2
  refine ⟨r2, s2, e2, l1 ++ l2, ?_, ?_⟩
  · rw [hw2, hw1, with_io_with_io]
  · intro ev hev
    rcases List.mem_append.mp hev with h | h
    · exact hl1 ev h
    · exact hl2 ev h

theorem wr_step_refl (dest : Int) (w : World) : wr_step dest w w :=
  ⟨w.wr, w.errno, [], (with_io_self w).symm, by simp⟩

theorem wr_step_trans (dest : Int) (w w1 w2 : World) (h1 : wr_step dest w w1)
    (h2 : wr_step dest w1 w2) : wr_step dest w w2 := by
  obtain ⟨s1, e1, l1, hw1, hl1⟩ := h1
  obtain ⟨s2, e2, l2, hw2, hl2⟩ := h2
  refine ⟨s2, e2, l1 ++ l2, ?_, ?_⟩
  · rw [hw2, hw1, with_io_with_io]; rfl
  · intro ev hev
    rcases List.mem_append.mp hev with h | h
    · exact hl1 ev h
    · exact hl2 ev h

theorem wr_step_io_step (dest : Int) (w w1 : World) (h : wr_step dest w w1) :
    io_step dest w w1 := by
  obtain ⟨s1, e1, l1, hw1, hl1⟩ := h
  exact ⟨w.rd, s1, e1, l1, hw1, hl1⟩

theorem after_read_io_step (dest : Int) (w : World) (fd : Int) (s : RdState) (e : Int) :
    io_step dest w (w.after_read fd s e) :=
  ⟨fun x => if x = fd then s else w.rd x, w.wr, e, [], by
    cases w; simp [World.after_read, World.set_rd, World.with_io], by simp⟩

theorem emit_wr_step (dest : Int) (w : World) (ev : Event) (h : ev.on_dest dest = true) :
    wr_step dest w (w.emit ev) :=
  ⟨w.wr, w.errno, [ev], rfl, by simpa using h⟩

theorem read_io_step (dest : Int) (w : World) (fd : Int) (n : Nat) :
    io_step dest w (read w fd n).2.2 := by
  unfold read
  split
  · exact after_read_io_step dest w fd _ w.errno
  · split
    · exact io_step_refl dest w
    · exact after_read_io_step dest w fd _ _
    · exact after_read_io_step dest w fd _ w.errno

theorem write_wr_step (w : World) (fd : Int) (offered : List Byte) :
    wr_step fd w (write w fd offered).2 := by
  unfold write
  split
  · exact emit_wr_step fd w _ (by simp [Event.on_dest])
  · exact ⟨_, w.errno, [_], rfl, by simp [Event.on_dest]⟩
  · exact ⟨_, _, [_], rfl, by simp [Event.on_dest]⟩

theorem do_write_loop_wr_step (fd : Int) (buf : List Byte) (len : Nat) :
    ∀ (fuel : Nat) (w : World) (off write_len : Nat),
      wr_step fd w (do_write_loop fd buf len fuel w off write_len).2 := by
  intro fuel
  induction fuel with
  | zero => intro w off write_len; exact wr_step_refl fd w
  | succ fuel ih =>
    intro w off write_len
    unfold do_write_loop
    have hw := write_wr_step w fd (List.take write_len (List.drop off buf))
    rcases hr : write w fd (List.take write_len (List.drop off buf)) with ⟨r, w1⟩
    rw [hr] at hw
    simp only []
    split_ifs
    · exact hw
    · exact hw
    · exact wr_step_trans fd w w1 _ hw (ih w1 _ _)
    · exact hw
    · exact hw

theorem do_write_wr_step (w : World) (fd : Int) (buf : List Byte) (len : Nat) :
    wr_step fd w (do_write w fd buf len).2 :=
  do_write_loop_wr_step fd buf len (len + 1) w 0 len

theorem do_read_loop_io_step (dest fd : Int) (base len : Nat) :
    ∀ (fuel : Nat) (w : World) (buf : List Byte) (bytes_left off : Nat),
      io_step dest w (do_read_loop fd base len fuel w buf bytes_left off).2.2 := by
  intro fuel
  induction fuel with
  | zero => intro w buf bytes_left off; exact io_step_refl dest w
  | succ fuel ih =>
    intro w buf bytes_left off
    unfold do_read_loop
    have hw := read_io_step dest w fd bytes_left
    rcases hr : read w fd bytes_left with ⟨r, got, w1⟩
    rw [hr] at hw
    simp only []
    split_ifs
    · exact hw
    · exact hw
    · exact io_step_trans dest w w1 _ hw (ih w1 _ _ _)
    · exact hw

theorem do_read_io_step (dest : Int) (w : World) (fd : Int) (buf : List Byte) (base len : Nat) :
    io_step dest w (do_read w fd buf base len).2.2 := by
  unfold do_read
  split_ifs
  · exact io_step_refl dest w
  · exact do_read_loop_io_step dest fd base len len w buf len 0
theorem bt_deliver_wr_step (w : World) (dest_fd : Int) (nvc : Bool) (buf : List Byte)
    (n : Nat) : wr_step dest_fd w (bt_deliver w dest_fd nvc buf n).2 := by
  unfold bt_deliver
  split_ifs with h
  · exact wr_step_refl dest_fd w
  · have h1 := emit_wr_step dest_fd w Event.lock rfl
    have h2 := do_write_wr_step (w.emit Event.lock) dest_fd buf n
    rcases hr : do_write (w.emit Event.lock) dest_fd buf n with ⟨r, w1⟩
    rw [hr] at h2
    have h3 := emit_wr_step dest_fd w1 Event.unlock rfl
    have h4 := wr_step_trans dest_fd _ _ _ (wr_step_trans dest_fd _ _ _ h1 h2) h3
    simp only []
    split_ifs <;> exact h4

theorem bt_case_io_step (w : World) (src_fd dest_fd : Int) (pb : Byte) (nvc : Bool)
    (hs : Nat) (length_of : List Byte → Nat) :
    io_step dest_fd w (bt_case w src_fd dest_fd pb nvc hs length_of).2 := by
  unfold bt_case
  have h1 := do_read_io_step dest_fd w src_fd (uninit w MAX_BT_HDR_SIZE) 0 hs
  rcases hr1 : do_read w src_fd (uninit w MAX_BT_HDR_SIZE) 0 hs with ⟨r1, hdr, w1⟩
  rw [hr1] at h1
  simp only []
  have h2 := do_read_io_step dest_fd w1 src_fd
    (blit ((List.replicate (length_of hdr + hs + 1) (0 : Byte)).set 0 pb) 1 (hdr.take hs))
    (hs + 1) (length_of hdr)
  rcases hr2 : do_read w1 src_fd
    (blit ((List.replicate (length_of hdr + hs + 1) (0 : Byte)).set 0 pb) 1 (hdr.take hs))
    (hs + 1) (length_of hdr) with ⟨r2, buf, w2⟩
  rw [hr2] at h2
  simp only []
  have h12 := io_step_trans dest_fd _ _ _ h1 h2
  have h3 := io_step_trans dest_fd _ _ _ h12 (wr_step_io_step dest_fd _ _
    (bt_deliver_wr_step w2 dest_fd nvc buf ((length_of hdr + hs + 1) % 2 ^ 16)))
  split_ifs <;> first | exact h1 | exact h12 | exact h3

theorem copy_bt_io_step (w : World) (src_fd dest_fd : Int) (pb : Byte) (direction : Int) :
    io_step dest_fd w (copy_bt_data_to_channel w src_fd dest_fd pb direction).2 := by
  unfold copy_bt_data_to_channel
  simp only []
  split_ifs
  · exact bt_case_io_step _ _ _ _ _ _ _
  · exact bt_case_io_step _ _ _ _ _ _ _
  · exact bt_case_io_step _ _ _ _ _ _ _
  · exact io_step_refl dest_fd w

theorem copy_ant_host_io_step (w : World) (src_fd dest_fd : Int) (pb : Byte) :
    io_step dest_fd w (copy_ant_host_data_to_soc w src_fd dest_fd pb).2 := by
  unfold copy_ant_host_data_to_soc
  have h1 := do_read_io_step dest_fd w src_fd (uninit w ANT_CMD_HDR_SIZE) ANT_HDR_OFFSET_LEN
    ANT_HDR_OFFSET_LEN
  rcases hr1 : do_read w src_fd (uninit w ANT_CMD_HDR_SIZE) ANT_HDR_OFFSET_LEN
    ANT_HDR_OFFSET_LEN with ⟨r1, hdr, w1⟩
  rw [hr1] at h1
  simp only []
  have h2 := do_read_io_step dest_fd w1 src_fd
    (uninit w1 ((hdr.getD ANT_HDR_OFFSET_LEN 0).val + ANT_CMD_HDR_SIZE)) ANT_CMD_HDR_SIZE
    (hdr.getD ANT_HDR_OFFSET_LEN 0).val
  rcases hr2 : do_read w1 src_fd
    (uninit w1 ((hdr.getD ANT_HDR_OFFSET_LEN 0).val + ANT_CMD_HDR_SIZE)) ANT_CMD_HDR_SIZE
    (hdr.getD ANT_HDR_OFFSET_LEN 0).val with ⟨r2, ant_pl, w2⟩
  rw [hr2] at h2
  simp only []
  have h12 := io_step_trans dest_fd _ _ _ h1 h2
  have h3 := emit_wr_step dest_fd w2 Event.lock rfl
  have h4 := do_write_wr_step (w2.emit Event.lock) dest_fd
    (blit ant_pl 0 ((hdr.set 0 pb).take ANT_CMD_HDR_SIZE))
    ((hdr.getD ANT_HDR_OFFSET_LEN 0).val + ANT_CMD_HDR_SIZE)
  rcases hr3 : do_write (w2.emit Event.lock) dest_fd
    (blit ant_pl 0 ((hdr.set 0 pb).take ANT_CMD_HDR_SIZE))
    ((hdr.getD ANT_HDR_OFFSET_LEN 0).val + ANT_CMD_HDR_SIZE) with ⟨r3, w3⟩
  rw [hr3] at h4
  have h5 := emit_wr_step dest_fd w3 Event.unlock rfl
  have h6 := io_step_trans dest_fd _ _ _ h12 (wr_step_io_step dest_fd _ _
    (wr_step_trans dest_fd _ _ _ (wr_step_trans dest_fd _ _ _ h3 h4) h5))
  simp only []
  split_ifs <;> first | exact h1 | exact h12 | exact h6

theorem copy_ant_channel_io_step (w : World) (src_fd dest_fd : Int) (pb : Byte) :
    io_step dest_fd w (copy_ant_data_to_channel w src_fd dest_fd pb).2 := by
  unfold copy_ant_data_to_channel
  have h1 := read_io_step dest_fd w src_fd 1
  rcases hr1 : read w src_fd 1 with ⟨r1, got, w1⟩
  rw [hr1] at h1
  simp only []
  have h2 := do_read_io_step dest_fd w1 src_fd
    (uninit w1 ((got.headD (w.junk 0)).val + 2)) 2 (got.headD (w.junk 0)).val
  rcases hr2 : do_read w1 src_fd
    (uninit w1 ((got.headD (w.junk 0)).val + 2)) 2 (got.headD (w.junk 0)).val
    with ⟨r2, ant_pl, w2⟩
  rw [hr2] at h2
  simp only []
  have h12 := io_step_trans dest_fd _ _ _ h1 h2
  have h3 := emit_wr_step dest_fd w2 Event.lock rfl
  have h4 := do_write_wr_step (w2.emit Event.lock) dest_fd
    (((ant_pl.set 0 pb).set 1 (got.headD (w.junk 0))).drop 1) (r2.toNat + 1)
  rcases hr3 : do_write (w2.emit Event.lock) dest_fd
    (((ant_pl.set 0 pb).set 1 (got.headD (w.junk 0))).drop 1) (r2.toNat + 1) with ⟨r3, w3⟩
  rw [hr3] at h4
  have h5 := emit_wr_step dest_fd w3 Event.unlock rfl
  have h6 := io_step_trans dest_fd _ _ _ h12 (wr_step_io_step dest_fd _ _
    (wr_step_trans dest_fd _ _ _ (wr_step_trans dest_fd _ _ _ h3 h4) h5))
  simp only []
  split_ifs <;> first | exact h1 | exact h12 | exact h6

theorem write_calls_append (fd : Int) (l1 l2 : List Event) :
    write_calls fd (l1 ++ l2) = write_calls fd l1 ++ write_calls fd l2 := by
  induction l1 with
  | nil => rfl
  | cons e es ih =>
    cases e <;> simp [write_calls, ih]
    split_ifs <;> simp

theorem write_calls_on_dest (dest fd : Int) (hfd : fd ≠ dest) (evs : List Event)
    (h : ∀ ev ∈ evs, ev.on_dest dest = true) : write_calls fd evs = [] := by
  induction evs with
  | nil => rfl
  | cons e es ih =>
    have he := h e (List.mem_cons_self _ _)
    have hes := ih (fun ev hev => h ev (List.mem_cons_of_mem _ hev))
    cases e <;> simp [write_calls, Event.on_dest, hes] at he ⊢
    intro h1; exact hfd (h1.symm.trans he)

theorem written_on_dest (dest fd : Int) (hfd : fd ≠ dest) (evs : List Event)
    (h : ∀ ev ∈ evs, ev.on_dest dest = true) : written fd evs = [] := by
  induction evs with
  | nil => rfl
  | cons e es ih =>
    have he := h e (List.mem_cons_self _ _)
    have hes := ih (fun ev hev => h ev (List.mem_cons_of_mem _ hev))
    cases e <;> simp [written, Event.accepted, Event.on_dest, hes] at he ⊢
    intro h1 _; exact absurd (h1.symm.trans he) hfd

/-- What an `io_step` leaves alone: the peer handles, the transport handle, the
properties, and the writes on every descriptor other than `dest`. -/
theorem io_step_frame (dest : Int) (w w1 : World) (h : io_step dest w w1) :
    w1.remote_bt_fd = w.remote_bt_fd ∧ w1.remote_ant_fd = w.remote_ant_fd
    ∧ w1.fd_transport = w.fd_transport ∧ w1.props = w.props ∧ w1.oom = w.oom
    ∧ w1.junk = w.junk ∧ w1.conns = w.conns ∧ w1.sel = w.sel
    ∧ (∀ fd, fd ≠ dest → write_calls fd w1.log = write_calls fd w.log)
    ∧ (∀ fd, fd ≠ dest → written fd w1.log = written fd w.log) := by
  obtain ⟨r1, s1, e1, l1, hw1, hl1⟩ := h
  subst hw1
  refine ⟨rfl, rfl, rfl, rfl, rfl, rfl, rfl, rfl, ?_, ?_⟩
  · intro fd hfd
    simp only [World.with_io, write_calls_append, write_calls_on_dest dest fd hfd l1 hl1,
      List.append_nil]
  · intro fd hfd
    simp only [World.with_io, written_append, written_on_dest dest fd hfd l1 hl1,
      List.append_nil]

/-! ## C11: write failures on the uplink path -/

/-- C11, failing input: the BT client sends 01 03 0c 00 twice and the first
`write` on the transport fails with errno 5 (EIO, neither EPIPE nor EBADF).
copy_bt_data_to_channel returns -1, but handle_command_writes ends in
`return 0`: it reports 0, the handler loop goes on and forwards the second
command; the peer is left only at end of stream. Likewise for the ANT frame
0e 02 11 22: copy_ant_host_data_to_soc returns -1 and handle_command_writes
returns 0. With errno 32 (EPIPE) handle_command_writes returns 0 as well. -/
theorem handle_command_writes_ignores_write_failure :
    (copy_bt_data_to_channel
        (world_clients [ReadEv.data [0x03, 0x0c, 0x00]] [] [WriteEv.fail 5]) 5 3
        BT_CMD_PACKET_TYPE HOST_TO_SOC).1 = -1
    ∧ (handle_command_writes
        (world_clients [ReadEv.data [0x01, 0x03, 0x0c, 0x00]] [] [WriteEv.fail 5]) 5).1 = 0
    ∧ (serve_loop 5 4
          (world_clients [ReadEv.data [0x01, 0x03, 0x0c, 0x00, 0x01, 0x03, 0x0c, 0x00]] []
            [WriteEv.fail 5])).map (fun w1 => w1.log)
        = some [Event.lock, Event.write 3 [0x01, 0x03, 0x0c, 0x00] (-1), Event.unlock,
            Event.lock, Event.write 3 [0x01, 0x03, 0x0c, 0x00] 4, Event.unlock]
    ∧ (copy_ant_host_data_to_soc
        (world_clients [] [ReadEv.data [0x02, 0x11, 0x22]] [WriteEv.fail 5]) 6 3
        ANT_DATA_PACKET_TYPE).1 = -1
    ∧ (handle_command_writes
        (world_clients [] [ReadEv.data [0x0e, 0x02, 0x11, 0x22]] [WriteEv.fail 5]) 6).1 = 0
    ∧ (handle_command_writes
        (world_clients [ReadEv.data [0x01, 0x03, 0x0c, 0x00]] [] [WriteEv.fail 32]) 5).1 = 0
    ∧ (handle_command_writes
        (world_clients [] [ReadEv.data [0x0e, 0x02, 0x11, 0x22]] [WriteEv.fail 32]) 6).1 = 0 := by
  refine ⟨?_, ?_, ?_, ?_, ?_, ?_, ?_⟩ <;> decide

/-! ## C12: downlink frames for an absent peer -/

theorem read_one (w : World) (fd : Int) (b : Byte) (more : List Byte)
    (hav : avail (w.rd fd) = b :: more) :
    ∃ s1, read w fd 1 = (1, [b], w.after_read fd s1 w.errno) ∧ avail s1 = more
      ∧ endsInError s1 = endsInError (w.rd fd) := by
  obtain ⟨k, s1, hr, hk1, hk2, _, ha, he⟩ := read_data w fd 1 (by omega) (by rw [hav]; simp)
  have hk : k = 1 := by omega
  subst hk
  rw [hav] at hr ha
  exact ⟨s1, by simpa using hr, by simpa using ha, he⟩

theorem wr_step_rd (dest : Int) (w w1 : World) (h : wr_step dest w w1) :
    w1.rd = w.rd ∧ w1.log = w.log ++ (w1.log.drop w.log.length) := by
  obtain ⟨s1, e1, l1, hw1, _⟩ := h
  subst hw1
  exact ⟨rfl, by simp [World.with_io]⟩

/-- The reads of `bt_case` on a complete frame: header and payload are taken
off the source and the assembled frame is handed to `bt_deliver`. -/
theorem bt_case_reads (w : World) (src_fd dest_fd : Int) (pb : Byte) (nvc : Bool) (hs : Nat)
    (length_of : List Byte → Nat) (hdr payload more : List Byte)
    (hhs : hs ≤ MAX_BT_HDR_SIZE) (hh : hdr.length = hs)
    (hav : avail (w.rd src_fd) = hdr ++ payload ++ more)
    (hL : length_of (blit (uninit w MAX_BT_HDR_SIZE) 0 hdr) = payload.length)
    (hoom : w.oom = false) :
    ∃ s2, avail s2 = more
      ∧ bt_case w src_fd dest_fd pb nvc hs length_of
          = bt_deliver (w.after_read src_fd s2 w.errno) dest_fd nvc (pb :: (hdr ++ payload))
              ((payload.length + hs + 1) % 2 ^ 16) := by
  unfold bt_case
  obtain ⟨s1, hr1, ha1, _⟩ := do_read_full w src_fd (uninit w MAX_BT_HDR_SIZE) 0 hs
    (by rw [hav]; simp; omega) (by simp; omega)
  have htk : (avail (w.rd src_fd)).take hs = hdr := by
    rw [hav, List.append_assoc]; exact List.take_left' hh
  have hdp : (avail (w.rd src_fd)).drop hs = payload ++ more := by
    rw [hav, List.append_assoc]; exact List.drop_left' hh
  rw [htk] at hr1
  rw [hdp] at ha1
  rw [hr1]
  have hn1 : ¬ (((hs : Nat) : Int) < 0) := by omega
  simp only [hn1, if_false, after_read_oom, hoom, Bool.false_eq_true, hL]
  have htake : (blit (uninit w MAX_BT_HDR_SIZE) 0 hdr).take hs = hdr := by
    rw [← hh]; exact blit_zero_take _ _
  rw [htake]
  obtain ⟨s2, hr2, ha2, _⟩ := do_read_full (w.after_read src_fd s1 w.errno) src_fd
    (blit ((List.replicate (payload.length + hs + 1) (0 : Byte)).set 0 pb) 1 hdr) (hs + 1)
    payload.length (by simp [ha1]) (by rw [blit_length] <;> simp <;> omega)
  simp only [after_read_rd_same, ha1, List.take_left', List.drop_left', after_read_errno,
    after_read_after_read] at hr2 ha2
  rw [hr2]
  have hn2 : ¬ (((payload.length : Nat) : Int) < 0) := by omega
  simp only [hn2, if_false]
  have hfb := frame_buffer pb hdr payload
  rw [hh] at hfb
  rw [hfb]
  exact ⟨s2, ha2, rfl⟩

theorem bt_deliver_absent (w : World) (dest_fd : Int) (nvc : Bool) (buf : List Byte) (n : Nat)
    (h : nvc = true ∨ w.remote_bt_fd = 0) : bt_deliver w dest_fd nvc buf n = (0, w) := by
  unfold bt_deliver
  rw [if_pos h]

theorem bt_deliver_rd (w : World) (dest_fd : Int) (nvc : Bool) (buf : List Byte) (n : Nat) :
    (bt_deliver w dest_fd nvc buf n).2.rd = w.rd :=
  (wr_step_rd dest_fd w _ (bt_deliver_wr_step w dest_fd nvc buf n)).1

/-- The reads of `copy_ant_data_to_channel` on a complete frame: the length
byte and the payload are taken off the source; the frame is dropped when no
ANT peer is recorded, else the length byte and the payload are written. -/
theorem copy_ant_channel_reads (w : World) (src_fd dest_fd : Int) (pb len : Byte)
    (payload more : List Byte) (hlen : payload.length = len.val)
    (hav : avail (w.rd src_fd) = len :: (payload ++ more)) (hoom : w.oom = false) :
    ∃ s2, avail s2 = more
      ∧ copy_ant_data_to_channel w src_fd dest_fd pb
          = (if w.remote_ant_fd = 0 then (0, w.after_read src_fd s2 w.errno)
             else
               match do_write ((w.after_read src_fd s2 w.errno).emit Event.lock) dest_fd
                 (len :: payload) (payload.length + 1) with
               | (ret, w3) =>
                 if ret < 0 then
                   if (w3.emit Event.unlock).errno = EPIPE ∨ (w3.emit Event.unlock).errno = EBADF
                   then (0, w3.emit Event.unlock) else (-1, w3.emit Event.unlock)
                 else (0, w3.emit Event.unlock)) := by
  unfold copy_ant_data_to_channel
  obtain ⟨s1, hr1, ha1, _⟩ := read_one w src_fd len (payload ++ more) hav
  rw [hr1]
  have hn1 : ¬ ((1 : Int) < 0) := by omega
  simp only [hn1, if_false, after_read_oom, hoom, Bool.false_eq_true, List.headD_cons]
  obtain ⟨s2, hr2, ha2, _⟩ := do_read_full (w.after_read src_fd s1 w.errno) src_fd
    (uninit (w.after_read src_fd s1 w.errno) (len.val + 2)) 2 len.val
    (by simp [ha1]; omega) (by simp; omega)
  simp only [after_read_rd_same, ha1, after_read_errno, after_read_after_read, ← hlen,
    List.take_left', List.drop_left'] at hr2 ha2
  rw [← hlen, hr2]
  have hn2 : ¬ (((payload.length : Nat) : Int) < 0) := by omega
  simp only [hn2, if_false, after_read_ant, Int.toNat_ofNat]
  refine ⟨s2, ha2, ?_⟩
  have hbuf : List.drop 1 (((blit (uninit (w.after_read src_fd s1 w.errno) (payload.length + 2)) 2
      payload).set 0 pb).set 1 len) = len :: payload := by
    have hu : (uninit (w.after_read src_fd s1 w.errno) (payload.length + 2)).length
        = payload.length + 2 := by simp
    generalize uninit (w.after_read src_fd s1 w.errno) (payload.length + 2) = u at hu
    match u, hu with
    | a :: b :: rest, hu =>
      have hr : rest.length = payload.length := by simpa using hu
      simp [blit, List.drop_of_length_le (Nat.le_of_eq hr)]
      omega
  rw [hbuf]
/-- The dispatch of `handle_soc_events` once a type byte has been read. -/
theorem handle_soc_events_dispatch (w : World) (t : Int) (pb : Byte) (rest : List Byte)
    (hav : avail (w.rd t) = pb :: rest) :
    ∃ s1, avail s1 = rest ∧ endsInError s1 = endsInError (w.rd t)
      ∧ handle_soc_events w t
          = (if pb = ANT_CTL_PACKET_TYPE ∨ pb = ANT_DATA_PACKET_TYPE then
              copy_ant_data_to_channel (w.after_read t s1 w.errno) t w.remote_ant_fd pb
            else if pb = BT_EVT_PACKET_TYPE ∨ pb = BT_ACL_PACKET_TYPE then
              copy_bt_data_to_channel (w.after_read t s1 w.errno) t w.remote_bt_fd pb SOC_TO_HOST
            else (0, tcflush (w.after_read t s1 w.errno) t)) := by
  obtain ⟨s1, hr1, ha1, he1⟩ := read_one w t pb rest hav
  refine ⟨s1, ha1, he1, ?_⟩
  unfold handle_soc_events
  rw [hr1]
  have hn1 : ¬ ((1 : Int) < 0) := by omega
  simp only [hn1, if_false, List.headD_cons, after_read_ant, after_read_bt]

theorem copy_bt_evt (w : World) (src_fd dest_fd direction : Int) :
    copy_bt_data_to_channel w src_fd dest_fd BT_EVT_PACKET_TYPE direction
      = bt_case w src_fd dest_fd BT_EVT_PACKET_TYPE (decide (dest_fd = 0)) BT_EVT_HDR_SIZE
          (fun hdr => (hdr.getD BT_EVT_HDR_LEN_OFFSET 0).val) := by
  unfold copy_bt_data_to_channel
  rw [if_neg (by decide), if_neg (by decide), if_pos rfl]

theorem copy_bt_acl (w : World) (src_fd dest_fd direction : Int) :
    copy_bt_data_to_channel w src_fd dest_fd BT_ACL_PACKET_TYPE direction
      = bt_case w src_fd dest_fd BT_ACL_PACKET_TYPE (decide (dest_fd = 0)) BT_ACL_HDR_SIZE
          acl_length := by
  unfold copy_bt_data_to_channel
  rw [if_pos rfl]

theorem acl_length_blit (w : World) (hdr : List Byte) (hh : hdr.length = BT_ACL_HDR_SIZE) :
    acl_length (blit (uninit w MAX_BT_HDR_SIZE) 0 hdr) = acl_length hdr := by
  unfold acl_length BT_ACL_HDR_LEN_OFFSET
  rw [blit_zero_getD _ _ 2 (by rw [hh]; decide), blit_zero_getD _ _ (2 + 1) (by rw [hh]; decide)]

/-- After a complete downlink frame `handle_soc_events` has taken exactly the
frame off the transport, whether or not a peer is recorded and whatever the
writes answer. -/
theorem handle_soc_events_consumes (w : World) (t : Int) (pb : Byte)
    (hdr payload more : List Byte) (hav : avail (w.rd t) = pb :: (hdr ++ payload ++ more))
    (hfr : downlink_frame pb hdr payload) (hoom : w.oom = false) :
    avail ((handle_soc_events w t).2.rd t) = more := by
  obtain ⟨s1, ha1, _, hd⟩ := handle_soc_events_dispatch w t pb _ hav
  rw [hd]
  rcases hfr with ⟨hp, hh, hl⟩ | ⟨hp, hh, hl⟩ | ⟨hp, hh, hl⟩
  · subst hp
    rw [if_neg (by decide), if_pos (by decide), copy_bt_evt]
    obtain ⟨s2, ha2, hb⟩ := bt_case_reads (w.after_read t s1 w.errno) t w.remote_bt_fd
      BT_EVT_PACKET_TYPE (decide (w.remote_bt_fd = 0)) BT_EVT_HDR_SIZE
      (fun hdr => (hdr.getD BT_EVT_HDR_LEN_OFFSET 0).val) hdr payload more (by decide) hh
      (by simp [ha1])
      (by simp only []; rw [blit_zero_getD _ _ _ (by rw [hh]; decide)]; exact hl)
      (by simp [hoom])
    rw [hb, bt_deliver_rd]
    simp [ha2]
  · subst hp
    rw [if_neg (by decide), if_pos (by decide), copy_bt_acl]
    obtain ⟨s2, ha2, hb⟩ := bt_case_reads (w.after_read t s1 w.errno) t w.remote_bt_fd
      BT_ACL_PACKET_TYPE (decide (w.remote_bt_fd = 0)) BT_ACL_HDR_SIZE acl_length hdr payload
      more (by decide) hh (by simp [ha1])
      (by rw [acl_length_blit _ _ hh]; exact hl) (by simp [hoom])
    rw [hb, bt_deliver_rd]
    simp [ha2]
  · rw [if_pos hp]
    obtain ⟨len, hhdr⟩ : ∃ len, hdr = [len] := by
      match hdr, hh with
      | [a], _ => exact ⟨a, rfl⟩
    subst hhdr
    obtain ⟨s2, ha2, hb⟩ := copy_ant_channel_reads (w.after_read t s1 w.errno) t
      w.remote_ant_fd pb len payload more (by simpa using hl.symm) (by simp [ha1])
      (by simp [hoom])
    rw [hb]
    split_ifs with h0
    · simp [ha2]
    · have hws := do_write_wr_step
        (((w.after_read t s1 w.errno).after_read t s2 (w.after_read t s1 w.errno).errno).emit
          Event.lock) w.remote_ant_fd (len :: payload) (payload.length + 1)
      rcases hr3 : do_write
        (((w.after_read t s1 w.errno).after_read t s2 (w.after_read t s1 w.errno).errno).emit
          Event.lock) w.remote_ant_fd (len :: payload) (payload.length + 1) with ⟨r3, w3⟩
      rw [hr3] at hws
      have hrd := (wr_step_rd _ _ _ hws).1
      have hfin : avail ((w3.emit Event.unlock).rd t) = more := by
        simp only [emit_rd]
        rw [hrd]
        simpa using ha2
      simp only []
      split_ifs <;> exact hfin

/-- C12: absent-peer safety. For every complete downlink frame (EVT or ACL with
no BT peer recorded, ANT with no ANT peer recorded) read from the transport
while allocation succeeds, handle_soc_events returns 0, logs no action at all
(nothing is written to any peer) and has taken exactly type byte, header and
declared payload off the transport, so that the next byte to be read is the
type byte of the following frame; the same bytes are taken off the transport
when the peer handles have any other values `p` and `q`. -/
theorem handle_soc_events_absent_peer (w : World) (t p q : Int) (pb : Byte)
    (hdr payload more : List Byte) (hav : avail (w.rd t) = pb :: (hdr ++ payload ++ more))
    (hfr : downlink_frame pb hdr payload)
    (habs : ((pb = BT_EVT_PACKET_TYPE ∨ pb = BT_ACL_PACKET_TYPE) ∧ w.remote_bt_fd = 0)
      ∨ ((pb = ANT_CTL_PACKET_TYPE ∨ pb = ANT_DATA_PACKET_TYPE) ∧ w.remote_ant_fd = 0))
    (hoom : w.oom = false) :
    (handle_soc_events w t).1 = 0
    ∧ (handle_soc_events w t).2.log = w.log
    ∧ avail ((handle_soc_events w t).2.rd t) = more
    ∧ avail ((handle_soc_events { w with remote_bt_fd := p, remote_ant_fd := q } t).2.rd t)
        = more := by
  refine ⟨?_, ?_, handle_soc_events_consumes w t pb hdr payload more hav hfr hoom,
    handle_soc_events_consumes { w with remote_bt_fd := p, remote_ant_fd := q } t pb hdr payload
      more hav hfr hoom⟩
  all_goals
    obtain ⟨s1, ha1, _, hd⟩ := handle_soc_events_dispatch w t pb _ hav
    rw [hd]
    rcases hfr with ⟨hp, hh, hl⟩ | ⟨hp, hh, hl⟩ | ⟨hp, hh, hl⟩
    · subst hp
      have hbt : w.remote_bt_fd = 0 := by
        rcases habs with ⟨_, h⟩ | ⟨h, _⟩
        · exact h
        · rcases h with h | h <;> exact absurd h (by decide)
      rw [if_neg (by decide), if_pos (by decide), copy_bt_evt]
      obtain ⟨s2, ha2, hb⟩ := bt_case_reads (w.after_read t s1 w.errno) t w.remote_bt_fd
        BT_EVT_PACKET_TYPE (decide (w.remote_bt_fd = 0)) BT_EVT_HDR_SIZE
        (fun hdr => (hdr.getD BT_EVT_HDR_LEN_OFFSET 0).val) hdr payload more (by decide) hh
        (by simp [ha1])
        (by simp only []; rw [blit_zero_getD _ _ _ (by rw [hh]; decide)]; exact hl)
        (by simp [hoom])
      rw [hb, bt_deliver_absent _ _ _ _ _ (Or.inr (by simp [hbt]))]
      try simp
    · subst hp
      have hbt : w.remote_bt_fd = 0 := by
        rcases habs with ⟨_, h⟩ | ⟨h, _⟩
        · exact h
        · rcases h with h | h <;> exact absurd h (by decide)
      rw [if_neg (by decide), if_pos (by decide), copy_bt_acl]
      obtain ⟨s2, ha2, hb⟩ := bt_case_reads (w.after_read t s1 w.errno) t w.remote_bt_fd
        BT_ACL_PACKET_TYPE (decide (w.remote_bt_fd = 0)) BT_ACL_HDR_SIZE acl_length hdr payload
        more (by decide) hh (by simp [ha1])
        (by rw [acl_length_blit _ _ hh]; exact hl) (by simp [hoom])
      rw [hb, bt_deliver_absent _ _ _ _ _ (Or.inr (by simp [hbt]))]
      try simp
    · have hant : w.remote_ant_fd = 0 := by
        rcases habs with ⟨h, _⟩ | ⟨_, h⟩
        · rcases h with h | h <;> rcases hp with hp | hp <;> rw [hp] at h <;>
            exact absurd h (by decide)
        · exact h
      rw [if_pos hp]
      obtain ⟨len, hhdr⟩ : ∃ len, hdr = [len] := by
        match hdr, hh with
        | [a], _ => exact ⟨a, rfl⟩
      subst hhdr
      obtain ⟨s2, ha2, hb⟩ := copy_ant_channel_reads (w.after_read t s1 w.errno) t
        w.remote_ant_fd pb len payload more (by simpa using hl.symm) (by simp [ha1])
        (by simp [hoom])
      rw [hb, if_pos (by simp [hant])]
      try simp
/-- C12, witness: the transport delivers 0e 02 11 22 04 01 01 05 while no ANT
peer is recorded: the ANT frame is dropped and 04 01 01 05 is left to be read. -/
theorem handle_soc_events_absent_peer_witness :
    (handle_soc_events
        (world_transport [ReadEv.data [0x0e, 0x02, 0x11, 0x22, 0x04, 0x01, 0x01, 0x05]]) 3).1 = 0
    ∧ (handle_soc_events
        (world_transport [ReadEv.data [0x0e, 0x02, 0x11, 0x22, 0x04, 0x01, 0x01, 0x05]]) 3).2.log
        = (world_transport [ReadEv.data [0x0e, 0x02, 0x11, 0x22, 0x04, 0x01, 0x01, 0x05]]).log
    ∧ avail ((handle_soc_events
        (world_transport [ReadEv.data [0x0e, 0x02, 0x11, 0x22, 0x04, 0x01, 0x01, 0x05]])
          3).2.rd 3) = [0x04, 0x01, 0x01, 0x05]
    ∧ avail ((handle_soc_events
        { world_transport [ReadEv.data [0x0e, 0x02, 0x11, 0x22, 0x04, 0x01, 0x01, 0x05]] with
          remote_bt_fd := 5, remote_ant_fd := 6 } 3).2.rd 3) = [0x04, 0x01, 0x01, 0x05] :=
  handle_soc_events_absent_peer
    (world_transport [ReadEv.data [0x0e, 0x02, 0x11, 0x22, 0x04, 0x01, 0x01, 0x05]]) 3 5 6
    ANT_DATA_PACKET_TYPE [0x02] [0x11, 0x22] [0x04, 0x01, 0x01, 0x05] (by decide)
    (Or.inr (Or.inr ⟨Or.inr rfl, rfl, by decide⟩)) (Or.inr ⟨Or.inr rfl, rfl⟩) rfl

/-- Scenario S6: the transport delivers 0e 02 11 22 04 01 01 05 while the BT
peer (descriptor 5) is present and no ANT peer is. Two calls of
handle_soc_events, and likewise the reader loop, drop the ANT frame and write
04 01 01 05 to the BT peer, and nothing else. -/
theorem scenario_S6 :
    (handle_soc_events (handle_soc_events
        (world_transport [ReadEv.data [0x0e, 0x02, 0x11, 0x22, 0x04, 0x01, 0x01, 0x05]])
          3).2 3).2.log
      = [Event.lock, Event.write 5 [0x04, 0x01, 0x01, 0x05] 4, Event.unlock]
    ∧ (reader_loop 3
        (world_transport [ReadEv.data [0x0e, 0x02, 0x11, 0x22, 0x04, 0x01, 0x01, 0x05],
          ReadEv.fail 5])).map (fun r => (r.1, written 5 r.2.log, written 0 r.2.log))
      = some (-1, [0x04, 0x01, 0x01, 0x05], []) := by
  constructor <;> decide

/-! ## C13: unknown type bytes from the transport -/

@[simp] theorem set_rd_log (w : World) (fd : Int) (s : RdState) :
    (w.set_rd fd s).log = w.log := rfl

/-- C13: for every first byte read from the transport that is none of 0x04,
0x02, 0x0c, 0x0e (so also for 0x01, 0x03 and 0x77), handle_soc_events returns
0, its only action is `tcflush(fd, TCIFLUSH)` on the transport, after which no
received byte is left queued, and nothing is written to any descriptor `fd`.
In the reader loop of start_reader_thread, entered in state `w0` with `select`
reporting the transport ready, the result 0 makes the loop go on with its next
round instead of ending. -/
theorem handle_soc_events_unknown_type (w0 w : World) (t fd n : Int) (fuel : Nat) (b : Byte)
    (rest : List Byte) (hav : avail (w.rd t) = b :: rest)
    (hb : b ≠ BT_EVT_PACKET_TYPE ∧ b ≠ BT_ACL_PACKET_TYPE ∧ b ≠ ANT_CTL_PACKET_TYPE
      ∧ b ≠ ANT_DATA_PACKET_TYPE)
    (hsel : select w0 w0.fd_transport = (n, w)) (hn : 0 < n) (ht : w.fd_transport = t)
    (hfd : 0 ≤ t) :
    (handle_soc_events w t).1 = 0
    ∧ (handle_soc_events w t).2.log = w.log ++ [Event.tcflush t]
    ∧ ((handle_soc_events w t).2.rd t).queued = []
    ∧ write_calls fd (handle_soc_events w t).2.log = write_calls fd w.log
    ∧ written fd (handle_soc_events w t).2.log = written fd w.log
    ∧ reader_loop (fuel + 1) w0 = reader_loop fuel (handle_soc_events w t).2 := by
  subst ht
  obtain ⟨s1, _, _, hd⟩ := handle_soc_events_dispatch w w.fd_transport b rest hav
  have hant : ¬ (b = ANT_CTL_PACKET_TYPE ∨ b = ANT_DATA_PACKET_TYPE) := by tauto
  have hbt : ¬ (b = BT_EVT_PACKET_TYPE ∨ b = BT_ACL_PACKET_TYPE) := by tauto
  rw [if_neg hant, if_neg hbt] at hd
  have hloop : reader_loop (fuel + 1) w0
      = reader_loop fuel (handle_soc_events w w.fd_transport).2 := by
    have h1 : ¬ n < 0 := by omega
    have h2 : ¬ w.fd_transport < 0 := by omega
    simp only [reader_loop, hsel, h1, if_false, h2, gt_iff_lt, hn, if_true, hd]
    simp
  rw [hd] at hloop ⊢
  refine ⟨rfl, ?_, ?_, ?_, ?_, hloop⟩
  · simp [tcflush]
  · simp [tcflush, World.emit, World.set_rd]
  · simp [tcflush, write_calls_append, write_calls]
  · simp [tcflush, written_append, written, Event.accepted]

/-- C13, witness: the transport delivers 77 aa bb (scenario S7): the input is
flushed, no peer receives anything and the reader loop goes on. -/
theorem handle_soc_events_unknown_type_witness :
    (handle_soc_events (world_both_peers [ReadEv.data [0x77, 0xaa, 0xbb]]) 3).1 = 0
    ∧ (handle_soc_events (world_both_peers [ReadEv.data [0x77, 0xaa, 0xbb]]) 3).2.log
        = (world_both_peers [ReadEv.data [0x77, 0xaa, 0xbb]]).log ++ [Event.tcflush 3]
    ∧ ((handle_soc_events (world_both_peers [ReadEv.data [0x77, 0xaa, 0xbb]]) 3).2.rd 3).queued
        = []
    ∧ write_calls 5 (handle_soc_events (world_both_peers [ReadEv.data [0x77, 0xaa, 0xbb]])
          3).2.log
        = write_calls 5 (world_both_peers [ReadEv.data [0x77, 0xaa, 0xbb]]).log
    ∧ written 5 (handle_soc_events (world_both_peers [ReadEv.data [0x77, 0xaa, 0xbb]]) 3).2.log
        = written 5 (world_both_peers [ReadEv.data [0x77, 0xaa, 0xbb]]).log
    ∧ reader_loop (2 + 1) (world_both_peers [ReadEv.data [0x77, 0xaa, 0xbb]])
        = reader_loop 2
            (handle_soc_events (world_both_peers [ReadEv.data [0x77, 0xaa, 0xbb]]) 3).2 :=
  handle_soc_events_unknown_type (world_both_peers [ReadEv.data [0x77, 0xaa, 0xbb]])
    (world_both_peers [ReadEv.data [0x77, 0xaa, 0xbb]]) 3 5 1 2 0x77 [0xaa, 0xbb] (by decide)
    (by decide) rfl (by decide) rfl (by decide)

/-- Scenario S7 and the type bytes 01 and 03 on the downlink: in each case the
only action is the flush; after 77 aa bb nothing is left to read. -/
theorem scenario_S7 :
    (handle_soc_events (world_both_peers [ReadEv.data [0x77, 0xaa, 0xbb]]) 3).2.log
        = [Event.tcflush 3]
    ∧ avail ((handle_soc_events (world_both_peers [ReadEv.data [0x77, 0xaa, 0xbb]]) 3).2.rd 3)
        = []
    ∧ (handle_soc_events (world_both_peers [ReadEv.data [0x01, 0x03, 0x0c, 0x00]]) 3).2.log
        = [Event.tcflush 3]
    ∧ (handle_soc_events (world_both_peers [ReadEv.data [0x03, 0x2a, 0x00, 0x00]]) 3).2.log
        = [Event.tcflush 3] := by
  refine ⟨?_, ?_, ?_, ?_⟩ <;> decide

/-! ## C14: a rejected peer is never served -/

/-- C14: credential enforcement. For every peer that establish_remote_socket
rejects on its credentials (uid of 2^31 or more, or effective uid not in
{0, 1000, 1002}), the endpoint thread returns without ever calling the handler:
its only actions are closing the listening socket and the peer, no descriptor
is read (the peer's bytes stay unread), no `write` is issued on any descriptor
`fd` (so nothing reaches the transport), and the peer handle it publishes is
-1, not the peer's descriptor. -/
theorem rejected_peer_is_never_served (name : SockName) (fuel : Nat) (w : World) (fd : Int)
    (c : Conn) (rest : List Conn) (hc : w.conns name = c :: rest) (hsock : 0 ≤ c.sock_id)
    (hbind : 0 ≤ c.bind_ret) (hlisten : c.listen_ret = 0) (hacc : 0 < c.accept_fd)
    (hopt : 0 ≤ c.getsockopt_ret) (huid : c.uid < 2 ^ 32)
    (hrej : ¬ (c.uid < 2 ^ 31 ∧ spec_admits c.uid = true)) :
    (endpoint_thread name (fuel + 1) w).1 = Outcome.returned (-1)
    ∧ (endpoint_thread name (fuel + 1) w).2.log
        = w.log ++ [Event.close c.sock_id, Event.close c.accept_fd]
    ∧ (endpoint_thread name (fuel + 1) w).2.rd = w.rd
    ∧ write_calls fd (endpoint_thread name (fuel + 1) w).2.log = write_calls fd w.log
    ∧ written fd (endpoint_thread name (fuel + 1) w).2.log = written fd w.log
    ∧ peer_handle name (endpoint_thread name (fuel + 1) w).2 = -1
    ∧ peer_handle name (endpoint_thread name (fuel + 1) w).2 ≠ c.accept_fd := by
  have heq := establish_remote_socket_eq w name c rest hc hsock hbind hlisten hacc hopt
  rw [if_pos ((c_uid_rejected_iff c.uid huid).mpr hrej)] at heq
  have hne : (-1 : Int) ≠ c.accept_fd := by omega
  cases name with
  | BT_SOCK =>
    simp only [endpoint_thread, bt_thread, heq, peer_handle]
    simp [close, World.emit, write_calls_append, write_calls, written_append, written,
      Event.accepted, hne]
  | ANT_SOCK =>
    simp only [endpoint_thread, ant_thread, heq, peer_handle]
    simp [close, World.emit, write_calls_append, write_calls, written_append, written,
      Event.accepted, hne]

/-- C14, witness: a peer with uid 10020 connects to bt_sock with the command
01 03 0c 00 ready: bt_thread returns, the command is never read nor forwarded. -/
theorem rejected_peer_is_never_served_witness :
    (endpoint_thread SockName.BT_SOCK (3 + 1) world_rejected_peer).1 = Outcome.returned (-1)
    ∧ (endpoint_thread SockName.BT_SOCK (3 + 1) world_rejected_peer).2.log
        = world_rejected_peer.log
          ++ [Event.close (peer_conn 10020).sock_id, Event.close (peer_conn 10020).accept_fd]
    ∧ (endpoint_thread SockName.BT_SOCK (3 + 1) world_rejected_peer).2.rd
        = world_rejected_peer.rd
    ∧ write_calls 3 (endpoint_thread SockName.BT_SOCK (3 + 1) world_rejected_peer).2.log
        = write_calls 3 world_rejected_peer.log
    ∧ written 3 (endpoint_thread SockName.BT_SOCK (3 + 1) world_rejected_peer).2.log
        = written 3 world_rejected_peer.log
    ∧ peer_handle SockName.BT_SOCK
        (endpoint_thread SockName.BT_SOCK (3 + 1) world_rejected_peer).2 = -1
    ∧ peer_handle SockName.BT_SOCK
        (endpoint_thread SockName.BT_SOCK (3 + 1) world_rejected_peer).2
        ≠ (peer_conn 10020).accept_fd :=
  rejected_peer_is_never_served SockName.BT_SOCK 3 world_rejected_peer 3 (peer_conn 10020) []
    rfl (by decide) (by decide) rfl (by decide) (by decide) (by decide) (by decide)

/-! ## C15: a write that returns zero -/

theorem write_wrote (w : World) (fd : Int) (offered : List Byte) (k : Nat)
    (rest : List WriteEv) (h : w.wr fd = WriteEv.wrote k :: rest) :
    write w fd offered
      = (((k : Nat) : Int), (w.set_wr fd rest).emit (Event.write fd offered ((k : Nat) : Int))) := by
  unfold write
  rw [h]

theorem do_write_loop_zero (fd : Int) (buf : List Byte) (len : Nat) (rest : List WriteEv) :
    ∀ (rs : List Nat) (fuel : Nat) (w : World) (off write_len : Nat),
      w.wr fd = rs.map WriteEv.wrote ++ WriteEv.wrote 0 :: rest →
      (∀ r ∈ rs, 0 < r) → rs.sum < write_len → write_len < fuel → write_len ≤ len →
      (do_write_loop fd buf len fuel w off write_len).1
        = ((len - write_len + rs.sum : Nat) : Int) := by
  intro rs
  induction rs with
  | nil =>
    intro fuel w off write_len hwr _ _ hfuel _
    cases fuel with
    | zero => omega
    | succ fuel =>
      unfold do_write_loop
      rw [write_wrote w fd _ 0 rest (by simpa using hwr)]
      simp
  | cons r rs ih =>
    intro fuel w off write_len hwr hpos hsum hfuel hlen
    have hr : 0 < r := hpos r (List.mem_cons_self _ _)
    simp only [List.sum_cons] at hsum
    cases fuel with
    | zero => omega
    | succ fuel =>
      unfold do_write_loop
      rw [write_wrote w fd _ r (rs.map WriteEv.wrote ++ WriteEv.wrote 0 :: rest)
        (by simpa using hwr)]
      have h1 : ¬ ((r : Int) < 0) := by omega
      have h2 : ¬ ((r : Int) = 0) := by omega
      have h3 : (r : Int) < (write_len : Int) := by omega
      simp only [h1, h2, h3, if_false, if_true, Int.toNat_ofNat]
      rw [ih fuel _ r (write_len - r) (by simp [World.emit, World.set_wr])
        (fun x hx => hpos x (List.mem_cons_of_mem _ hx)) (by omega) (by omega) (by omega)]
      simp only [List.sum_cons]
      congr 1
      omega

/-- C15, as amended: in do_write a `write` call returning zero makes do_write
return the count written so far, whatever that count is: after write results
r1, ..., rk (each positive, together less than len) followed by a result 0,
do_write returns r1 + ... + rk. With no byte written (k = 0) this is 0, which
is not negative: it is no error result. -/
theorem do_write_zero_returns_count (w : World) (fd : Int) (buf : List Byte) (len : Nat)
    (rs : List Nat) (rest : List WriteEv)
    (hscript : w.wr fd = rs.map WriteEv.wrote ++ WriteEv.wrote 0 :: rest)
    (hpos : ∀ r ∈ rs, 0 < r) (hsum : rs.sum < len) :
    (do_write w fd buf len).1 = ((rs.sum : Nat) : Int)
    ∧ ¬ ((do_write w fd buf len).1 < 0) := by
  have h := do_write_loop_zero fd buf len rest rs (len + 1) w 0 len hscript hpos hsum
    (by omega) (by omega)
  unfold do_write
  rw [h]
  constructor
  · congr 1; omega
  · omega

/-- C15, witness: six bytes offered, the descriptor takes 2, then 3, then
returns 0: do_write returns 5. -/
theorem do_write_zero_returns_count_witness :
    (do_write (world_clients [] [] [WriteEv.wrote 2, WriteEv.wrote 3, WriteEv.wrote 0]) 3
        [0x00, 0x01, 0x02, 0x03, 0x04, 0x05] 6).1 = ((([2, 3] : List Nat).sum : Nat) : Int)
    ∧ ¬ ((do_write (world_clients [] [] [WriteEv.wrote 2, WriteEv.wrote 3, WriteEv.wrote 0]) 3
        [0x00, 0x01, 0x02, 0x03, 0x04, 0x05] 6).1 < 0) :=
  do_write_zero_returns_count
    (world_clients [] [] [WriteEv.wrote 2, WriteEv.wrote 3, WriteEv.wrote 0]) 3
    [0x00, 0x01, 0x02, 0x03, 0x04, 0x05] 6 [2, 3] [] (by decide) (by decide) (by decide)

/-- C15, counterexample: the first `write` on the transport returns 0, no byte
has been written. do_write returns 0, which is not negative; its caller
copy_bt_data_to_channel tests `retval < 0`, takes the success path and returns
0 for the command 01 03 0c 00, as does copy_ant_host_data_to_soc for the ANT
frame 0e 02 11 22: the result is not reported as an error. -/
theorem do_write_zero_first_is_no_error :
    (do_write (world_clients [] [] [WriteEv.wrote 0]) 3 [0x01, 0x03, 0x0c, 0x00] 4).1 = 0
    ∧ ¬ ((do_write (world_clients [] [] [WriteEv.wrote 0]) 3 [0x01, 0x03, 0x0c, 0x00] 4).1 < 0)
    ∧ (copy_bt_data_to_channel
        (world_clients [ReadEv.data [0x03, 0x0c, 0x00]] [] [WriteEv.wrote 0]) 5 3
        BT_CMD_PACKET_TYPE HOST_TO_SOC).1 = 0
    ∧ written 3 (copy_bt_data_to_channel
        (world_clients [ReadEv.data [0x03, 0x0c, 0x00]] [] [WriteEv.wrote 0]) 5 3
        BT_CMD_PACKET_TYPE HOST_TO_SOC).2.log = []
    ∧ (copy_ant_host_data_to_soc
        (world_clients [] [ReadEv.data [0x02, 0x11, 0x22]] [WriteEv.wrote 0]) 6 3
        ANT_DATA_PACKET_TYPE).1 = 0 := by
  refine ⟨?_, ?_, ?_, ?_, ?_⟩ <;> decide

/-! ## C16: the sentinel 0xee -/

/-- The dispatch of `handle_command_writes` once a type byte has been read. -/
theorem handle_command_writes_dispatch (w : World) (fd : Int) (pb : Byte) (rest : List Byte)
    (hav : avail (w.rd fd) = pb :: rest) :
    ∃ s1, avail s1 = rest ∧ endsInError s1 = endsInError (w.rd fd)
      ∧ handle_command_writes w fd
          = (if pb = ANT_CTL_PACKET_TYPE ∨ pb = ANT_DATA_PACKET_TYPE then
              (0, (copy_ant_host_data_to_soc (w.after_read fd s1 w.errno) fd w.fd_transport
                pb).2)
            else if pb = BT_EVT_PACKET_TYPE ∨ pb = BT_ACL_PACKET_TYPE
                ∨ pb = BT_CMD_PACKET_TYPE then
              (0, (copy_bt_data_to_channel (w.after_read fd s1 w.errno) fd w.fd_transport pb
                HOST_TO_SOC).2)
            else (0, w.after_read fd s1 w.errno)) := by
  obtain ⟨s1, hr1, ha1, he1⟩ := read_one w fd pb rest hav
  refine ⟨s1, ha1, he1, ?_⟩
  unfold handle_command_writes
  rw [hr1]
  have hn1 : ¬ ((1 : Int) < 0) := by omega
  have hn2 : ¬ ((1 : Int) = 0) := by omega
  simp only [hn1, hn2, if_false, List.headD_cons, after_read_transport]
  split_ifs <;> rfl

/-- C16: when the type byte read from a client is the sentinel 0xee,
handle_command_writes takes only that byte off the client's stream, performs no
action (nothing is written to the transport) and returns 0; in the handler loop
of the endpoint thread, entered in state `w0` with `select` reporting the
descriptor ready, the loop goes on with its next round, which reads the next
type byte. -/
theorem handle_command_writes_sentinel (w0 w : World) (fd n : Int) (fuel : Nat)
    (more : List Byte) (hav : avail (w.rd fd) = BT_SSR_TRIGGERED :: more)
    (hsel : select w0 fd = (n, w)) (hn : 0 < n) :
    (handle_command_writes w fd).1 = 0
    ∧ (handle_command_writes w fd).2.log = w.log
    ∧ avail ((handle_command_writes w fd).2.rd fd) = more
    ∧ serve_loop fd (fuel + 1) w0 = serve_loop fd fuel (handle_command_writes w fd).2 := by
  obtain ⟨s1, ha1, _, hd⟩ := handle_command_writes_dispatch w fd BT_SSR_TRIGGERED more hav
  rw [if_neg (by decide), if_neg (by decide)] at hd
  have hloop : serve_loop fd (fuel + 1) w0 = serve_loop fd fuel (handle_command_writes w fd).2 := by
    have h1 : ¬ n < 0 := by omega
    simp only [serve_loop, hsel, h1, if_false, gt_iff_lt, hn, if_true, hd]
    simp
  rw [hd] at hloop ⊢
  exact ⟨rfl, by simp, by simp [ha1], hloop⟩

/-- C16, witness: the BT client sends ee 01 03 0c 00: the sentinel is taken
off, nothing is written, and 01 03 0c 00 is next. -/
theorem handle_command_writes_sentinel_witness :
    (handle_command_writes (world_bt_client [ReadEv.data [0xee, 0x01, 0x03, 0x0c, 0x00]]) 5).1 = 0
    ∧ (handle_command_writes
        (world_bt_client [ReadEv.data [0xee, 0x01, 0x03, 0x0c, 0x00]]) 5).2.log
        = (world_bt_client [ReadEv.data [0xee, 0x01, 0x03, 0x0c, 0x00]]).log
    ∧ avail ((handle_command_writes
        (world_bt_client [ReadEv.data [0xee, 0x01, 0x03, 0x0c, 0x00]]) 5).2.rd 5)
        = [0x01, 0x03, 0x0c, 0x00]
    ∧ serve_loop 5 (3 + 1) (world_bt_client [ReadEv.data [0xee, 0x01, 0x03, 0x0c, 0x00]])
        = serve_loop 5 3 (handle_command_writes
            (world_bt_client [ReadEv.data [0xee, 0x01, 0x03, 0x0c, 0x00]]) 5).2 :=
  handle_command_writes_sentinel (world_bt_client [ReadEv.data [0xee, 0x01, 0x03, 0x0c, 0x00]])
    (world_bt_client [ReadEv.data [0xee, 0x01, 0x03, 0x0c, 0x00]]) 5 1 3
    [0x01, 0x03, 0x0c, 0x00] (by decide) rfl (by decide)

/-- The sentinel inside a session: of ee 01 03 0c 00 only the command reaches
the transport. -/
theorem sentinel_then_command :
    (serve_loop 5 4 (world_bt_client [ReadEv.data [0xee, 0x01, 0x03, 0x0c, 0x00]])).map
        (fun w1 => w1.log)
      = some [Event.lock, Event.write 3 [0x01, 0x03, 0x0c, 0x00] 4, Event.unlock] := by
  decide

/-! ## C17: the reference count -/

theorem property_writes_append (key : PropKey) (l1 l2 : List Event) :
    property_writes key (l1 ++ l2) = property_writes key l1 ++ property_writes key l2 := by
  induction l1 with
  | nil => rfl
  | cons e es ih =>
    cases e <;> simp [property_writes, ih]
    split_ifs <;> simp

theorem exit_calls_append (l1 l2 : List Event) :
    exit_calls (l1 ++ l2) = exit_calls l1 ++ exit_calls l2 := by
  induction l1 with
  | nil => rfl
  | cons e es ih => cases e <;> simp [exit_calls, ih]

/-- What `ref_count_update` leaves alone: the peer handles and every property
but `ref_count`; it sets no other property and does not exit. -/
theorem ref_count_update_frame (w : World) :
    (ref_count_update w).remote_bt_fd = w.remote_bt_fd
    ∧ (ref_count_update w).remote_ant_fd = w.remote_ant_fd
    ∧ (∀ k, k ≠ PropKey.ref_count → (ref_count_update w).props k = w.props k)
    ∧ (∀ k, k ≠ PropKey.ref_count →
        property_writes k (ref_count_update w).log = property_writes k w.log)
    ∧ exit_calls (ref_count_update w).log = exit_calls w.log := by
  unfold ref_count_update
  simp only []
  split_ifs
  · refine ⟨rfl, rfl, ?_, ?_, ?_⟩
    · intro k hk; simp [property_set, hk]
    · intro k hk
      simp [property_set, property_writes_append, property_writes, Ne.symm hk]
    · simp [property_set, exit_calls_append, exit_calls]
  · exact ⟨rfl, rfl, fun _ _ => rfl, fun _ _ => rfl, rfl⟩
  · exact ⟨rfl, rfl, fun _ _ => rfl, fun _ _ => rfl, rfl⟩

/-- `handle_cleanup` in two steps: the reference count, then the exit test of
lines 958-974. -/
theorem handle_cleanup_eq (w : World) :
    handle_cleanup w
      = (if w.remote_bt_fd = 0 ∧ w.remote_ant_fd = 0 then
          if property_get w PropKey.hci_filter_status "0" = "0" then (ref_count_update w, false)
          else
            ((property_set (property_set (ref_count_update w) PropKey.hci_filter_status "0")
              PropKey.start_hci "false").emit (Event.exit 0), true)
        else (ref_count_update w, false)) := by
  obtain ⟨h1, h2, h3, _, _⟩ := ref_count_update_frame w
  have hget : property_get (ref_count_update w) PropKey.hci_filter_status "0"
      = property_get w PropKey.hci_filter_status "0" := by
    unfold property_get
    rw [h3 _ (by decide)]
  rw [← h1, ← h2, ← hget]
  rfl
theorem decimal_small (r : Nat) (h1 : 1 ≤ r) (h2 : r ≤ 100) :
    atoi (toString r) = (r : Int) ∧ snprintf_d 3 ((r : Int) - 1) = toString (r - 1)
      ∧ toString r ≠ "" := by
  interval_cases r <;> decide
theorem handle_cleanup_ref_count (w : World) :
    property_writes PropKey.ref_count (handle_cleanup w).1.log
        = property_writes PropKey.ref_count (ref_count_update w).log
    ∧ (handle_cleanup w).1.props PropKey.ref_count
        = (ref_count_update w).props PropKey.ref_count := by
  rw [handle_cleanup_eq]
  split_ifs
  · exact ⟨rfl, rfl⟩
  · constructor
    · simp [property_set, World.emit, property_writes_append, property_writes]
    · simp [property_set, World.emit]
  · exact ⟨rfl, rfl⟩

/-- C17, as amended: on each endpoint disconnect handle_cleanup decrements the
reference count by one when the clean_up flag reads 0: for every stored
reference count r with 1 <= r <= 100 (so that r - 1 fits in the two characters
that `snprintf(ref_count, 3, "%d", ref_val)` leaves room for), the one value
written to vendor.wc_transport.ref_count is the decimal representation of
r - 1; when clean_up reads non-zero nothing is written to it. -/
theorem handle_cleanup_decrements_ref_count (w : World) (r : Nat) (hr1 : 1 ≤ r)
    (hr2 : r ≤ 100) (hstored : w.props PropKey.ref_count = toString r) :
    property_writes PropKey.ref_count (handle_cleanup w).1.log
        = property_writes PropKey.ref_count w.log
          ++ (if atoi (property_get w PropKey.clean_up "0") = 0 then [toString (r - 1)] else [])
    ∧ (handle_cleanup w).1.props PropKey.ref_count
        = (if atoi (property_get w PropKey.clean_up "0") = 0 then toString (r - 1)
           else toString r) := by
  obtain ⟨hat, hsn, hne⟩ := decimal_small r hr1 hr2
  obtain ⟨h1, h2⟩ := handle_cleanup_ref_count w
  rw [h1, h2]
  have hget : property_get w PropKey.ref_count "0" = toString r := by
    unfold property_get
    rw [hstored, if_neg hne]
  unfold ref_count_update
  simp only [hget, hat]
  have hpos : (r : Int) > 0 := by omega
  split_ifs with hclean
  · simp [property_set, property_writes_append, property_writes, hsn]
  · simp [hstored]

/-- C17, witness: the stored count 100 with clean_up "0" becomes "99". -/
theorem handle_cleanup_decrements_ref_count_witness :
    property_writes PropKey.ref_count (handle_cleanup (world_props "100" "0" "" 5 6)).1.log
        = property_writes PropKey.ref_count (world_props "100" "0" "" 5 6).log
          ++ (if atoi (property_get (world_props "100" "0" "" 5 6) PropKey.clean_up "0") = 0
              then [toString (100 - 1)] else [])
    ∧ (handle_cleanup (world_props "100" "0" "" 5 6)).1.props PropKey.ref_count
        = (if atoi (property_get (world_props "100" "0" "" 5 6) PropKey.clean_up "0") = 0
            then toString (100 - 1) else toString 100) :=
  handle_cleanup_decrements_ref_count (world_props "100" "0" "" 5 6) 100 (by decide) (by decide)
    (by decide)

/-- C17, counterexample: the stored count is 101 and clean_up is "0". The
decremented value 100 fits in 3 ASCII characters, but
`snprintf(ref_count, 3, "%d", ref_val)` keeps two characters and the
terminator: the value written is "10", not "100"; read back it is the count 10.
With the stored count 1000 the value written is "99". -/
theorem handle_cleanup_writes_two_characters :
    property_writes PropKey.ref_count (handle_cleanup (world_props "101" "0" "" 5 6)).1.log
        = ["10"]
    ∧ toString (101 - 1) = "100"
    ∧ atoi ((handle_cleanup (world_props "101" "0" "" 5 6)).1.props PropKey.ref_count) = 10
    ∧ property_writes PropKey.ref_count (handle_cleanup (world_props "1000" "0" "" 5 6)).1.log
        = ["99"] := by
  refine ⟨?_, ?_, ?_, ?_⟩ <;> decide

/-- The reference count in further cases: clean_up "1" writes nothing; a stored
count 1 becomes "0"; an unset clean_up reads as 0. -/
theorem ref_count_examples :
    property_writes PropKey.ref_count (handle_cleanup (world_props "7" "1" "" 5 6)).1.log = []
    ∧ property_writes PropKey.ref_count (handle_cleanup (world_props "1" "0" "" 5 6)).1.log
        = ["0"]
    ∧ property_writes PropKey.ref_count (handle_cleanup (world_props "7" "" "" 5 6)).1.log
        = ["6"] := by
  refine ⟨?_, ?_, ?_⟩ <;> decide

/-! ## C18: when handle_cleanup ends the process -/

/-- C18: handle_cleanup terminates the process (`exits = true`) whenever both
peer handles are 0 and hci_filter_status is "1": it then sets hci_filter_status
to "0", start_hci to "false" and calls exit(0), in this order, after the
reference count was dealt with. It does not terminate the process
(`exits = false`) when a peer handle is not 0 or hci_filter_status is "0": it
then returns, writes neither hci_filter_status nor start_hci and leaves their
values as they were. -/
theorem handle_cleanup_exit_rule (w : World) (exits : Bool)
    (hcase : (exits = true ∧ w.remote_bt_fd = 0 ∧ w.remote_ant_fd = 0
          ∧ w.props PropKey.hci_filter_status = "1")
      ∨ (exits = false ∧ (w.remote_bt_fd ≠ 0 ∨ w.remote_ant_fd ≠ 0
          ∨ w.props PropKey.hci_filter_status = "0"))) :
    (handle_cleanup w).2 = exits
    ∧ (handle_cleanup w).1.log
        = (ref_count_update w).log
          ++ (if exits = true then
                [Event.property_set PropKey.hci_filter_status "0",
                  Event.property_set PropKey.start_hci "false", Event.exit 0]
              else [])
    ∧ exit_calls (handle_cleanup w).1.log
        = exit_calls w.log ++ (if exits = true then [0] else [])
    ∧ property_writes PropKey.hci_filter_status (handle_cleanup w).1.log
        = property_writes PropKey.hci_filter_status w.log ++ (if exits = true then ["0"] else [])
    ∧ property_writes PropKey.start_hci (handle_cleanup w).1.log
        = property_writes PropKey.start_hci w.log ++ (if exits = true then ["false"] else [])
    ∧ (handle_cleanup w).1.props PropKey.hci_filter_status
        = (if exits = true then "0" else w.props PropKey.hci_filter_status)
    ∧ (handle_cleanup w).1.props PropKey.start_hci
        = (if exits = true then "false" else w.props PropKey.start_hci) := by
  obtain ⟨_, _, hprops, hwrites, hexit⟩ := ref_count_update_frame w
  have hs := hprops PropKey.hci_filter_status (by decide)
  have hh := hprops PropKey.start_hci (by decide)
  have hws := hwrites PropKey.hci_filter_status (by decide)
  have hwh := hwrites PropKey.start_hci (by decide)
  rw [handle_cleanup_eq]
  rcases hcase with ⟨he, hbt, hant, hst⟩ | ⟨he, hstay⟩
  · subst he
    have hget : property_get w PropKey.hci_filter_status "0" ≠ "0" := by
      unfold property_get
      rw [hst]
      decide
    rw [if_pos ⟨hbt, hant⟩, if_neg hget]
    refine ⟨rfl, ?_, ?_, ?_, ?_, ?_, ?_⟩
    · simp [property_set, World.emit]
    · simp [property_set, World.emit, exit_calls_append, exit_calls, hexit]
    · simp [property_set, World.emit, property_writes_append, property_writes, hws]
    · simp [property_set, World.emit, property_writes_append, property_writes, hwh]
    · simp [property_set, World.emit]
    · simp [property_set, World.emit]
  · subst he
    have hres : (if w.remote_bt_fd = 0 ∧ w.remote_ant_fd = 0 then
          if property_get w PropKey.hci_filter_status "0" = "0" then (ref_count_update w, false)
          else
            ((property_set (property_set (ref_count_update w) PropKey.hci_filter_status "0")
              PropKey.start_hci "false").emit (Event.exit 0), true)
        else (ref_count_update w, false)) = (ref_count_update w, false) := by
      by_cases hboth : w.remote_bt_fd = 0 ∧ w.remote_ant_fd = 0
      · rw [if_pos hboth]
        have hst : w.props PropKey.hci_filter_status = "0" := by
          rcases hstay with h | h | h
          · exact absurd hboth.1 h
          · exact absurd hboth.2 h
          · exact h
        have hget : property_get w PropKey.hci_filter_status "0" = "0" := by
          unfold property_get
          rw [hst]
          decide
        rw [if_pos hget]
      · rw [if_neg hboth]
    rw [hres]
    refine ⟨rfl, by simp, by simp [hexit], by simp [hws], by simp [hwh], by simp [hs],
      by simp [hh]⟩

/-- C18, witness: both handles 0 and hci_filter_status "1": the process exits. -/
theorem handle_cleanup_exit_rule_witness :
    (handle_cleanup (world_props "2" "0" "1" 0 0)).2 = true
    ∧ (handle_cleanup (world_props "2" "0" "1" 0 0)).1.log
        = (ref_count_update (world_props "2" "0" "1" 0 0)).log
          ++ (if true = true then
                [Event.property_set PropKey.hci_filter_status "0",
                  Event.property_set PropKey.start_hci "false", Event.exit 0]
              else [])
    ∧ exit_calls (handle_cleanup (world_props "2" "0" "1" 0 0)).1.log
        = exit_calls (world_props "2" "0" "1" 0 0).log ++ (if true = true then [0] else [])
    ∧ property_writes PropKey.hci_filter_status
        (handle_cleanup (world_props "2" "0" "1" 0 0)).1.log
        = property_writes PropKey.hci_filter_status (world_props "2" "0" "1" 0 0).log
          ++ (if true = true then ["0"] else [])
    ∧ property_writes PropKey.start_hci (handle_cleanup (world_props "2" "0" "1" 0 0)).1.log
        = property_writes PropKey.start_hci (world_props "2" "0" "1" 0 0).log
          ++ (if true = true then ["false"] else [])
    ∧ (handle_cleanup (world_props "2" "0" "1" 0 0)).1.props PropKey.hci_filter_status
        = (if true = true then "0"
           else (world_props "2" "0" "1" 0 0).props PropKey.hci_filter_status)
    ∧ (handle_cleanup (world_props "2" "0" "1" 0 0)).1.props PropKey.start_hci
        = (if true = true then "false"
           else (world_props "2" "0" "1" 0 0).props PropKey.start_hci) :=
  handle_cleanup_exit_rule (world_props "2" "0" "1" 0 0) true
    (Or.inl ⟨rfl, rfl, rfl, rfl⟩)

/-- The exit rule on concrete states: both peers gone and status "1" (exit,
with the whole log); the ANT peer still present; status already "0"; status
never set. -/
theorem handle_cleanup_examples :
    (handle_cleanup (world_props "2" "0" "1" 0 0)).1.log
        = [Event.property_set PropKey.ref_count "1",
            Event.property_set PropKey.hci_filter_status "0",
            Event.property_set PropKey.start_hci "false", Event.exit 0]
    ∧ (handle_cleanup (world_props "2" "0" "1" 0 6)).2 = false
    ∧ (handle_cleanup (world_props "2" "0" "1" 0 6)).1.log
        = [Event.property_set PropKey.ref_count "1"]
    ∧ (handle_cleanup (world_props "2" "0" "0" 0 0)).2 = false
    ∧ (handle_cleanup (world_props "2" "0" "" 0 0)).2 = false := by
  refine ⟨?_, ?_, ?_, ?_, ?_⟩ <;> decide

/-! ## C19: downlink routing -/

/-- C19: downlink routing is exclusive. For every frame read from the
transport whose type byte is 0x04 or 0x02 (destination: the BT peer handle) or
0x0c or 0x0e (destination: the ANT peer handle), whatever follows the type
byte and whatever the writes answer, handle_soc_events issues no `write` on any
descriptor `fd` other than the destination: such a descriptor, in particular
the other peer's whenever its handle differs from the destination, receives
nothing. The peer handles are left unchanged. -/
theorem downlink_routing_exclusive (w : World) (t fd dest : Int) (pb : Byte)
    (rest : List Byte) (hav : avail (w.rd t) = pb :: rest)
    (hroute : ((pb = BT_EVT_PACKET_TYPE ∨ pb = BT_ACL_PACKET_TYPE) ∧ dest = w.remote_bt_fd)
      ∨ ((pb = ANT_CTL_PACKET_TYPE ∨ pb = ANT_DATA_PACKET_TYPE) ∧ dest = w.remote_ant_fd))
    (hfd : fd ≠ dest) :
    write_calls fd (handle_soc_events w t).2.log = write_calls fd w.log
    ∧ written fd (handle_soc_events w t).2.log = written fd w.log
    ∧ (handle_soc_events w t).2.remote_bt_fd = w.remote_bt_fd
    ∧ (handle_soc_events w t).2.remote_ant_fd = w.remote_ant_fd := by
  obtain ⟨s1, _, _, hd⟩ := handle_soc_events_dispatch w t pb rest hav
  have hstep : io_step dest w (handle_soc_events w t).2 := by
    rw [hd]
    rcases hroute with ⟨hp, hdest⟩ | ⟨hp, hdest⟩
    · have hant : ¬ (pb = ANT_CTL_PACKET_TYPE ∨ pb = ANT_DATA_PACKET_TYPE) := by
        rcases hp with h | h <;> rw [h] <;> decide
      rw [if_neg hant, if_pos hp, hdest]
      exact io_step_trans _ _ _ _ (after_read_io_step _ w t s1 w.errno)
        (copy_bt_io_step _ _ _ _ _)
    · rw [if_pos hp, hdest]
      exact io_step_trans _ _ _ _ (after_read_io_step _ w t s1 w.errno)
        (copy_ant_channel_io_step _ _ _ _)
  obtain ⟨h1, h2, _, _, _, _, _, _, h9, h10⟩ := io_step_frame dest w _ hstep
  exact ⟨h9 fd hfd, h10 fd hfd, h1, h2⟩

/-- C19, witness: the transport delivers 04 0e 04 01 03 0c 00 with both peers
present (BT 5, ANT 6): no write is issued on the ANT peer's descriptor. -/
theorem downlink_routing_exclusive_witness :
    write_calls 6 (handle_soc_events
        (world_both_peers [ReadEv.data [0x04, 0x0e, 0x04, 0x01, 0x03, 0x0c, 0x00]]) 3).2.log
        = write_calls 6
            (world_both_peers [ReadEv.data [0x04, 0x0e, 0x04, 0x01, 0x03, 0x0c, 0x00]]).log
    ∧ written 6 (handle_soc_events
        (world_both_peers [ReadEv.data [0x04, 0x0e, 0x04, 0x01, 0x03, 0x0c, 0x00]]) 3).2.log
        = written 6
            (world_both_peers [ReadEv.data [0x04, 0x0e, 0x04, 0x01, 0x03, 0x0c, 0x00]]).log
    ∧ (handle_soc_events
        (world_both_peers [ReadEv.data [0x04, 0x0e, 0x04, 0x01, 0x03, 0x0c, 0x00]])
          3).2.remote_bt_fd
        = (world_both_peers
            [ReadEv.data [0x04, 0x0e, 0x04, 0x01, 0x03, 0x0c, 0x00]]).remote_bt_fd
    ∧ (handle_soc_events
        (world_both_peers [ReadEv.data [0x04, 0x0e, 0x04, 0x01, 0x03, 0x0c, 0x00]])
          3).2.remote_ant_fd
        = (world_both_peers
            [ReadEv.data [0x04, 0x0e, 0x04, 0x01, 0x03, 0x0c, 0x00]]).remote_ant_fd :=
  downlink_routing_exclusive
    (world_both_peers [ReadEv.data [0x04, 0x0e, 0x04, 0x01, 0x03, 0x0c, 0x00]]) 3 6 5
    BT_EVT_PACKET_TYPE [0x0e, 0x04, 0x01, 0x03, 0x0c, 0x00] (by decide)
    (Or.inl ⟨Or.inl rfl, rfl⟩) (by decide)

/-- Scenario S3 with both peers present, and an ANT frame: the event reaches
the BT peer only, the ANT frame reaches the ANT peer only. -/
theorem scenario_S3_both_peers :
    written 5 (handle_soc_events
        (world_both_peers [ReadEv.data [0x04, 0x0e, 0x04, 0x01, 0x03, 0x0c, 0x00]]) 3).2.log
      = [0x04, 0x0e, 0x04, 0x01, 0x03, 0x0c, 0x00]
    ∧ written 6 (handle_soc_events
        (world_both_peers [ReadEv.data [0x04, 0x0e, 0x04, 0x01, 0x03, 0x0c, 0x00]]) 3).2.log
      = []
    ∧ written 5 (handle_soc_events
        (world_both_peers [ReadEv.data [0x0c, 0x02, 0xaa, 0xbb]]) 3).2.log = []
    ∧ write_calls 6 (handle_soc_events
        (world_both_peers [ReadEv.data [0x0c, 0x02, 0xaa, 0xbb]]) 3).2.log
      = [[0x02, 0xaa, 0xbb]] := by
  refine ⟨?_, ?_, ?_, ?_⟩ <;> decide

/-! ## C20: do_read is read-exact -/

theorem blit_slice (buf : List Byte) (base : Nat) (src : List Byte)
    (h : base + src.length ≤ buf.length) :
    ((blit buf base src).drop base).take src.length = src := by
  unfold blit
  have h1 : (List.take base buf).length = base := by simp; omega
  rw [List.append_assoc, List.drop_left' h1]
  simp

/-- C20: do_read(fd, buf + base, n) is read-exact, for every state of the
descriptor (every sequence of read results) and every n that fits the buffer.
With `bs` the bytes the descriptor delivers before its first end-of-stream or
failing read: if `bs` has at least n bytes, do_read returns n, the n bytes of
the buffer hold the first n bytes of `bs` in arrival order and exactly these
are consumed; if the stream ends after k < n bytes it returns k with those k
bytes stored; if a read fails before n bytes arrived it returns -1. The bytes
outside the target range are untouched and nothing is logged. For n = 0 it
returns 0 and the state is unchanged (no read is performed). -/
theorem do_read_read_exact (w : World) (fd : Int) (buf : List Byte) (base n : Nat)
    (hbuf : base + n ≤ buf.length) :
    (do_read w fd buf base n).1
        = (if n ≤ (avail (w.rd fd)).length then ((n : Nat) : Int)
           else if endsInError (w.rd fd) = true then -1
           else (((avail (w.rd fd)).length : Nat) : Int))
    ∧ (do_read w fd buf base n).2.1 = blit buf base ((avail (w.rd fd)).take n)
    ∧ ((do_read w fd buf base n).2.1.drop base).take ((avail (w.rd fd)).take n).length
        = (avail (w.rd fd)).take n
    ∧ ((avail (w.rd fd)).length < n
        ∨ avail ((do_read w fd buf base n).2.2.rd fd) = (avail (w.rd fd)).drop n)
    ∧ (do_read w fd buf base n).2.2.log = w.log
    ∧ do_read w fd buf base 0 = (0, buf, w) := by
  have hbuf2 : base + ((avail (w.rd fd)).take n).length ≤ buf.length := by
    simp only [List.length_take]; omega
  have hzero : do_read w fd buf base 0 = (0, buf, w) := by simp [do_read]
  by_cases hfull : n ≤ (avail (w.rd fd)).length
  · obtain ⟨s1, hr, ha, _⟩ := do_read_full w fd buf base n hfull hbuf
    rw [hr]
    refine ⟨by simp [hfull], rfl, blit_slice _ _ _ hbuf2, Or.inr (by simp [ha]), by simp, hzero⟩
  · have hlt : (avail (w.rd fd)).length < n := by omega
    have htk : (avail (w.rd fd)).take n = avail (w.rd fd) :=
      List.take_of_length_le (by omega)
    rw [htk] at hbuf2 ⊢
    cases hend : endsInError (w.rd fd) with
    | true =>
      obtain ⟨s1, e, hr⟩ := do_read_error w fd buf base n hlt hbuf hend
      rw [hr]
      exact ⟨by simp [hfull], rfl, blit_slice _ _ _ hbuf2, Or.inl hlt, by simp, hzero⟩
    | false =>
      obtain ⟨s1, hr⟩ := do_read_short w fd buf base n hlt hbuf hend
      rw [hr]
      exact ⟨by simp [hfull], rfl, blit_slice _ _ _ hbuf2, Or.inl hlt, by simp, hzero⟩

/-- C20, witness: four bytes requested from a descriptor that delivers 01 02
and then 03 04 05: do_read returns 4 with 01 02 03 04 stored and 05 left. -/
theorem do_read_read_exact_witness :
    (do_read (world_bt_client [ReadEv.data [0x01, 0x02], ReadEv.data [0x03, 0x04, 0x05]]) 5
        [0, 0, 0, 0] 0 4).1
        = (if 4 ≤ (avail ((world_bt_client
              [ReadEv.data [0x01, 0x02], ReadEv.data [0x03, 0x04, 0x05]]).rd 5)).length
            then ((4 : Nat) : Int)
           else if endsInError ((world_bt_client
              [ReadEv.data [0x01, 0x02], ReadEv.data [0x03, 0x04, 0x05]]).rd 5) = true then -1
           else (((avail ((world_bt_client
              [ReadEv.data [0x01, 0x02], ReadEv.data [0x03, 0x04, 0x05]]).rd 5)).length : Nat)
                : Int))
    ∧ (do_read (world_bt_client [ReadEv.data [0x01, 0x02], ReadEv.data [0x03, 0x04, 0x05]]) 5
        [0, 0, 0, 0] 0 4).2.1
        = blit [0, 0, 0, 0] 0 ((avail ((world_bt_client
            [ReadEv.data [0x01, 0x02], ReadEv.data [0x03, 0x04, 0x05]]).rd 5)).take 4)
    ∧ ((do_read (world_bt_client [ReadEv.data [0x01, 0x02], ReadEv.data [0x03, 0x04, 0x05]]) 5
        [0, 0, 0, 0] 0 4).2.1.drop 0).take ((avail ((world_bt_client
            [ReadEv.data [0x01, 0x02], ReadEv.data [0x03, 0x04, 0x05]]).rd 5)).take 4).length
        = (avail ((world_bt_client
            [ReadEv.data [0x01, 0x02], ReadEv.data [0x03, 0x04, 0x05]]).rd 5)).take 4
    ∧ ((avail ((world_bt_client
            [ReadEv.data [0x01, 0x02], ReadEv.data [0x03, 0x04, 0x05]]).rd 5)).length < 4
        ∨ avail ((do_read (world_bt_client
            [ReadEv.data [0x01, 0x02], ReadEv.data [0x03, 0x04, 0x05]]) 5
            [0, 0, 0, 0] 0 4).2.2.rd 5)
          = (avail ((world_bt_client
            [ReadEv.data [0x01, 0x02], ReadEv.data [0x03, 0x04, 0x05]]).rd 5)).drop 4)
    ∧ (do_read (world_bt_client [ReadEv.data [0x01, 0x02], ReadEv.data [0x03, 0x04, 0x05]]) 5
        [0, 0, 0, 0] 0 4).2.2.log
        = (world_bt_client [ReadEv.data [0x01, 0x02], ReadEv.data [0x03, 0x04, 0x05]]).log
    ∧ do_read (world_bt_client [ReadEv.data [0x01, 0x02], ReadEv.data [0x03, 0x04, 0x05]]) 5
        [0, 0, 0, 0] 0 0
        = (0, [0, 0, 0, 0],
            world_bt_client [ReadEv.data [0x01, 0x02], ReadEv.data [0x03, 0x04, 0x05]]) :=
  do_read_read_exact (world_bt_client [ReadEv.data [0x01, 0x02], ReadEv.data [0x03, 0x04, 0x05]])
    5 [0, 0, 0, 0] 0 4 (by decide)

/-- The three outcomes of do_read on concrete streams: four bytes out of
01 02 | 03 04 05; a stream that ends after 01 02; a read that fails after 01 02. -/
theorem do_read_examples :
    (do_read (world_bt_client [ReadEv.data [0x01, 0x02], ReadEv.data [0x03, 0x04, 0x05]]) 5
        [0, 0, 0, 0] 0 4).1 = 4
    ∧ (do_read (world_bt_client [ReadEv.data [0x01, 0x02], ReadEv.data [0x03, 0x04, 0x05]]) 5
        [0, 0, 0, 0] 0 4).2.1 = [0x01, 0x02, 0x03, 0x04]
    ∧ (do_read (world_bt_client [ReadEv.data [0x01, 0x02]]) 5 [0, 0, 0, 0] 0 4).1 = 2
    ∧ (do_read (world_bt_client [ReadEv.data [0x01, 0x02]]) 5 [0, 0, 0, 0] 0 4).2.1
        = [0x01, 0x02, 0, 0]
    ∧ (do_read (world_bt_client [ReadEv.data [0x01, 0x02], ReadEv.fail 5]) 5
        [0, 0, 0, 0] 0 4).1 = -1 := by
  refine ⟨?_, ?_, ?_, ?_, ?_⟩ <;> decide

/-! ## C21: the end of a session -/

theorem select_handles (w : World) (fd : Int) :
    (select w fd).2.remote_bt_fd = w.remote_bt_fd
    ∧ (select w fd).2.remote_ant_fd = w.remote_ant_fd := by
  unfold select
  split <;> exact ⟨rfl, rfl⟩

theorem handle_command_writes_io_step (w : World) (fd : Int) :
    io_step w.fd_transport w (handle_command_writes w fd).2 := by
  unfold handle_command_writes
  have h1 := read_io_step w.fd_transport w fd 1
  rcases hr1 : read w fd 1 with ⟨r1, got, w1⟩
  rw [hr1] at h1
  simp only []
  have hft : w1.fd_transport = w.fd_transport := (io_step_frame _ _ _ h1).2.2.1
  have h2 := copy_ant_host_io_step w1 fd w1.fd_transport (got.headD (w.junk 0))
  rcases hr2 : copy_ant_host_data_to_soc w1 fd w1.fd_transport (got.headD (w.junk 0))
    with ⟨r2, w2⟩
  rw [hr2, hft] at h2
  have h3 := copy_bt_io_step w1 fd w1.fd_transport (got.headD (w.junk 0)) HOST_TO_SOC
  rcases hr3 : copy_bt_data_to_channel w1 fd w1.fd_transport (got.headD (w.junk 0)) HOST_TO_SOC
    with ⟨r3, w3⟩
  rw [hr3, hft] at h3
  simp only []
  split_ifs <;> first
    | exact h1
    | exact io_step_trans _ _ _ _ h1 h2
    | exact io_step_trans _ _ _ _ h1 h3

theorem handle_command_writes_handles (w : World) (fd : Int) :
    (handle_command_writes w fd).2.remote_bt_fd = w.remote_bt_fd
    ∧ (handle_command_writes w fd).2.remote_ant_fd = w.remote_ant_fd := by
  obtain ⟨h1, h2, _⟩ := io_step_frame _ _ _ (handle_command_writes_io_step w fd)
  exact ⟨h1, h2⟩

/-- The handler loop leaves the peer handles as they are. -/
theorem serve_loop_handles (fd : Int) :
    ∀ (fuel : Nat) (w w2 : World), serve_loop fd fuel w = some w2 →
      w2.remote_bt_fd = w.remote_bt_fd ∧ w2.remote_ant_fd = w.remote_ant_fd := by
  intro fuel
  induction fuel with
  | zero => intro w w2 h; simp [serve_loop] at h
  | succ fuel ih =>
    intro w w2 h
    unfold serve_loop at h
    have hs := select_handles w fd
    rcases hsel : select w fd with ⟨n, w1⟩
    rw [hsel] at h hs
    simp only [] at h hs
    have hh := handle_command_writes_handles w1 fd
    rcases hcw : handle_command_writes w1 fd with ⟨r, w3⟩
    rw [hcw] at h hh
    simp only [] at h hh
    split_ifs at h
    · cases h; exact hs
    · cases h; exact ⟨hh.1.trans hs.1, hh.2.trans hs.2⟩
    · obtain ⟨a, b⟩ := ih w3 w2 h
      exact ⟨a.trans (hh.1.trans hs.1), b.trans (hh.2.trans hs.2)⟩
    · obtain ⟨a, b⟩ := ih w1 w2 h
      exact ⟨a.trans hs.1, b.trans hs.2⟩

/-- C21, as amended: when the read of the type byte from a connected client
returns zero bytes, handle_command_writes returns -99 without any action and
the handler loop is left. Once the handler loop of an endpoint thread is left
(in state `w2`), the thread closes the peer, then sets its peer handle to 0,
and only then calls handle_cleanup, which therefore sees this endpoint's peer
as absent; after that, unless handle_cleanup has ended the process, the thread
starts its outer loop again with establish_remote_socket. -/
theorem endpoint_thread_disconnect (name : SockName) (fuel : Nat) (wl0 wl : World)
    (fdl n : Int) (w w0 w2 : World) (fd : Int)
    (hsel : select wl0 fdl = (n, wl)) (hn : 0 < n)
    (heof : avail (wl.rd fdl) = []) (hend : endsInError (wl.rd fdl) = false)
    (hest : establish_remote_socket w name = some (fd, w0)) (hfd : 0 ≤ fd)
    (hserve : serve_loop fd (fuel + 1) (set_peer_handle name w0 fd) = some w2) :
    (handle_command_writes wl fdl).1 = -99
    ∧ (handle_command_writes wl fdl).2.log = wl.log
    ∧ serve_loop fdl (fuel + 1) wl0 = some (handle_command_writes wl fdl).2
    ∧ (after_session name w2).log = w2.log ++ [Event.close fd]
    ∧ peer_handle name (after_session name w2) = 0
    ∧ endpoint_thread name (fuel + 1) w
        = (if (handle_cleanup (after_session name w2)).2 = true then
            (Outcome.exited 0, (handle_cleanup (after_session name w2)).1)
          else endpoint_thread name fuel (handle_cleanup (after_session name w2)).1) := by
  obtain ⟨s1, hr⟩ := read_eof wl fdl 1 heof hend
  have hcw : handle_command_writes wl fdl = (-99, wl.after_read fdl s1 wl.errno) := by
    simp [handle_command_writes, hr]
  have hloop : serve_loop fdl (fuel + 1) wl0 = some (handle_command_writes wl fdl).2 := by
    have h1 : ¬ n < 0 := by omega
    simp only [serve_loop, hsel, h1, if_false, gt_iff_lt, hn, if_true, hcw]
    simp
  obtain ⟨hb, ha⟩ := serve_loop_handles fd (fuel + 1) _ w2 hserve
  refine ⟨by rw [hcw], by rw [hcw]; simp, hloop, ?_, ?_, ?_⟩
  · cases name <;> simp [after_session, set_peer_handle, peer_handle, close, hb, ha]
  · cases name <;> simp [after_session, set_peer_handle, peer_handle]
  · have hnneg : ¬ fd < 0 := by omega
    cases name with
    | BT_SOCK =>
      simp only [endpoint_thread]
      rw [bt_thread]
      simp only [hest, hnneg, if_false]
      have hs : serve_loop fd (fuel + 1) { w0 with remote_bt_fd := fd } = some w2 := hserve
      rw [hs]
      simp only [after_session, set_peer_handle, peer_handle]
      rcases hcl : handle_cleanup { close w2 w2.remote_bt_fd with remote_bt_fd := 0 }
        with ⟨w4, ex⟩
      cases ex <;> simp
    | ANT_SOCK =>
      simp only [endpoint_thread]
      rw [ant_thread]
      simp only [hest, hnneg, if_false]
      have hs : serve_loop fd (fuel + 1) { w0 with remote_ant_fd := fd } = some w2 := hserve
      rw [hs]
      simp only [after_session, set_peer_handle, peer_handle]
      rcases hcl : handle_cleanup { close w2 w2.remote_ant_fd with remote_ant_fd := 0 }
        with ⟨w4, ex⟩
      cases ex <;> simp
/-- C21, witness: an admitted BT peer (descriptor 5) closes its end at once
while hci_filter_status is unset: -99, the peer is closed, the handle is 0 when
handle_cleanup runs, and the thread starts over. -/
theorem endpoint_thread_disconnect_witness :
    (handle_command_writes session_serving 5).1 = -99
    ∧ (handle_command_writes session_serving 5).2.log = session_serving.log
    ∧ serve_loop 5 (3 + 1) session_serving = some (handle_command_writes session_serving 5).2
    ∧ (after_session SockName.BT_SOCK session_left).log = session_left.log ++ [Event.close 5]
    ∧ peer_handle SockName.BT_SOCK (after_session SockName.BT_SOCK session_left) = 0
    ∧ endpoint_thread SockName.BT_SOCK (3 + 1) (world_two_sessions "")
        = (if (handle_cleanup (after_session SockName.BT_SOCK session_left)).2 = true then
            (Outcome.exited 0, (handle_cleanup (after_session SockName.BT_SOCK session_left)).1)
          else endpoint_thread SockName.BT_SOCK 3
            (handle_cleanup (after_session SockName.BT_SOCK session_left)).1) :=
  endpoint_thread_disconnect SockName.BT_SOCK 3 session_serving session_serving 5 1
    (world_two_sessions "") session_accepted session_left 5 rfl (by decide) (by decide)
    (by decide) rfl (by decide) rfl

/-- C21, counterexample: two admitted peers are about to connect to bt_sock,
no ANT peer is connected and hci_filter_status is "1". The first peer closes
its end: bt_thread closes it, sets the handle to 0 and calls handle_cleanup,
which ends the process with exit(0). The thread does not go back to
establishing a listening socket: the second peer is never accepted. With
hci_filter_status unset the thread does go on and accepts the second peer. -/
theorem bt_thread_exits_after_disconnect :
    (bt_thread 5 (world_two_sessions "1")).1 = Outcome.exited 0
    ∧ (bt_thread 5 (world_two_sessions "1")).2.log
        = [Event.close 4, Event.close 5,
            Event.property_set PropKey.hci_filter_status "0",
            Event.property_set PropKey.start_hci "false", Event.exit 0]
    ∧ (bt_thread 5 (world_two_sessions "1")).2.conns SockName.BT_SOCK = [peer_conn 1002]
    ∧ (bt_thread 5 (world_two_sessions "")).1 = Outcome.blocked
    ∧ (bt_thread 5 (world_two_sessions "")).2.log
        = [Event.close 4, Event.close 5, Event.close 4, Event.close 5]
    ∧ (bt_thread 5 (world_two_sessions "")).2.conns SockName.BT_SOCK = [] := by
  refine ⟨?_, ?_, ?_, ?_, ?_, ?_⟩ <;> decide

/-! ## C22: transport writes and the mutex -/

theorem read_log (w : World) (fd : Int) (n : Nat) : (read w fd n).2.2.log = w.log := by
  unfold read
  split
  · rfl
  · split <;> rfl

theorem do_read_loop_log (fd : Int) (base len : Nat) :
    ∀ (fuel : Nat) (w : World) (buf : List Byte) (bytes_left off : Nat),
      (do_read_loop fd base len fuel w buf bytes_left off).2.2.log = w.log := by
  intro fuel
  induction fuel with
  | zero => intro w buf bytes_left off; rfl
  | succ fuel ih =>
    intro w buf bytes_left off
    unfold do_read_loop
    have hw := read_log w fd bytes_left
    rcases hr : read w fd bytes_left with ⟨r, got, w1⟩
    rw [hr] at hw
    simp only [] at hw ⊢
    split_ifs
    · exact hw
    · exact hw
    · rw [ih, hw]
    · exact hw

theorem do_read_log (w : World) (fd : Int) (buf : List Byte) (base len : Nat) :
    (do_read w fd buf base len).2.2.log = w.log := by
  unfold do_read
  split_ifs
  · rfl
  · exact do_read_loop_log fd base len len w buf len 0

theorem write_log (w : World) (fd : Int) (offered : List Byte) :
    ∃ r, (write w fd offered).2.log = w.log ++ [Event.write fd offered r] := by
  unfold write
  split
  · exact ⟨_, rfl⟩
  · exact ⟨_, rfl⟩
  · exact ⟨_, rfl⟩

theorem do_write_loop_log (fd : Int) (buf : List Byte) (len : Nat) :
    ∀ (fuel : Nat) (w : World) (off write_len : Nat),
      ∃ ws, (do_write_loop fd buf len fuel w off write_len).2.log = w.log ++ ws
        ∧ ∀ e ∈ ws, e.is_write_on fd = true := by
  intro fuel
  induction fuel with
  | zero => intro w off write_len; exact ⟨[], by simp [do_write_loop], by simp⟩
  | succ fuel ih =>
    intro w off write_len
    unfold do_write_loop
    obtain ⟨r0, hw⟩ := write_log w fd (List.take write_len (List.drop off buf))
    rcases hr : write w fd (List.take write_len (List.drop off buf)) with ⟨r, w1⟩
    rw [hr] at hw
    simp only [] at hw ⊢
    have hone : ∃ ws, w1.log = w.log ++ ws ∧ ∀ e ∈ ws, e.is_write_on fd = true :=
      ⟨[_], hw, by simp [Event.is_write_on]⟩
    split_ifs
    · exact hone
    · exact hone
    · obtain ⟨ws, hws, hall⟩ := ih w1 r.toNat (write_len - r.toNat)
      refine ⟨Event.write fd (List.take write_len (List.drop off buf)) r0 :: ws, ?_, ?_⟩
      · rw [hws, hw, List.append_assoc]; rfl
      · intro e he
        rcases List.mem_cons.mp he with h | h
        · rw [h]; simp [Event.is_write_on]
        · exact hall e h
    · exact hone
    · exact hone

/-- The mutex is taken, `do_write` issues all its `write` calls, the mutex is
released: one critical section. -/
theorem do_write_section (w : World) (fd : Int) (buf : List Byte) (len : Nat) :
    one_section fd w ((do_write (w.emit Event.lock) fd buf len).2.emit Event.unlock) := by
  obtain ⟨ws, hws, hall⟩ := do_write_loop_log fd buf len (len + 1) (w.emit Event.lock) 0 len
  refine Or.inr ⟨ws, ?_, hall⟩
  unfold do_write
  rw [emit_log, hws, emit_log]
  simp

theorem one_section_of_log (dest : Int) (w w1 w2 : World) (h : w1.log = w.log)
    (h2 : one_section dest w1 w2) : one_section dest w w2 := by
  unfold one_section at h2 ⊢
  rw [h] at h2
  exact h2

theorem bt_deliver_section (w : World) (dest_fd : Int) (nvc : Bool) (buf : List Byte)
    (n : Nat) : one_section dest_fd w (bt_deliver w dest_fd nvc buf n).2 := by
  unfold bt_deliver
  split_ifs with h
  · exact Or.inl rfl
  · have h2 := do_write_section w dest_fd buf n
    rcases hr : do_write (w.emit Event.lock) dest_fd buf n with ⟨r, w1⟩
    rw [hr] at h2
    simp only [] at h2 ⊢
    split_ifs <;> exact h2

theorem bt_case_section (w : World) (src_fd dest_fd : Int) (pb : Byte) (nvc : Bool)
    (hs : Nat) (length_of : List Byte → Nat) :
    one_section dest_fd w (bt_case w src_fd dest_fd pb nvc hs length_of).2 := by
  unfold bt_case
  have h1 := do_read_log w src_fd (uninit w MAX_BT_HDR_SIZE) 0 hs
  rcases hr1 : do_read w src_fd (uninit w MAX_BT_HDR_SIZE) 0 hs with ⟨r1, hdr, w1⟩
  rw [hr1] at h1
  simp only [] at h1 ⊢
  have h2 := do_read_log w1 src_fd
    (blit ((List.replicate (length_of hdr + hs + 1) (0 : Byte)).set 0 pb) 1 (hdr.take hs))
    (hs + 1) (length_of hdr)
  rcases hr2 : do_read w1 src_fd
    (blit ((List.replicate (length_of hdr + hs + 1) (0 : Byte)).set 0 pb) 1 (hdr.take hs))
    (hs + 1) (length_of hdr) with ⟨r2, buf, w2⟩
  rw [hr2] at h2
  simp only [] at h2 ⊢
  have h12 : w2.log = w.log := h2.trans h1
  have h3 := one_section_of_log dest_fd w w2 _ h12
    (bt_deliver_section w2 dest_fd nvc buf ((length_of hdr + hs + 1) % 2 ^ 16))
  split_ifs <;> first | exact Or.inl h1 | exact Or.inl h12 | exact h3

theorem copy_bt_section (w : World) (src_fd dest_fd : Int) (pb : Byte) (direction : Int) :
    one_section dest_fd w (copy_bt_data_to_channel w src_fd dest_fd pb direction).2 := by
  unfold copy_bt_data_to_channel
  simp only []
  split_ifs
  · exact bt_case_section _ _ _ _ _ _ _
  · exact bt_case_section _ _ _ _ _ _ _
  · exact bt_case_section _ _ _ _ _ _ _
  · exact Or.inl rfl

theorem copy_ant_host_section (w : World) (src_fd dest_fd : Int) (pb : Byte) :
    one_section dest_fd w (copy_ant_host_data_to_soc w src_fd dest_fd pb).2 := by
  unfold copy_ant_host_data_to_soc
  have h1 := do_read_log w src_fd (uninit w ANT_CMD_HDR_SIZE) ANT_HDR_OFFSET_LEN
    ANT_HDR_OFFSET_LEN
  rcases hr1 : do_read w src_fd (uninit w ANT_CMD_HDR_SIZE) ANT_HDR_OFFSET_LEN
    ANT_HDR_OFFSET_LEN with ⟨r1, hdr, w1⟩
  rw [hr1] at h1
  simp only [] at h1 ⊢
  have h2 := do_read_log w1 src_fd
    (uninit w1 ((hdr.getD ANT_HDR_OFFSET_LEN 0).val + ANT_CMD_HDR_SIZE)) ANT_CMD_HDR_SIZE
    (hdr.getD ANT_HDR_OFFSET_LEN 0).val
  rcases hr2 : do_read w1 src_fd
    (uninit w1 ((hdr.getD ANT_HDR_OFFSET_LEN 0).val + ANT_CMD_HDR_SIZE)) ANT_CMD_HDR_SIZE
    (hdr.getD ANT_HDR_OFFSET_LEN 0).val with ⟨r2, ant_pl, w2⟩
  rw [hr2] at h2
  simp only [] at h2 ⊢
  have h12 : w2.log = w.log := h2.trans h1
  have h4 := one_section_of_log dest_fd w w2 _ h12 (do_write_section w2 dest_fd
    (blit ant_pl 0 ((hdr.set 0 pb).take ANT_CMD_HDR_SIZE))
    ((hdr.getD ANT_HDR_OFFSET_LEN 0).val + ANT_CMD_HDR_SIZE))
  rcases hr3 : do_write (w2.emit Event.lock) dest_fd
    (blit ant_pl 0 ((hdr.set 0 pb).take ANT_CMD_HDR_SIZE))
    ((hdr.getD ANT_HDR_OFFSET_LEN 0).val + ANT_CMD_HDR_SIZE) with ⟨r3, w3⟩
  rw [hr3] at h4
  simp only [] at h4 ⊢
  split_ifs <;> first | exact Or.inl h1 | exact Or.inl h12 | exact h4

/-- The sequential half of writer atomicity (C22): whatever a client sends and
however the transport answers, one call of handle_command_writes adds to the
log either nothing or exactly one critical section of signal_mutex, holding
every `write` call it issues on the transport: the mutex is taken before the
first `write` of a frame and released only after `do_write` has returned. How
the critical sections of two threads are ordered is a matter of the mutex and
the scheduler, which this sequential development does not describe. -/
theorem handle_command_writes_one_section (w : World) (fd : Int) :
    one_section w.fd_transport w (handle_command_writes w fd).2 := by
  unfold handle_command_writes
  have h1 := read_log w fd 1
  have hio := read_io_step w.fd_transport w fd 1
  rcases hr1 : read w fd 1 with ⟨r1, got, w1⟩
  rw [hr1] at h1 hio
  simp only [] at h1 hio ⊢
  have hft : w1.fd_transport = w.fd_transport := (io_step_frame _ _ _ hio).2.2.1
  have h2 := copy_ant_host_section w1 fd w1.fd_transport (got.headD (w.junk 0))
  rcases hr2 : copy_ant_host_data_to_soc w1 fd w1.fd_transport (got.headD (w.junk 0))
    with ⟨r2, w2⟩
  rw [hr2, hft] at h2
  have h3 := copy_bt_section w1 fd w1.fd_transport (got.headD (w.junk 0)) HOST_TO_SOC
  rcases hr3 : copy_bt_data_to_channel w1 fd w1.fd_transport (got.headD (w.junk 0)) HOST_TO_SOC
    with ⟨r3, w3⟩
  rw [hr3, hft] at h3
  simp only [] at h2 h3 ⊢
  split_ifs <;> first
    | exact Or.inl h1
    | exact one_section_of_log _ _ _ _ h1 h2
    | exact one_section_of_log _ _ _ _ h1 h3

/-- A partial write inside a critical section: the transport takes 2 of the 4
bytes of 01 03 0c 00 first; both `write` calls of `do_write` lie between the
lock and the unlock. -/
theorem handle_command_writes_section_example :
    (handle_command_writes
        (world_clients [ReadEv.data [0x01, 0x03, 0x0c, 0x00]] [] [WriteEv.wrote 2]) 5).2.log
      = [Event.lock, Event.write 3 [0x01, 0x03, 0x0c, 0x00] 2,
          Event.write 3 [0x0c, 0x00] 2, Event.unlock] := by
  decide

/-! ## C23: the result of handle_command_writes -/

/-- C23: handle_command_writes returns -1 exactly when the read of the type
byte fails, -99 exactly when that read returns zero bytes, and 0 for every type
byte that was read, whatever the framer it dispatched to did (unknown type,
failing or short read inside the frame, allocation failure, write failure):
with `bs` the bytes the client's descriptor still delivers, the result is 0
when `bs` is not empty, else -1 when the next read fails and -99 at end of
stream. -/
theorem handle_command_writes_result (w : World) (fd : Int) :
    (handle_command_writes w fd).1
      = (if avail (w.rd fd) ≠ [] then 0
         else if endsInError (w.rd fd) = true then -1 else -99) := by
  by_cases hbs : avail (w.rd fd) = []
  · rw [if_neg (by simp [hbs])]
    cases hend : endsInError (w.rd fd) with
    | true =>
      obtain ⟨s1, e, hr⟩ := read_err w fd 1 hbs hend
      simp [handle_command_writes, hr]
    | false =>
      obtain ⟨s1, hr⟩ := read_eof w fd 1 hbs hend
      simp [handle_command_writes, hr]
  · rw [if_pos hbs]
    obtain ⟨pb, rest, hav⟩ : ∃ pb rest, avail (w.rd fd) = pb :: rest := by
      cases h : avail (w.rd fd) with
      | nil => exact absurd h hbs
      | cons a l => exact ⟨a, l, rfl⟩
    obtain ⟨s1, _, _, hd⟩ := handle_command_writes_dispatch w fd pb rest hav
    rw [hd]
    split_ifs <;> rfl

/-- The result of handle_command_writes on concrete inputs: a failing read of
the type byte; end of stream; an unknown type byte; a command cut short by a
failing read; a command whose write fails; a command while allocation fails. -/
theorem handle_command_writes_result_examples :
    (handle_command_writes (world_bt_client [ReadEv.fail 5]) 5).1 = -1
    ∧ (handle_command_writes (world_bt_client []) 5).1 = -99
    ∧ (handle_command_writes (world_bt_client [ReadEv.data [0x77]]) 5).1 = 0
    ∧ (handle_command_writes (world_bt_client [ReadEv.data [0x01, 0x03], ReadEv.fail 5]) 5).1
        = 0
    ∧ (handle_command_writes
        (world_clients [ReadEv.data [0x01, 0x03, 0x0c, 0x00]] [] [WriteEv.fail 5]) 5).1 = 0
    ∧ (handle_command_writes
        { world_bt_client [ReadEv.data [0x01, 0x03, 0x0c, 0x00]] with oom := true } 5).1
        = 0 := by
  refine ⟨?_, ?_, ?_, ?_, ?_, ?_⟩ <;> decide

/-! ## C24: application uids -/

/-- C24: the credential gate admits uids of ordinary application ranges. For
every uid u with 1002 < u < 2^31 such that u mod 100000 > 1002 and
(u mod 100000) mod 10000 is 0, 1000 or 1002, establish_remote_socket (its
system calls succeeding) returns the peer's descriptor, although neither u nor
u mod 100000 is the root, system or bluetooth uid. -/
theorem establish_remote_socket_admits_app_uid (w : World) (name : SockName) (c : Conn)
    (rest : List Conn) (hc : w.conns name = c :: rest) (hsock : 0 ≤ c.sock_id)
    (hbind : 0 ≤ c.bind_ret) (hlisten : c.listen_ret = 0) (hacc : 0 < c.accept_fd)
    (hopt : 0 ≤ c.getsockopt_ret) (hlow : 1002 < c.uid) (hhigh : c.uid < 2 ^ 31)
    (huser : c.uid % 100000 > 1002)
    (happ : c.uid % 100000 % 10000 = 0 ∨ c.uid % 100000 % 10000 = 1000
      ∨ c.uid % 100000 % 10000 = 1002) :
    (establish_remote_socket w name).map Prod.fst = some c.accept_fd
    ∧ (c.uid ≠ 0 ∧ c.uid ≠ 1000 ∧ c.uid ≠ 1002)
    ∧ (c.uid % 100000 ≠ 0 ∧ c.uid % 100000 ≠ 1000 ∧ c.uid % 100000 ≠ 1002) := by
  have heq := establish_remote_socket_eq w name c rest hc hsock hbind hlisten hacc hopt
  have hiff := c_uid_rejected_iff c.uid (by omega)
  have hadm : spec_admits c.uid = true := by
    unfold spec_admits spec_effective_uid
    have h1 : ¬ c.uid ≤ 1002 := by omega
    simp only [h1, if_false, huser, if_true, decide_eq_true_eq]
    rcases happ with h | h | h
    · exact Or.inr (Or.inr h)
    · exact Or.inr (Or.inl h)
    · exact Or.inl h
  refine ⟨?_, by omega, by omega⟩
  rw [heq, if_neg (fun h => hiff.mp h ⟨hhigh, hadm⟩)]
  rfl

/-- C24, witness: the uid 10000 (the first application uid) is admitted. -/
theorem establish_remote_socket_admits_app_uid_witness :
    (establish_remote_socket (world_with_peer 10000) SockName.BT_SOCK).map Prod.fst
        = some (peer_conn 10000).accept_fd
    ∧ ((peer_conn 10000).uid ≠ 0 ∧ (peer_conn 10000).uid ≠ 1000 ∧ (peer_conn 10000).uid ≠ 1002)
    ∧ ((peer_conn 10000).uid % 100000 ≠ 0 ∧ (peer_conn 10000).uid % 100000 ≠ 1000
        ∧ (peer_conn 10000).uid % 100000 ≠ 1002) :=
  establish_remote_socket_admits_app_uid (world_with_peer 10000) SockName.BT_SOCK
    (peer_conn 10000) [] rfl (by decide) (by decide) rfl (by decide) (by decide) (by decide)
    (by decide) (by decide) (by decide)

/-- The uids 10000, 11000, 11002 and 20000 are admitted as descriptor 5; the
uid 10020 is not. -/
theorem app_uid_examples :
    (establish_remote_socket (world_with_peer 10000) SockName.BT_SOCK).map Prod.fst = some 5
    ∧ (establish_remote_socket (world_with_peer 11000) SockName.BT_SOCK).map Prod.fst = some 5
    ∧ (establish_remote_socket (world_with_peer 11002) SockName.ANT_SOCK).map Prod.fst = some 5
    ∧ (establish_remote_socket (world_with_peer 20000) SockName.ANT_SOCK).map Prod.fst = some 5
    ∧ (establish_remote_socket (world_with_peer 10020) SockName.BT_SOCK).map Prod.fst
        = some (-1) := by
  refine ⟨?_, ?_, ?_, ?_, ?_⟩ <;> decide

/-! ## C25: a payload cut short by end-of-stream -/

/-- The buffer of a BT frame whose payload arrived only in part: the tail of
the zero-filled allocation stays as `calloc` left it. -/
theorem frame_buffer_short (pb : Byte) (hdr received : List Byte) (len : Nat)
    (hk : received.length ≤ len) :
    blit (blit ((List.replicate (len + hdr.length + 1) (0 : Byte)).set 0 pb) 1 hdr)
        (hdr.length + 1) received
      = pb :: (hdr ++ received ++ List.replicate (len - received.length) 0) := by
  have hX : (List.replicate (len + hdr.length + 1) (0 : Byte)).set 0 pb
      = pb :: List.replicate (len + hdr.length) 0 := by
    simp [List.replicate_succ]
  rw [hX, show hdr.length + 1 = 1 + hdr.length by omega,
    blit_blit _ _ _ _ (by simp only [List.length_cons, List.length_replicate]; omega)]
  simp only [blit, List.take_succ_cons, List.take_zero, List.cons_append, List.nil_append,
    List.length_append, List.append_assoc]
  rw [show 1 + (hdr.length + received.length) = (hdr.length + received.length) + 1 by omega,
    List.drop_succ_cons, List.drop_replicate,
    show len + hdr.length - (hdr.length + received.length) = len - received.length by omega]

/-- One `case` of `copy_bt_data_to_channel` when the source ends inside the
payload: the header is complete, `received` is all that follows, then
end-of-stream. The short read is not an error, and `acl_len` bytes of the
zero-filled buffer are written. -/
theorem bt_case_short (w : World) (src_fd dest_fd : Int) (pb : Byte) (hs len : Nat)
    (length_of : List Byte → Nat) (hdr received : List Byte)
    (hhs : hs ≤ MAX_BT_HDR_SIZE) (hh : hdr.length = hs)
    (hav : avail (w.rd src_fd) = hdr ++ received) (hend : endsInError (w.rd src_fd) = false)
    (hL : length_of (blit (uninit w MAX_BT_HDR_SIZE) 0 hdr) = len)
    (hk : received.length < len)
    (hoom : w.oom = false) (hbt : w.remote_bt_fd ≠ 0)
    (hw : write_completes w dest_fd ((len + hs + 1) % 2 ^ 16) = true) :
    ∃ w1, bt_case w src_fd dest_fd pb false hs length_of
        = ((((len + hs + 1) % 2 ^ 16 : Nat) : Int), w1)
      ∧ w1.log = w.log ++ [Event.lock,
          Event.write dest_fd
            ((pb :: (hdr ++ received ++ List.replicate (len - received.length) 0)).take
              ((len + hs + 1) % 2 ^ 16))
            (((len + hs + 1) % 2 ^ 16 : Nat) : Int),
          Event.unlock] := by
  unfold bt_case
  obtain ⟨s1, hr1, ha1, he1⟩ := do_read_full w src_fd (uninit w MAX_BT_HDR_SIZE) 0 hs
    (by rw [hav]; simp; omega) (by simp; omega)
  have htk : (avail (w.rd src_fd)).take hs = hdr := by
    rw [hav]; exact List.take_left' hh
  have hdp : (avail (w.rd src_fd)).drop hs = received := by
    rw [hav]; exact List.drop_left' hh
  rw [htk] at hr1
  rw [hdp] at ha1
  rw [hr1]
  have hn1 : ¬ (((hs : Nat) : Int) < 0) := by omega
  simp only [hn1, if_false, after_read_oom, hoom, Bool.false_eq_true, hL]
  have htake : (blit (uninit w MAX_BT_HDR_SIZE) 0 hdr).take hs = hdr := by
    rw [← hh]; exact blit_zero_take _ _
  rw [htake]
  obtain ⟨s2, hr2⟩ := do_read_short (w.after_read src_fd s1 w.errno) src_fd
    (blit ((List.replicate (len + hs + 1) (0 : Byte)).set 0 pb) 1 hdr) (hs + 1)
    len (by simp [ha1, hk]) (by rw [blit_length] <;> simp <;> omega)
    (by simp [he1, hend])
  simp only [after_read_rd_same, ha1, after_read_errno, after_read_after_read] at hr2
  rw [hr2]
  have hn2 : ¬ (((received.length : Nat) : Int) < 0) := by omega
  simp only [hn2, if_false]
  have hfb := frame_buffer_short pb hdr received len (by omega)
  rw [hh] at hfb
  rw [hfb]
  unfold bt_deliver
  have hc : ¬ (false = true ∨ (w.after_read src_fd s2 w.errno).remote_bt_fd = 0) := by
    simp [hbt]
  rw [if_neg hc]
  obtain ⟨s3, hr3⟩ := do_write_complete ((w.after_read src_fd s2 w.errno).emit Event.lock) dest_fd
    (pb :: (hdr ++ received ++ List.replicate (len - received.length) 0))
    ((len + hs + 1) % 2 ^ 16)
    (by simp [hh]; exact Nat.le_trans (Nat.mod_le _ _) (by omega))
    ((write_completes_congr w _ dest_fd _ rfl).trans hw)
  rw [hr3]
  have hn3 : ¬ ((((len + hs + 1) % 2 ^ 16 : Nat) : Int) < 0) := by omega
  simp only [hn3, if_false]
  exact ⟨_, rfl, by simp⟩
/-- An ACL frame that declares 65535 payload bytes and ends after one of them:
`acl_len` wraps to 4, and the padded tail is never written. -/
theorem acl_short_wrap (len : Nat) (hlen : len = 65535) :
    (BT_ACL_PACKET_TYPE :: ([0x00, 0x00, 0xff, 0xff] ++ [0xaa]
        ++ List.replicate (len - [(0xaa : Byte)].length) 0)).length = len + 5
    ∧ (copy_bt_data_to_channel
          (world_bt_client [ReadEv.data [0x00, 0x00, 0xff, 0xff, 0xaa]]) 5 3
          BT_ACL_PACKET_TYPE HOST_TO_SOC).1 = 4
    ∧ written 3 (copy_bt_data_to_channel
          (world_bt_client [ReadEv.data [0x00, 0x00, 0xff, 0xff, 0xaa]]) 5 3
          BT_ACL_PACKET_TYPE HOST_TO_SOC).2.log = [0x02, 0x00, 0x00, 0xff] := by
  obtain ⟨w1, hr, hlog⟩ := bt_case_short
    (world_bt_client [ReadEv.data [0x00, 0x00, 0xff, 0xff, 0xaa]]) 5 3 BT_ACL_PACKET_TYPE
    BT_ACL_HDR_SIZE len acl_length [0x00, 0x00, 0xff, 0xff] [0xaa] (by decide) rfl
    (by decide) (by decide)
    (by rw [hlen]; simp [acl_length, blit, BT_ACL_HDR_LEN_OFFSET]; decide)
    (by rw [hlen]; simp) rfl
    (by decide) (by rw [hlen]; rfl)
  have hcopy : copy_bt_data_to_channel
      (world_bt_client [ReadEv.data [0x00, 0x00, 0xff, 0xff, 0xaa]]) 5 3
      BT_ACL_PACKET_TYPE HOST_TO_SOC
      = bt_case (world_bt_client [ReadEv.data [0x00, 0x00, 0xff, 0xff, 0xaa]]) 5 3
          BT_ACL_PACKET_TYPE false BT_ACL_HDR_SIZE acl_length := by
    simp [copy_bt_data_to_channel]
  rw [hcopy, hr]
  have hm : (len + BT_ACL_HDR_SIZE + 1) % 2 ^ 16 = 4 := by rw [hlen]; rfl
  rw [hm] at hlog
  refine ⟨?_, by rw [hm]; rfl, ?_⟩
  · simp only [List.length_cons, List.length_append, List.length_replicate, List.length_nil]
    omega
  · simp only [hlog]
    simp [world_bt_client, World.idle, written, Event.accepted, BT_ACL_PACKET_TYPE]
/-- C25, within the 16-bit range of acl_len: the header of a BT frame (ACL with
declared length L at most 65530, SCO, CMD or EVT with any length byte L) was
read completely and the source reaches end-of-stream after only k < L payload
bytes. With the destination present (descriptor not 0, a BT peer recorded),
allocation succeeding and the write completing, copy_bt_data_to_channel still
forwards the frame with its full declared size: one write of type byte ++
header ++ the k received bytes ++ (L - k) zero bytes, 1 + header size + L
bytes in all, and that size is the result. -/
theorem copy_bt_data_to_channel_pads_short_payload (w : World)
    (src_fd dest_fd direction : Int) (pb : Byte) (hdr received : List Byte) (len : Nat)
    (hfam : (pb = BT_ACL_PACKET_TYPE ∧ hdr.length = BT_ACL_HDR_SIZE
              ∧ acl_length hdr = len ∧ len ≤ 65530)
          ∨ ((pb = BT_SCO_PACKET_TYPE ∨ pb = BT_CMD_PACKET_TYPE)
              ∧ hdr.length = BT_SCO_HDR_SIZE
              ∧ (hdr.getD BT_SCO_HDR_LEN_OFFSET 0).val = len)
          ∨ (pb = BT_EVT_PACKET_TYPE ∧ hdr.length = BT_EVT_HDR_SIZE
              ∧ (hdr.getD BT_EVT_HDR_LEN_OFFSET 0).val = len))
    (hav : avail (w.rd src_fd) = hdr ++ received)
    (hend : endsInError (w.rd src_fd) = false)
    (hk : received.length < len)
    (hoom : w.oom = false) (hdest : dest_fd ≠ 0) (hbt : w.remote_bt_fd ≠ 0)
    (hw : write_completes w dest_fd (1 + hdr.length + len) = true) :
    (copy_bt_data_to_channel w src_fd dest_fd pb direction).1
        = ((1 + hdr.length + len : Nat) : Int)
    ∧ (copy_bt_data_to_channel w src_fd dest_fd pb direction).2.log
        = w.log ++ [Event.lock,
            Event.write dest_fd
              (pb :: (hdr ++ received ++ List.replicate (len - received.length) 0))
              ((1 + hdr.length + len : Nat) : Int),
            Event.unlock]
    ∧ written dest_fd (copy_bt_data_to_channel w src_fd dest_fd pb direction).2.log
        = written dest_fd w.log
          ++ (pb :: (hdr ++ received ++ List.replicate (len - received.length) 0))
    ∧ (pb :: (hdr ++ received ++ List.replicate (len - received.length) 0)).length
        = 1 + hdr.length + len := by
  have hnv : decide (dest_fd = 0) = false := by simp [hdest]
  have hsz : hdr.length ≤ MAX_BT_HDR_SIZE := by
    rcases hfam with ⟨_, h, _⟩ | ⟨_, h, _⟩ | ⟨_, h, _⟩ <;> rw [h] <;> decide
  have hmod : (len + hdr.length + 1) % 2 ^ 16 = 1 + hdr.length + len := by
    have h4 : hdr.length ≤ 4 := hsz
    have hlen : len + hdr.length + 1 < 2 ^ 16 := by
      rcases hfam with ⟨_, h, _, hl⟩ | ⟨_, h, hl⟩ | ⟨_, h, hl⟩
      · rw [h]; simp only [BT_ACL_HDR_SIZE]; omega
      · rw [h, ← hl]; simp only [BT_SCO_HDR_SIZE]; omega
      · rw [h, ← hl]; simp only [BT_EVT_HDR_SIZE]; omega
    rw [Nat.mod_eq_of_lt hlen]; omega
  have hcase : ∃ length_of : List Byte → Nat,
      copy_bt_data_to_channel w src_fd dest_fd pb direction
        = bt_case w src_fd dest_fd pb false hdr.length length_of
      ∧ length_of (blit (uninit w MAX_BT_HDR_SIZE) 0 hdr) = len := by
    rcases hfam with ⟨hp, hh, hlen, _⟩ | ⟨hp, hh, hlen⟩ | ⟨hp, hh, hlen⟩
    · refine ⟨acl_length, ?_, ?_⟩
      · subst hp
        rw [copy_bt_acl, hnv, hh]
      · rw [acl_length_blit w hdr hh]; exact hlen
    · refine ⟨fun hdr => (hdr.getD BT_SCO_HDR_LEN_OFFSET 0).val, ?_, ?_⟩
      · unfold copy_bt_data_to_channel
        rw [hnv, hh]
        rcases hp with hp | hp <;> subst hp
        · rw [if_neg (by decide), if_pos (by decide)]
        · rw [if_neg (by decide), if_pos (by decide)]
      · simp only []
        rw [blit_zero_getD _ _ _ (by rw [hh]; decide)]
        exact hlen
    · refine ⟨fun hdr => (hdr.getD BT_EVT_HDR_LEN_OFFSET 0).val, ?_, ?_⟩
      · subst hp
        rw [copy_bt_evt, hnv, hh]
      · simp only []
        rw [blit_zero_getD _ _ _ (by rw [hh]; decide)]
        exact hlen
  obtain ⟨length_of, hcopy, hlen⟩ := hcase
  obtain ⟨w1, hr, hlog⟩ := bt_case_short w src_fd dest_fd pb hdr.length len length_of
    hdr received hsz rfl hav hend hlen hk hoom hbt (by rw [hmod]; exact hw)
  rw [hmod] at hr hlog
  have hlength : (pb :: (hdr ++ received ++ List.replicate (len - received.length) 0)).length
      = 1 + hdr.length + len := by
    simp; omega
  have htake : List.take (1 + hdr.length + len)
      (pb :: (hdr ++ received ++ List.replicate (len - received.length) 0))
      = pb :: (hdr ++ received ++ List.replicate (len - received.length) 0) :=
    List.take_of_length_le (by rw [hlength])
  rw [htake] at hlog
  rw [hcopy, hr]
  refine ⟨rfl, hlog, ?_, hlength⟩
  simp only [hlog]
  exact written_log_frame dest_fd w.log _ _ hlength.symm

/-- C25, witness: the BT client (descriptor 5) sends the command header
03 0c 02 (two payload bytes declared), one payload byte aa, and closes. The
transport (descriptor 3) receives 01 03 0c 02 aa 00. -/
theorem copy_bt_data_to_channel_pads_short_payload_witness :
    (copy_bt_data_to_channel (world_bt_client [ReadEv.data [0x03, 0x0c, 0x02, 0xaa]]) 5 3
          BT_CMD_PACKET_TYPE HOST_TO_SOC).1
        = ((1 + [(0x03 : Byte), 0x0c, 0x02].length + 2 : Nat) : Int)
    ∧ (copy_bt_data_to_channel (world_bt_client [ReadEv.data [0x03, 0x0c, 0x02, 0xaa]]) 5 3
          BT_CMD_PACKET_TYPE HOST_TO_SOC).2.log
        = (world_bt_client [ReadEv.data [0x03, 0x0c, 0x02, 0xaa]]).log ++ [Event.lock,
            Event.write 3
              (BT_CMD_PACKET_TYPE :: ([0x03, 0x0c, 0x02] ++ [0xaa]
                ++ List.replicate (2 - [(0xaa : Byte)].length) 0))
              ((1 + [(0x03 : Byte), 0x0c, 0x02].length + 2 : Nat) : Int),
            Event.unlock]
    ∧ written 3 (copy_bt_data_to_channel
          (world_bt_client [ReadEv.data [0x03, 0x0c, 0x02, 0xaa]]) 5 3
          BT_CMD_PACKET_TYPE HOST_TO_SOC).2.log
        = written 3 (world_bt_client [ReadEv.data [0x03, 0x0c, 0x02, 0xaa]]).log
          ++ (BT_CMD_PACKET_TYPE :: ([0x03, 0x0c, 0x02] ++ [0xaa]
                ++ List.replicate (2 - [(0xaa : Byte)].length) 0))
    ∧ (BT_CMD_PACKET_TYPE :: ([0x03, 0x0c, 0x02] ++ [0xaa]
          ++ List.replicate (2 - [(0xaa : Byte)].length) 0)).length
        = 1 + [(0x03 : Byte), 0x0c, 0x02].length + 2 :=
  copy_bt_data_to_channel_pads_short_payload
    (world_bt_client [ReadEv.data [0x03, 0x0c, 0x02, 0xaa]]) 5 3 HOST_TO_SOC
    BT_CMD_PACKET_TYPE [0x03, 0x0c, 0x02] [0xaa] 2
    (Or.inr (Or.inl ⟨Or.inr rfl, rfl, rfl⟩)) (by decide) (by decide) (by decide) rfl
    (by decide) (by decide) (by decide)

/-- The same source checked by evaluation: 01 03 0c 02 aa 00 is written. -/
theorem copy_bt_data_to_channel_pads_example :
    written 3 (copy_bt_data_to_channel
        (world_bt_client [ReadEv.data [0x03, 0x0c, 0x02, 0xaa]]) 5 3
        BT_CMD_PACKET_TYPE HOST_TO_SOC).2.log = [0x01, 0x03, 0x0c, 0x02, 0xaa, 0x00]
    ∧ (copy_bt_data_to_channel
        (world_bt_client [ReadEv.data [0x03, 0x0c, 0x02, 0xaa]]) 5 3
        BT_CMD_PACKET_TYPE HOST_TO_SOC).1 = 6 := by
  decide

/-- C25, failing input: the BT client (descriptor 5) sends the ACL header
00 00 ff ff (L = 65535 payload bytes declared), the one payload byte aa, and
closes. The zero-padded frame of the declared size has 65540 bytes, but
L + 5 wraps to 4 in the `unsigned short` acl_len: copy_bt_data_to_channel
writes only 02 00 00 ff to the transport and returns 4. -/
theorem copy_bt_data_to_channel_short_payload_wraps :
    (BT_ACL_PACKET_TYPE :: ([0x00, 0x00, 0xff, 0xff] ++ [0xaa]
        ++ List.replicate (65535 - [(0xaa : Byte)].length) 0)).length = 65535 + 5
    ∧ (copy_bt_data_to_channel
          (world_bt_client [ReadEv.data [0x00, 0x00, 0xff, 0xff, 0xaa]]) 5 3
          BT_ACL_PACKET_TYPE HOST_TO_SOC).1 = 4
    ∧ written 3 (copy_bt_data_to_channel
          (world_bt_client [ReadEv.data [0x00, 0x00, 0xff, 0xff, 0xaa]]) 5 3
          BT_ACL_PACKET_TYPE HOST_TO_SOC).2.log = [0x02, 0x00, 0x00, 0xff] :=
  acl_short_wrap 65535 rfl

/-- The source of that input: the header 00 00 ff ff declares 65535 payload
bytes, one byte follows, then end-of-stream. -/
theorem short_acl_source :
    avail ((world_bt_client [ReadEv.data [0x00, 0x00, 0xff, 0xff, 0xaa]]).rd 5)
        = [0x00, 0x00, 0xff, 0xff] ++ [0xaa]
    ∧ endsInError ((world_bt_client [ReadEv.data [0x00, 0x00, 0xff, 0xff, 0xaa]]).rd 5) = false
    ∧ acl_length [0x00, 0x00, 0xff, 0xff] = 65535 := by
  refine ⟨by decide, by decide, ?_⟩
  simp [acl_length, BT_ACL_HDR_LEN_OFFSET]
  decide

/-! ## C26: the reference count never goes below zero -/

/-- No decimal digit is the minus sign. -/
theorem digitChar_not_minus (d : Nat) (h : d < 10) : (Nat.digitChar d).toNat ≠ 45 := by
  interval_cases d <;> decide

theorem toDigitsCore_not_minus :
    ∀ (fuel n : Nat) (ds : List Char), (∀ c ∈ ds, c.toNat ≠ 45) →
      ∀ c ∈ Nat.toDigitsCore 10 fuel n ds, c.toNat ≠ 45 := by
  intro fuel
  induction fuel with
  | zero => intro n ds hds c hc; exact hds c (by simpa [Nat.toDigitsCore] using hc)
  | succ f ih =>
    intro n ds hds c hc
    have hd : ∀ c ∈ Nat.digitChar (n % 10) :: ds, c.toNat ≠ 45 := by
      intro c hc
      rcases List.mem_cons.mp hc with h | h
      · rw [h]; exact digitChar_not_minus _ (Nat.mod_lt _ (by decide))
      · exact hds c h
    simp only [Nat.toDigitsCore] at hc
    split_ifs at hc
    · exact hd c hc
    · exact ih _ _ hd c hc

/-- The decimal text of a non-negative `int` has no minus sign. -/
theorem toString_not_minus (v : Int) (hv : 0 ≤ v) :
    ∀ c ∈ (toString v).toList, c.toNat ≠ 45 := by
  obtain ⟨n, rfl⟩ := Int.eq_ofNat_of_zero_le hv
  intro c hc
  exact toDigitsCore_not_minus (n + 1) n [] (by simp) c hc

/-- `atoi` of a text without a minus sign is not negative. -/
theorem atoi_nonneg (s : String) (h : ∀ c ∈ s.toList, c.toNat ≠ 45) : 0 ≤ atoi s := by
  unfold atoi
  have hsub : ∀ c ∈ s.toList.dropWhile (fun c => c.toNat = 32 ∨ (9 ≤ c.toNat ∧ c.toNat ≤ 13)),
      c.toNat ≠ 45 :=
    fun c hc => h c ((List.dropWhile_sublist _).subset hc)
  revert hsub
  generalize List.dropWhile _ s.toList = l
  intro hl
  cases l with
  | nil => exact Int.le_refl 0
  | cons c cs =>
    have hc : c.toNat ≠ 45 := hl c (List.mem_cons_self _ _)
    simp only [hc, if_false]
    split_ifs <;> omega

theorem property_get_set (w : World) (k : PropKey) (v d : String) :
    property_get (property_set w k v) k d = if v = "" then d else v := by
  simp [property_get, property_set]

/-- What `snprintf(ref_count, 3, "%d", v)` leaves for a non-negative `v` parses
as a non-negative integer. -/
theorem snprintf_d_nonneg (size : Nat) (v : Int) (hv : 0 ≤ v) : 0 ≤ atoi (snprintf_d size v) := by
  apply atoi_nonneg
  intro c hc
  exact toString_not_minus v hv c (List.mem_of_mem_take hc)

/-- C26: handle_cleanup never drives the reference count below zero. With r the
stored reference count as `atoi` parses it (0 for an unset or non-numeric
property): the only write to vendor.wc_transport.ref_count handle_cleanup can
perform is the one of r - 1, cut to two characters, and it is performed only
when 0 < r (and the clean_up flag reads 0), so for r <= 0 there is no write;
for 0 < r the value written parses as a non-negative integer; and a stored
count that does not parse as negative does not parse as negative afterwards. -/
theorem handle_cleanup_ref_count_not_negative (w : World) :
    property_writes PropKey.ref_count (handle_cleanup w).1.log
        = property_writes PropKey.ref_count w.log
          ++ (if atoi (property_get w PropKey.clean_up "0") = 0
                ∧ 0 < atoi (property_get w PropKey.ref_count "0")
              then [snprintf_d 3 (atoi (property_get w PropKey.ref_count "0") - 1)] else [])
    ∧ (atoi (property_get w PropKey.ref_count "0") ≤ 0
        ∨ 0 ≤ atoi (snprintf_d 3 (atoi (property_get w PropKey.ref_count "0") - 1)))
    ∧ (atoi (property_get w PropKey.ref_count "0") < 0
        ∨ 0 ≤ atoi (property_get (handle_cleanup w).1 PropKey.ref_count "0")) := by
  obtain ⟨hlog, hprop⟩ := handle_cleanup_ref_count w
  have hget : property_get (handle_cleanup w).1 PropKey.ref_count "0"
      = property_get (ref_count_update w) PropKey.ref_count "0" := by
    unfold property_get; rw [hprop]
  rw [hlog, hget]
  unfold ref_count_update
  simp only []
  by_cases hr : 0 < atoi (property_get w PropKey.ref_count "0")
  · have hnn := snprintf_d_nonneg 3 (atoi (property_get w PropKey.ref_count "0") - 1) (by omega)
    refine ⟨?_, Or.inr hnn, Or.inr ?_⟩
    · by_cases hc : atoi (property_get w PropKey.clean_up "0") = 0
      · simp [hc, hr, property_set, property_writes_append, property_writes]
      · simp [hc]
    · by_cases hc : atoi (property_get w PropKey.clean_up "0") = 0
      · simp only [hc, hr, if_true, gt_iff_lt]
        rw [property_get_set]
        split_ifs
        · decide
        · exact hnn
      · simp only [hc, if_false]; omega
  · refine ⟨?_, Or.inl (by omega), ?_⟩
    · simp [hr]
    · have hsame : (if atoi (property_get w PropKey.clean_up "0") = 0 then
          if atoi (property_get w PropKey.ref_count "0") > 0 then
            property_set w PropKey.ref_count
              (snprintf_d 3 (atoi (property_get w PropKey.ref_count "0") - 1))
          else w
        else w) = w := by
        split_ifs <;> rfl
      rw [hsame]
      omega

/-- Instances of C26 by evaluation: an unset, a non-numeric, a zero and a
negative count cause no write; the counts 1, 100 and 1001 are written back as
0, 99 and 10 (two characters of 1000). -/
theorem handle_cleanup_ref_count_examples :
    property_writes PropKey.ref_count (handle_cleanup (world_props "" "" "" 5 6)).1.log = []
    ∧ property_writes PropKey.ref_count (handle_cleanup (world_props "x" "" "" 5 6)).1.log = []
    ∧ property_writes PropKey.ref_count (handle_cleanup (world_props "0" "" "" 5 6)).1.log = []
    ∧ property_writes PropKey.ref_count (handle_cleanup (world_props "-3" "" "" 5 6)).1.log = []
    ∧ property_writes PropKey.ref_count (handle_cleanup (world_props "1" "" "" 5 6)).1.log = ["0"]
    ∧ property_writes PropKey.ref_count (handle_cleanup (world_props "100" "" "" 5 6)).1.log
        = ["99"]
    ∧ property_writes PropKey.ref_count (handle_cleanup (world_props "1001" "" "" 5 6)).1.log
        = ["10"] := by
  refine ⟨?_, ?_, ?_, ?_, ?_, ?_, ?_⟩ <;> decide

/-! ## C8: a failing read and the two loops -/

/-- Both directions by evaluation. Downlink: after 04 0e 02 aa (an event that
declares two payload bytes, one arrives) the read on the transport fails, and
the reader loop ends with -1 having written nothing, although the transport
would deliver a complete event next. Uplink: the BT client sends 01 03 0c 02 aa
(two payload bytes declared, one arrives), its next read fails, and the handler
loop of bt_thread goes on: the following command 01 03 0c 00 is forwarded to
the transport and the peer is closed only at end of stream. -/
theorem failed_read_examples :
    (reader_loop 5 (world_transport [ReadEv.data [0x04, 0x0e, 0x02, 0xaa], ReadEv.fail 5,
        ReadEv.data [0x04, 0x0e, 0x00]])).map Prod.fst = some (-1)
    ∧ (reader_loop 5 (world_transport [ReadEv.data [0x04, 0x0e, 0x02, 0xaa], ReadEv.fail 5,
        ReadEv.data [0x04, 0x0e, 0x00]])).map (fun r => r.2.log) = some []
    ∧ (handle_command_writes (world_bt_client [ReadEv.data [0x01, 0x03, 0x0c, 0x02, 0xaa],
        ReadEv.fail 5, ReadEv.data [0x01, 0x03, 0x0c, 0x00]]) 5).1 = 0
    ∧ (bt_thread 9 (world_bt_session [ReadEv.data [0x01, 0x03, 0x0c, 0x02, 0xaa],
        ReadEv.fail 5, ReadEv.data [0x01, 0x03, 0x0c, 0x00]])).2.log
        = [Event.close 4, Event.lock, Event.write 3 [0x01, 0x03, 0x0c, 0x00] 4, Event.unlock,
            Event.close 5]
    ∧ (bt_thread 9 (world_bt_session [ReadEv.data [0x01, 0x03, 0x0c, 0x02, 0xaa],
        ReadEv.fail 5, ReadEv.data [0x01, 0x03, 0x0c, 0x00]])).1 = Outcome.blocked := by
  refine ⟨?_, ?_, ?_, ?_, ?_⟩ <;> decide

end WcnssFilter
